import Mathlib

/-!
# A verification development for the two-interface software router

Shallow embedding of the C sources of the router (`src/ch5/netutil.c`,
`src/ch5/ip2mac.c`, `src/ch5/main.c`, `router-c/src/ch3/checksum.c`).

Conventions of the embedding

* A `u_char *` is a `Mem`: the cell found at each offset from the pointer.
  A cell holds eight bits, so every read goes through `byteAt`.
* The host is little-endian (x86): a 16-bit load of the bytes `b0 b1` is
  `b0 + 256 * b1`, and `htons` swaps the two bytes.
* `u_int32_t` arithmetic is `Nat` arithmetic followed by `% 2 ^ 32`,
  `u_int16_t` by `% 65536`; `int` values are `Int`.
-/

namespace Router

/-! ## Memory -/

/-- Memory reached through a pointer, indexed by byte offset. -/
abbrev Mem := Nat → Nat

/-- The byte stored at offset `i`. -/
def byteAt (m : Mem) (i : Nat) : Nat := m i % 256

/-- The value `*(u_int16_t *)(p + off)` on the little-endian host. -/
def load16 (m : Mem) (off : Nat) : Nat := byteAt m off + 256 * byteAt m (off + 1)

/-- The value `*(u_int32_t *)(p + off)` on the little-endian host. -/
def load32 (m : Mem) (off : Nat) : Nat :=
  byteAt m off + 256 * byteAt m (off + 1) + 65536 * byteAt m (off + 2)
    + 16777216 * byteAt m (off + 3)

/-- The `n` bytes found at `off`, as `memcpy` or `write` sees them. -/
def readBytes (m : Mem) (off n : Nat) : List Nat :=
  (List.range n).map (fun i => byteAt m (off + i))

/-- A byte array viewed as memory (cells past its end read as zero). -/
def memOf (l : List Nat) : Mem := fun i => l.getD i 0

/-- The effect of `memcpy(p + off, src, src.length)` on the memory at `p`. -/
def storeBytes (m : Mem) (off : Nat) (src : List Nat) : Mem :=
  fun i => if off ≤ i ∧ i < off + src.length then src.getD (i - off) 0 else m i

/-- Two buffers laid out one after the other: `A[0..lenA)` then `B`. -/
def concatMem (A : Mem) (lenA : Nat) (B : Mem) : Mem :=
  fun i => if i < lenA then A i else B (i - lenA)

/-- The two memory bytes of a 16-bit value stored by the little-endian host. -/
def bytes16 (v : Nat) : List Nat := [v % 256, v / 256 % 256]

/-- The four memory bytes of a 32-bit value stored by the little-endian host. -/
def bytes32 (v : Nat) : List Nat :=
  [v % 256, v / 256 % 256, v / 65536 % 256, v / 16777216 % 256]

/-- The function `htons` on the little-endian host: swap the two bytes. -/
def htons (x : Nat) : Nat := x % 256 * 256 + x / 256 % 256

/-- The function `ntohs` on the little-endian host: swap the two bytes. -/
def ntohs (x : Nat) : Nat := x % 256 * 256 + x / 256 % 256

/-! ## ChecksumEngine (`netutil.c`, `checksum.c`) -/

/-- One pass of the summing loop body:
`sum += w; if (sum & 0x80000000) sum = (sum & 0xFFFF) + (sum >> 16);`
with `sum` a `u_int32_t`. -/
def addWord (sum w : Nat) : Nat :=
  let s := (sum + w) % 2 ^ 32
  if s &&& 0x80000000 ≠ 0 then (s &&& 0xFFFF) + (s >>> 16) else s

/-- The loop `for (c = ...; c > 1; c -= 2) { sum += *ptr; fold; ptr++; }` for a
counter `c ≥ 0`; the result is the final `(c, ptr, sum)`, `ptr` being a byte
offset into `m`. -/
def sumWords (m : Mem) : Nat → Nat → Nat → Nat × Nat × Nat
  | 0, ptr, sum => (0, ptr, sum)
  | 1, ptr, sum => (1, ptr, sum)
  | c + 2, ptr, sum => sumWords m c (ptr + 2) (addWord sum (load16 m ptr))

/-- The same loop for an `int` counter: a negative count runs no pass. -/
def wordLoop (m : Mem) (len : Int) (ptr sum : Nat) : Int × Nat × Nat :=
  match len with
  | Int.ofNat n => ((sumWords m n ptr sum).1, (sumWords m n ptr sum).2.1, (sumWords m n ptr sum).2.2)
  | Int.negSucc _ => (len, ptr, sum)

/-- The loop `while (sum >> 16) sum = (sum & 0xFFFF) + (sum >> 16);`, run for at
most `fuel` passes. Every pass makes `sum` strictly smaller, so `sum` passes are
always enough (`foldCarry_exits`). -/
def foldCarry : Nat → Nat → Nat
  | 0, sum => sum
  | fuel + 1, sum =>
    if sum >>> 16 ≠ 0 then foldCarry fuel ((sum &&& 0xFFFF) + (sum >>> 16)) else sum

/-- The statement `return ~sum;` of a function returning `u_int16_t`. -/
def complement16 (sum : Nat) : Nat := (0xFFFFFFFF - sum) % 65536

/-- The function `checksum(data, len)`. -/
def checksum (data : Mem) (len : Int) : Nat :=
  let r := wordLoop data len 0 0
  let c := r.1
  let ptr := r.2.1
  let sum := r.2.2
  -- if (c == 1) { val = 0; memcpy(&val, ptr, 1); sum += val; }
  let sum := if c = 1 then (sum + byteAt data ptr) % 2 ^ 32 else sum
  let sum := foldCarry sum sum
  complement16 sum

/-- The function `checksum2(data1, len1, data2, len2)`. -/
def checksum2 (data1 : Mem) (len1 : Int) (data2 : Mem) (len2 : Int) : Nat :=
  let r := wordLoop data1 len1 0 0
  let c := r.1
  let ptr := r.2.1
  let sum := r.2.2
  -- if (c == 1) { val = ((*ptr) << 8) + (*data2); sum += val; fold;
  --               ptr = data2 + 1; len2--; } else { ptr = data2; }
  let val := ((load16 data1 ptr <<< 8) + byteAt data2 0) % 65536
  let sum := if c = 1 then addWord sum val else sum
  let ptr2 := if c = 1 then 1 else 0
  let len2 := if c = 1 then len2 - 1 else len2
  let r := wordLoop data2 len2 ptr2 sum
  let c := r.1
  let ptr := r.2.1
  let sum := r.2.2
  let sum := if c = 1 then (sum + byteAt data2 ptr) % 2 ^ 32 else sum
  let sum := foldCarry sum sum
  complement16 sum

/-- The function `checkIPchecksum(iphdr, option, optionLen)` of `netutil.c`:
the header is first copied into the local `iptmp`. -/
def checkIPchecksum (iphdr : Mem) (option : Mem) (optionLen : Int) : Int :=
  let iptmp : Mem := memOf (readBytes iphdr 0 20)
  if optionLen = 0 then
    let sum := checksum iptmp 20
    if sum = 0 ∨ sum = 0xFFFF then 1 else 0
  else
    let sum := checksum2 iptmp 20 option optionLen
    if sum = 0 ∨ sum = 0xFFFF then 1 else 0

/-- Ghost trace of `checksum`: the exact (untruncated) value of `sum + w` at
every `sum += ...` the summing loop and the trailing-byte step execute. -/
def rawAdds (m : Mem) : Nat → Nat → Nat → List Nat
  | 0, _, _ => []
  | 1, ptr, sum => [sum + byteAt m ptr]
  | c + 2, ptr, sum =>
    (sum + load16 m ptr) :: rawAdds m c (ptr + 2) (addWord sum (load16 m ptr))

/-! ### The checksum as the specification words it -/

/-- The consecutive 16-bit words of `m[off .. off+len)`, read as the host reads
them; an odd trailing byte is the word made of that byte followed by a zero
byte. -/
def words (m : Mem) : Nat → Nat → List Nat
  | 0, _ => []
  | 1, off => [byteAt m off + 256 * 0]
  | len + 2, off => load16 m off :: words m len (off + 2)

/-- End-around-carry (ones-complement) addition of two 16-bit values. -/
def eacAdd (a b : Nat) : Nat :=
  if 65536 ≤ a + b then (a + b) % 65536 + 1 else a + b

/-- The folded ones-complement sum of a list of 16-bit words. -/
def onesSum (ws : List Nat) : Nat := ws.foldl eacAdd 0

/-- The 16-bit bitwise complement. -/
def not16 (x : Nat) : Nat := 65535 - x % 65536

/-- The value in `0 .. 65535` every carry-folding of `x` ends on: `0` for `0`,
and otherwise the representative of `x` modulo `65535` taken in `1 .. 65535`. -/
def red (x : Nat) : Nat := if x = 0 then 0 else (x - 1) % 65535 + 1

/-! ## Interfaces, cache entries and queues (`base.h`, `ip2mac.c`) -/

/-- The macro `FLAG_FREE`. -/
def FLAG_FREE : Int := 0
/-- The macro `FLAG_OK`: the entry is Resolved. -/
def FLAG_OK : Int := 1
/-- The macro `FLAG_NG`: the entry is Negative. -/
def FLAG_NG : Int := -1
/-- The macro `IP2MAC_TIMEOUT_SEC`. -/
def IP2MAC_TIMEOUT_SEC : Int := 60
/-- The macro `IP2MAC_NG_TIMEOUT_SEC`. -/
def IP2MAC_NG_TIMEOUT_SEC : Int := 1

/-- The struct `DEVICE`; `addr`, `subnet`, `netmask` are `s_addr` values. -/
structure DEVICE where
  soc : Int
  hwaddr : List Nat
  addr : Nat
  subnet : Nat
  netmask : Nat
deriving DecidableEq, Repr

/-- The struct `DATA_BUF`: one pending packet (the links of the list are the
positions in the queue). -/
structure DATA_BUF where
  t : Int
  size : Nat
  data : List Nat
deriving DecidableEq, Repr

/-- The struct `SEND_DATA`: the linked list that starts at `top`, as the list
of its elements from `top` to `bottom`. -/
structure SEND_DATA where
  top : List DATA_BUF
deriving DecidableEq, Repr

/-- Modelled from the spec: the counter `dno` is maintained by `sendBuf.c`,
which is not among the sources; the spec reads the test `sd.dno != 0` as
"its pending queue is already non-empty", so `dno` is the number of packets
in the pending queue. -/
def SEND_DATA.dno (sd : SEND_DATA) : Nat := sd.top.length

/-- The struct `IP2MAC`: one entry of an ARP table. -/
structure IP2MAC where
  flag : Int
  deviceNo : Nat
  addr : Nat
  hwaddr : List Nat
  lastTime : Int
  sd : SEND_DATA
deriving DecidableEq, Repr

instance : Inhabited IP2MAC := ⟨⟨FLAG_FREE, 0, 0, [], 0, ⟨[]⟩⟩⟩

/-- One element of `Ip2Macs[2]`: `data` lists the `no` entries in use, `size`
is the allocated capacity. -/
structure Ip2MacTable where
  data : List IP2MAC
  size : Nat
deriving DecidableEq, Repr

/-- The field `no`: the number of entries in use. -/
def Ip2MacTable.no (t : Ip2MacTable) : Nat := t.data.length

/-- The queue `SendReq` from `top` to `bottom`: pairs `(deviceNo, ip2macNo)`. -/
abbrev SendReqQueue := List (Nat × Nat)

/-- Modelled from the spec: `AppendSendData` of `sendBuf.c` (not among the
sources) enqueues the current frame onto the entry's queue, preserving order;
a pending packet holds the raw frame bytes, their size and the enqueue time. -/
def AppendSendData (ip2mac : IP2MAC) (_deviceNo : Nat) (_addr : Nat) (data : Mem) (size : Int)
    (now : Int) : IP2MAC :=
  { ip2mac with sd := ⟨ip2mac.sd.top ++ [⟨now, size.toNat, readBytes data 0 size.toNat⟩]⟩ }

/-- Modelled from the spec: `GetSendData` of `sendBuf.c` (not among the
sources) dequeues the oldest pending packet of the entry; `none` stands for
the return value -1 on an empty queue, otherwise the result is the size, the
data and the entry left. -/
def GetSendData (ip2mac : IP2MAC) : Option (Nat × List Nat × IP2MAC) :=
  match ip2mac.sd.top with
  | [] => none
  | d :: rest => some (d.size, d.data, { ip2mac with sd := ⟨rest⟩ })

/-- Modelled from the spec: `FreeSendData` of `sendBuf.c` (not among the
sources) drops every packet still pending on the entry being reclaimed. -/
def FreeSendData (ip2mac : IP2MAC) : IP2MAC := { ip2mac with sd := ⟨[]⟩ }

/-- The function `AppendSendReqData(deviceNo, ip2macNo)` (lock and allocation
succeeding): the status returned and the queue left. -/
def AppendSendReqData (req : SendReqQueue) (deviceNo ip2macNo : Nat) : Int × SendReqQueue :=
  if req.any (fun d => d.1 = deviceNo ∧ d.2 = ip2macNo) then (1, req)
  else (0, req ++ [(deviceNo, ip2macNo)])

/-- The function `GetSendReqData`: `none` stands for -1, otherwise the pair
written to `*deviceNo`, `*ip2macNo` and the queue left. -/
def GetSendReqData (req : SendReqQueue) : Option ((Nat × Nat) × SendReqQueue) :=
  match req with
  | [] => none
  | d :: rest => some (d, rest)

/-- The aging test of `Ip2MacSearch`:
`(flag == FLAG_OK && now - lastTime > 60) || (flag == FLAG_NG && now - lastTime > 1)`. -/
def expired (ip2mac : IP2MAC) (now : Int) : Bool :=
  (ip2mac.flag = FLAG_OK ∧ now - ip2mac.lastTime > IP2MAC_TIMEOUT_SEC) ∨
  (ip2mac.flag = FLAG_NG ∧ now - ip2mac.lastTime > IP2MAC_NG_TIMEOUT_SEC)

/-- How the scanning loop of `Ip2MacSearch` ends: by `return ip2mac` at index
`i`, or by running off the end of the table with `freeNo` (`none` is -1). -/
inductive Scan where
  | found (i : Nat) (data : List IP2MAC) (req : SendReqQueue)
  | fellThrough (freeNo : Option Nat) (data : List IP2MAC)
deriving DecidableEq, Repr

/-- The loop `for (i = 0; i < Ip2Macs[deviceNo].no; i++)` of `Ip2MacSearch`:
`pre` holds the entries already visited (as the loop left them), the next
argument the entries still to visit; `i` is `pre.length`. -/
def scanLoop (deviceNo : Nat) (addr : Nat) (hwaddr : Option Mem) (now : Int) :
    List IP2MAC → List IP2MAC → Option Nat → SendReqQueue → Scan
  | pre, [], freeNo, _ => Scan.fellThrough freeNo pre
  | pre, ip2mac :: rest, freeNo, req =>
    let i := pre.length
    if ip2mac.flag = FLAG_FREE then
      scanLoop deviceNo addr hwaddr now (pre ++ [ip2mac]) rest
        (if freeNo = none then some i else freeNo) req
    else if ip2mac.addr = addr then
      let ip2mac := if ip2mac.flag = FLAG_OK then { ip2mac with lastTime := now } else ip2mac
      match hwaddr with
      | some hw =>
        let ip2mac := { ip2mac with hwaddr := readBytes hw 0 6, flag := FLAG_OK }
        let req := if ip2mac.sd.top ≠ [] then (AppendSendReqData req deviceNo i).2 else req
        Scan.found i (pre ++ ip2mac :: rest) req
      | none =>
        if expired ip2mac now then
          scanLoop deviceNo addr hwaddr now
            (pre ++ [{ FreeSendData ip2mac with flag := FLAG_FREE }]) rest
            (if freeNo = none then some i else freeNo) req
        else
          Scan.found i (pre ++ ip2mac :: rest) req
    else if expired ip2mac now then
      scanLoop deviceNo addr hwaddr now
        (pre ++ [{ FreeSendData ip2mac with flag := FLAG_FREE }]) rest
        (if freeNo = none then some i else freeNo) req
    else
      scanLoop deviceNo addr hwaddr now (pre ++ [ip2mac]) rest freeNo req

/-- The entry `Ip2MacSearch` registers after the loop. -/
def newEntry (deviceNo : Nat) (addr : Nat) (hwaddr : Option Mem) (now : Int) : IP2MAC :=
  { deviceNo := deviceNo
    addr := addr
    flag := match hwaddr with
      | none => FLAG_NG
      | some _ => FLAG_OK
    hwaddr := match hwaddr with
      | none => [0, 0, 0, 0, 0, 0]
      | some hw => readBytes hw 0 6
    lastTime := now
    sd := ⟨[]⟩ }

/-- What `Ip2MacSearch` leaves: the index of the entry it returns a pointer
to, the table and the notification queue. -/
structure SearchResult where
  index : Nat
  table : Ip2MacTable
  SendReq : SendReqQueue
deriving DecidableEq, Repr

/-- The entry a search result points to. -/
def SearchResult.entry (r : SearchResult) : IP2MAC := r.table.data.getD r.index default

/-- The function `Ip2MacSearch(deviceNo, addr, hwaddr)`, run on the table of
`deviceNo` when `time(NULL)` returns `now`; `hwaddr = none` is `NULL`. -/
def Ip2MacSearch (deviceNo : Nat) (addr : Nat) (hwaddr : Option Mem) (now : Int)
    (tab : Ip2MacTable) (req : SendReqQueue) : SearchResult :=
  match scanLoop deviceNo addr hwaddr now [] tab.data none req with
  | Scan.found i data req => ⟨i, { tab with data := data }, req⟩
  | Scan.fellThrough none data =>
    -- no free slot: the entry is added at index `no`, growing the array by 1024
    let size := if data.length ≥ tab.size then
        (if tab.size = 0 then 1024 else tab.size + 1024) else tab.size
    ⟨data.length, ⟨data ++ [newEntry deviceNo addr hwaddr now], size⟩, req⟩
  | Scan.fellThrough (some freeNo) data =>
    ⟨freeNo, { tab with data := data.set freeNo (newEntry deviceNo addr hwaddr now) }, req⟩

/-! ## The router state and the forwarding engine (`ip2mac.c`, `main.c`) -/

/-- The globals set up once by `main`: `Device[2]` and `NextRouter.s_addr`. -/
structure Config where
  Device : Fin 2 → DEVICE
  NextRouter : Nat

/-- The mutable globals, with the log of the `write` calls made on the
sockets: each element is the descriptor and the bytes written. -/
structure State where
  Ip2Macs : Fin 2 → Ip2MacTable
  SendReq : SendReqQueue
  out : List (Int × List Nat)

/-- The memory at `p + k`. -/
def offsetMem (m : Mem) (k : Nat) : Mem := fun i => m (k + i)

/-- The constant `ETHERTYPE_ARP` of `net/ethernet.h`. -/
def ETHERTYPE_ARP : Nat := 0x0806
/-- The constant `ETHERTYPE_IP` of `net/ethernet.h`. -/
def ETHERTYPE_IP : Nat := 0x0800
/-- The constant `ARPHRD_ETHER` of `net/if_arp.h`. -/
def ARPHRD_ETHER : Nat := 1
/-- The constant `ARPOP_REQUEST` of `net/if_arp.h`. -/
def ARPOP_REQUEST : Nat := 1
/-- The constant `ARPOP_REPLY` of `net/if_arp.h`. -/
def ARPOP_REPLY : Nat := 2
/-- The constant `IPPROTO_ICMP` of `netinet/in.h`. -/
def IPPROTO_ICMP : Nat := 1
/-- The constant `ICMP_TIME_EXCEEDED` of `netinet/ip_icmp.h`. -/
def ICMP_TIME_EXCEEDED : Nat := 11
/-- The constant `ICMP_TIMXCEED_INTRANS` of `netinet/ip_icmp.h`. -/
def ICMP_TIMXCEED_INTRANS : Nat := 0
/-- The value `sizeof(struct icmp)` of `netinet/ip_icmp.h`. -/
def sizeof_struct_icmp : Nat := 28

/-- The frame `SendArpRequestB(soc, target_ip, target_mac, my_ip, my_mac)`
builds in `buf`: the Ethernet header followed by the `ether_arp` body. -/
def arpRequestFrame (target_ip : Nat) (target_mac : Mem) (my_ip : Nat) (my_mac : Mem) :
    List Nat :=
  -- arp.eh: ether_dhost, ether_shost, ether_type
  readBytes target_mac 0 6 ++ readBytes my_mac 0 6 ++ bytes16 (htons ETHERTYPE_ARP)
  -- arp.arp: arp_hrd, arp_pro, arp_hln, arp_pln, arp_op
  ++ bytes16 (htons ARPHRD_ETHER) ++ bytes16 (htons ETHERTYPE_IP) ++ [6, 4]
  ++ bytes16 (htons ARPOP_REQUEST)
  -- arp_sha, arp_spa, arp_tha, arp_tpa
  ++ readBytes my_mac 0 6 ++ bytes32 my_ip ++ [0, 0, 0, 0, 0, 0] ++ bytes32 target_ip

/-- The function `SendArpRequestB`: one `write` of the frame on `soc`. -/
def SendArpRequestB (soc : Int) (target_ip : Nat) (target_mac : Mem) (my_ip : Nat)
    (my_mac : Mem) (s : State) : State :=
  { s with out := s.out ++ [(soc, arpRequestFrame target_ip target_mac my_ip my_mac)] }

/-- The static array `bcast` of `Ip2Mac`. -/
def bcast : List Nat := [0xFF, 0xFF, 0xFF, 0xFF, 0xFF, 0xFF]

/-- The function `Ip2Mac(deviceNo, addr, hwaddr)`: the index of the entry it
returns a pointer to, and the state left. -/
def Ip2Mac (cfg : Config) (deviceNo : Fin 2) (addr : Nat) (hwaddr : Option Mem) (now : Int)
    (s : State) : Nat × State :=
  let r := Ip2MacSearch deviceNo.val addr hwaddr now (s.Ip2Macs deviceNo) s.SendReq
  let s1 : State :=
    { s with Ip2Macs := Function.update s.Ip2Macs deviceNo r.table, SendReq := r.SendReq }
  if r.entry.flag = FLAG_OK then (r.index, s1)
  else
    (r.index, SendArpRequestB (cfg.Device deviceNo).soc addr (memOf bcast)
      (cfg.Device deviceNo).addr (memOf (cfg.Device deviceNo).hwaddr) s1)

/-- The field `ihl` of a `struct iphdr` at `p` (low nibble of the first byte
on the little-endian host). -/
def ihl (iphdr : Mem) : Nat := byteAt iphdr 0 % 16

/-- The local array `option` once `memcpy(option, ptr, optionLen)` has run
(when `0 < optionLen`); without the copy the array keeps stack garbage `junk`. -/
def optionBuf (junk : Mem) (ptr : Mem) (optionLen : Int) : Mem :=
  if 0 < optionLen then storeBytes junk 0 (readBytes ptr 0 optionLen.toNat) else junk

/-- The forwarding step at the end of `AnalyzePacket`, done in place through
`eh` and `iphdr`: Ethernet destination and source are overwritten, the TTL is
decremented, the check field is zeroed and then filled with `checksum2` over
the header and the option copy; the result is the memory at `data`. -/
def forwardFrame (data : Mem) (option : Mem) (optionLen : Int) (hwaddr shost : List Nat) : Mem :=
  -- memcpy(eh->ether_dhost, hwaddr, 6); memcpy(eh->ether_shost, Device[tno].hwaddr, 6);
  let d1 := storeBytes data 0 (readBytes (memOf hwaddr) 0 6)
  let d2 := storeBytes d1 6 (readBytes (memOf shost) 0 6)
  -- iphdr->ttl--;
  let d3 := storeBytes d2 22 [(byteAt d2 22 + 255) % 256]
  -- iphdr->check = 0;
  let d4 := storeBytes d3 24 [0, 0]
  -- iphdr->check = checksum2((u_char *)iphdr, sizeof(struct iphdr), option, optionLen);
  storeBytes d4 24 (bytes16 (checksum2 (offsetMem d4 14) 20 option optionLen))

/-- The body of the `while (1)` loop of `BufferSendOne` for one dequeued
packet of `size` bytes at `data`: the bytes handed to `write`. The headers are
copied into the locals `eh` and `iphdr`, changed there and copied back. -/
def flushFrame (dev : DEVICE) (hwaddr : List Nat) (option : Mem) (size : Nat) (data : List Nat) :
    List Nat :=
  let m := memOf data
  -- memcpy(&eh, ptr, 14); memcpy(&iphdr, ptr, 20);
  let eh := memOf (readBytes m 0 14)
  let iphdr := memOf (readBytes m 14 20)
  let optionLen : Int := (ihl iphdr : Int) * 4 - 20
  let option := optionBuf option (offsetMem m 34) optionLen
  -- memcpy(eh.ether_dhost, ip2mac->hwaddr, 6); memcpy(eh.ether_shost, Device[..].hwaddr, 6);
  let eh := storeBytes (storeBytes eh 0 (readBytes (memOf hwaddr) 0 6)) 6
    (readBytes (memOf dev.hwaddr) 0 6)
  -- memcpy(data, &eh, sizeof(struct ether_header));
  let m := storeBytes m 0 (readBytes eh 0 14)
  -- iphdr.ttl--; iphdr.check = 0; iphdr.check = checksum2(&iphdr, 20, option, optionLen);
  let iphdr := storeBytes iphdr 8 [(byteAt iphdr 8 + 255) % 256]
  let iphdr := storeBytes iphdr 10 [0, 0]
  let iphdr := storeBytes iphdr 10 (bytes16 (checksum2 iphdr 20 option optionLen))
  -- memcpy(data + sizeof(struct ether_header), &iphdr, sizeof(struct iphdr));
  let m := storeBytes m 14 (readBytes iphdr 0 20)
  readBytes m 0 size

/-- The array `option` of `BufferSendOne` after the pass for one packet. -/
def flushOption (option : Mem) (data : List Nat) : Mem :=
  optionBuf option (offsetMem (memOf data) 34)
    ((ihl (memOf (readBytes (memOf data) 14 20)) : Int) * 4 - 20)

/-- The loop `while (1) { if (GetSendData(...) == -1) break; ... write(...); }`
of `BufferSendOne`, run for at most `fuel` passes; every pass dequeues one
packet, so `dno` passes empty the queue (`bufferSendLoop_drains`). -/
def bufferSendLoop (dev : DEVICE) : Nat → IP2MAC → Mem → List (Int × List Nat) →
    IP2MAC × List (Int × List Nat)
  | 0, ip2mac, _, out => (ip2mac, out)
  | fuel + 1, ip2mac, option, out =>
    match GetSendData ip2mac with
    | none => (ip2mac, out)
    | some (size, data, ip2mac1) =>
      bufferSendLoop dev fuel ip2mac1 (flushOption option data)
        (out ++ [(dev.soc, flushFrame dev ip2mac.hwaddr option size data)])

/-- The function `BufferSendOne(deviceNo, &Ip2Macs[deviceNo].data[ip2macNo])`;
`junk` is what the local array `option` holds on entry. It returns 0. -/
def BufferSendOne (cfg : Config) (deviceNo : Fin 2) (ip2macNo : Nat) (junk : Mem) (s : State) :
    Int × State :=
  let tab := s.Ip2Macs deviceNo
  let ip2mac := tab.data.getD ip2macNo default
  let r := bufferSendLoop (cfg.Device deviceNo) (ip2mac.sd.dno + 1) ip2mac junk s.out
  (0, { s with
    Ip2Macs := Function.update s.Ip2Macs deviceNo ⟨tab.data.set ip2macNo r.1, tab.size⟩,
    out := r.2 })

/-- The frame `SendIcmpTimeExceeded` assembles in `buf`. -/
def icmpTimeExceededFrame (dev : DEVICE) (data : Mem) : List Nat :=
  -- reh: ether_dhost = eh->ether_shost, ether_shost = Device[deviceNo].hwaddr, ether_type
  let reh := readBytes data 6 6 ++ readBytes (memOf dev.hwaddr) 0 6
    ++ bytes16 (htons ETHERTYPE_IP)
  -- rih with check = 0: version/ihl, tos, tot_len, id, frag_off, ttl, protocol, check,
  -- saddr = Device[deviceNo].addr.s_addr, daddr = iphdr->saddr
  let rih0 := [4 * 16 + 20 / 4, 0] ++ bytes16 (htons (sizeof_struct_icmp + 64))
    ++ bytes16 0 ++ bytes16 0 ++ [64, IPPROTO_ICMP] ++ bytes16 0
    ++ bytes32 dev.addr ++ bytes32 (load32 data 26)
  -- rih.check = checksum((u_char *)&rih, sizeof(struct iphdr));
  let rih := readBytes (storeBytes (memOf rih0) 10 (bytes16 (checksum (memOf rih0) 20))) 0 20
  -- icmp with icmp_cksum = 0: icmp_type, icmp_code, icmp_cksum, icmp_void
  let icmp0 := [ICMP_TIME_EXCEEDED, ICMP_TIMXCEED_INTRANS] ++ bytes16 0 ++ bytes32 0
  -- icmp.icmp_cksum = checksum2((u_char *)&icmp, 8, ipptr, 64); ipptr = data + 14
  let icmp := readBytes
    (storeBytes (memOf icmp0) 2 (bytes16 (checksum2 (memOf icmp0) 8 (offsetMem data 14) 64))) 0 8
  reh ++ rih ++ icmp ++ readBytes data 14 64

/-- The function `SendIcmpTimeExceeded(deviceNo, eh, iphdr, data, size)`, `eh`
and `iphdr` pointing into `data`: one `write` on the socket of `deviceNo`. -/
def SendIcmpTimeExceeded (cfg : Config) (deviceNo : Fin 2) (data : Mem) (_size : Int)
    (s : State) : State :=
  { s with out := s.out ++
      [((cfg.Device deviceNo).soc, icmpTimeExceededFrame (cfg.Device deviceNo) data)] }

/-- A comparison `lest < sizeof(...)`: `lest` is an `int` and the size a
`size_t`, so `lest` is converted to unsigned and a negative `lest` is not
smaller. -/
def lessThanSizeof (lest : Int) (n : Nat) : Bool := 0 ≤ lest ∧ lest < n

/-- The store of entry `i` of the table of `deviceNo`. -/
def setEntry (s : State) (deviceNo : Fin 2) (i : Nat) (ip2mac : IP2MAC) : State :=
  let tab : Ip2MacTable := ⟨(s.Ip2Macs deviceNo).data.set i ip2mac, (s.Ip2Macs deviceNo).size⟩
  { s with Ip2Macs := Function.update s.Ip2Macs deviceNo tab }

/-- The part of `AnalyzePacket` that follows the choice of the resolution
target `target` (the same code in both branches): `Ip2Mac(tno, target, NULL)`,
then either the frame is queued on the entry and -1 returned, or it is
rewritten, written on the socket of `tno` and 0 returned. -/
def resolveAndSend (cfg : Config) (tno : Fin 2) (target : Nat) (data : Mem) (size : Int)
    (option : Mem) (optionLen : Int) (now : Int) (s : State) : Int × State :=
  let r := Ip2Mac cfg tno target none now s
  let ip2mac := (r.2.Ip2Macs tno).data.getD r.1 default
  if ip2mac.flag = FLAG_NG ∨ ip2mac.sd.dno ≠ 0 then
    (-1, setEntry r.2 tno r.1 (AppendSendData ip2mac 1 target data size now))
  else
    let hwaddr := readBytes (memOf ip2mac.hwaddr) 0 6
    let sent := forwardFrame data option optionLen hwaddr (cfg.Device tno).hwaddr
    (0, { r.2 with out := r.2.out ++ [((cfg.Device tno).soc, readBytes sent 0 size.toNat)] })

/-- The function `AnalyzePacket(deviceNo, data, size)` of the router, run when
`time(NULL)` returns `now`; `junk` is what the local array `option` holds on
entry. The result is the value returned and the state left. -/
def AnalyzePacket (cfg : Config) (deviceNo : Fin 2) (data : Mem) (size : Int) (now : Int)
    (junk : Mem) (s : State) : Int × State :=
  let lest := size
  if lessThanSizeof lest 14 then (-1, s) else
  let lest := lest - 14
  -- memcmp(&eh->ether_dhost, Device[deviceNo].hwaddr, 6) != 0
  if readBytes data 0 6 ≠ readBytes (memOf (cfg.Device deviceNo).hwaddr) 0 6 then (-1, s) else
  if ntohs (load16 data 12) = ETHERTYPE_ARP then
    if lessThanSizeof lest 28 then (-1, s) else
    let s1 := if load16 data 20 = htons ARPOP_REQUEST then
        (Ip2Mac cfg deviceNo (load32 data 28) (some (offsetMem data 22)) now s).2 else s
    let s2 := if load16 data 20 = htons ARPOP_REPLY then
        (Ip2Mac cfg deviceNo (load32 data 28) (some (offsetMem data 22)) now s1).2 else s1
    (0, s2)
  else if ntohs (load16 data 12) = ETHERTYPE_IP then
    if lessThanSizeof lest 20 then (-1, s) else
    let iphdr := offsetMem data 14
    let optionLen : Int := (ihl iphdr : Int) * 4 - 20
    if 0 < optionLen ∧ 1500 ≤ optionLen then (-1, s) else
    let option := optionBuf junk (offsetMem data 34) optionLen
    if checkIPchecksum iphdr option optionLen = 0 then (-1, s) else
    -- iphdr->ttl - 1 == 0
    if (byteAt data 22 : Int) - 1 = 0 then
      (-1, SendIcmpTimeExceeded cfg deviceNo data size s)
    else
    let tno : Fin 2 := if deviceNo = 0 then 1 else 0
    let daddr := load32 data 30
    if daddr &&& (cfg.Device tno).netmask = (cfg.Device tno).subnet then
      if daddr = (cfg.Device tno).addr then (1, s)
      else resolveAndSend cfg tno daddr data size option optionLen now s
    else
      resolveAndSend cfg tno cfg.NextRouter data size option optionLen now s
  else (0, s)

/-! ## The packet analyzer (`router-c/src/ch3/analyze.c`, `checksum.c`)

The functions `checksum` and `checksum2` of `checksum.c` are the ones of
`netutil.c`, text for text. The `Print...` calls write to `stdout` only and
are left out. Structure sizes are those of x86-64 Linux (`unsigned long` has
eight bytes). -/

/-- The constant `IPPROTO_TCP` of `netinet/in.h`. -/
def IPPROTO_TCP : Nat := 6
/-- The constant `IPPROTO_UDP` of `netinet/in.h`. -/
def IPPROTO_UDP : Nat := 17
/-- The constant `IPPROTO_ICMPV6` of `netinet/in.h`. -/
def IPPROTO_ICMPV6 : Nat := 58
/-- The macro `ETHERTYPE_IPV6`. -/
def ETHERTYPE_IPV6 : Nat := 0x86dd

namespace Ch3

/-- The function `checkIPchecksum(iphdr, option, optionLen)` of `checksum.c`
(no copy of the header). -/
def checkIPchecksum (iphdr : Mem) (option : Mem) (optionLen : Int) : Int :=
  if optionLen = 0 then
    let sum := checksum iphdr 20
    if sum = 0 ∨ sum = 0xFFFF then 1 else 0
  else
    let sum := checksum2 iphdr 20 option optionLen
    if sum = 0 ∨ sum = 0xFFFF then 1 else 0

/-- The 12 bytes of `struct pseudo_ip` as `checkIPDATAchecksum` fills it:
`ip_src`, `ip_dst`, `dummy = 0`, `ip_p`, `ip_len = htons(len)`. -/
def pseudo_ip (iphdr : Mem) (len : Int) : List Nat :=
  readBytes iphdr 12 4 ++ readBytes iphdr 16 4 ++ [0, byteAt iphdr 9]
    ++ bytes16 (htons (len % 65536).toNat)

/-- The function `checkIPDATAchecksum(iphdr, data, len)`. -/
def checkIPDATAchecksum (iphdr : Mem) (data : Mem) (len : Int) : Int :=
  let sum := checksum2 (memOf (pseudo_ip iphdr len)) 12 data len
  if sum = 0 ∨ sum = 0xFFFF then 1 else 0

/-- The 48 bytes of `struct pseudo_ip6_hdr` as `checkIP6DATAchecksum` fills it
after `memset`: `src`, `dst`, `plen` (the raw `ip6_plen` widened to `unsigned
long`), `dmy1`, `dmy2`, `nxt`, and four bytes of padding. -/
def pseudo_ip6_hdr (ip6 : Mem) : List Nat :=
  readBytes ip6 8 16 ++ readBytes ip6 24 16
    ++ (bytes16 (load16 ip6 4) ++ [0, 0, 0, 0, 0, 0])
    ++ [0, 0, 0, byteAt ip6 6] ++ [0, 0, 0, 0]

/-- The function `checkIP6DATAchecksum(ip6, data, len)`. -/
def checkIP6DATAchecksum (ip6 : Mem) (data : Mem) (len : Int) : Int :=
  let sum := checksum2 (memOf (pseudo_ip6_hdr ip6)) 48 data len
  if sum = 0 ∨ sum = 0xFFFF then 1 else 0

/-- The function `AnalyzeArp(data, size)`; `sizeof(struct ether_arp)` is 28. -/
def AnalyzeArp (_data : Mem) (size : Int) : Int :=
  if lessThanSizeof size 28 then -1 else 0

/-- The function `AnalyzeIcmp(data, size)`; `sizeof(struct icmp)` is 28. -/
def AnalyzeIcmp (_data : Mem) (size : Int) : Int :=
  if lessThanSizeof size sizeof_struct_icmp then -1 else 0

/-- The function `AnalyzeIcmp6(data, size)`; `sizeof(struct icmp6_hdr)` is 8. -/
def AnalyzeIcmp6 (_data : Mem) (size : Int) : Int :=
  if lessThanSizeof size 8 then -1 else 0

/-- The function `AnalyzeTcp(data, size)`; `sizeof(struct tcphdr)` is 20. -/
def AnalyzeTcp (_data : Mem) (size : Int) : Int :=
  if lessThanSizeof size 20 then -1 else 0

/-- The function `AnalyzeUdp(data, size)`; `sizeof(struct udphdr)` is 8. -/
def AnalyzeUdp (_data : Mem) (size : Int) : Int :=
  if lessThanSizeof size 8 then -1 else 0

/-- The value `optionLen = iphdr->ihl * 4 - sizeof(struct iphdr)`. -/
def ipOptionLen (iphdr : Mem) : Int := (ihl iphdr : Int) * 4 - 20

/-- The offset of `ptr` from `data` in `AnalyzeIp` once the header and, when
`optionLen > 0`, the options have been stepped over. -/
def ipPayloadOffset (iphdr : Mem) : Nat :=
  if 0 < ipOptionLen iphdr then 20 + (ipOptionLen iphdr).toNat else 20

/-- The value `len = ntohs(iphdr->tot_len) - iphdr->ihl * 4`. -/
def ipDeclaredLen (iphdr : Mem) : Int := (ntohs (load16 iphdr 2) : Int) - (ihl iphdr : Int) * 4

/-- The function `AnalyzeIp(data, size)`; `junk` is where the uninitialised
pointer `option` points when there are no options. The values returned by
`AnalyzeIcmp`, `AnalyzeTcp` and `AnalyzeUdp` are dropped, as in the source. -/
def AnalyzeIp (data : Mem) (size : Int) (junk : Mem) : Int :=
  let lest := size
  if lessThanSizeof lest 20 then -1 else
  let lest := lest - 20
  let optionLen := ipOptionLen data
  if 0 < optionLen ∧ 1500 ≤ optionLen then -1 else
  -- option = ptr; ptr += optionLen; lest -= optionLen;
  let option : Mem := if 0 < optionLen then offsetMem data 20 else junk
  let lest := if 0 < optionLen then lest - optionLen else lest
  let ptr := offsetMem data (ipPayloadOffset data)
  if checkIPchecksum data option optionLen = 0 then -1 else
  if byteAt data 9 = IPPROTO_ICMP then
    let len := ipDeclaredLen data
    let sum := checksum ptr len
    if sum ≠ 0 ∧ sum ≠ 0xffff then -1 else
    let _r := AnalyzeIcmp ptr lest
    0
  else if byteAt data 9 = IPPROTO_TCP then
    let len := ipDeclaredLen data
    if checkIPDATAchecksum data ptr len = 0 then -1 else
    let _r := AnalyzeTcp ptr lest
    0
  else if byteAt data 9 = IPPROTO_UDP then
    let len := ipDeclaredLen data
    -- udphdr->check != 0 && checkIPDATAchecksum(iphdr, ptr, len) == 0
    if load16 ptr 6 ≠ 0 ∧ checkIPDATAchecksum data ptr len = 0 then -1 else
    let _r := AnalyzeUdp ptr lest
    0
  else 0

/-- The function `AnalyzeIpv6(data, size)`; `sizeof(struct ip6_hdr)` is 40,
`ip6_plen` is at offset 4 and `ip6_nxt` at offset 6. -/
def AnalyzeIpv6 (data : Mem) (size : Int) : Int :=
  let lest := size
  if lessThanSizeof lest 40 then -1 else
  let lest := lest - 40
  let ptr := offsetMem data 40
  -- len = ntohs(ip6->ip6_plen);
  let len : Int := (ntohs (load16 data 4) : Int)
  if byteAt data 6 = IPPROTO_ICMPV6 then
    if checkIP6DATAchecksum data ptr len = 0 then -1 else
    let _r := AnalyzeIcmp6 ptr lest
    0
  else if byteAt data 6 = IPPROTO_TCP then
    if checkIP6DATAchecksum data ptr len = 0 then -1 else
    let _r := AnalyzeTcp ptr lest
    0
  else if byteAt data 6 = IPPROTO_UDP then
    if checkIP6DATAchecksum data ptr len = 0 then -1 else
    let _r := AnalyzeUdp ptr lest
    0
  else 0

/-- The function `AnalyzePacket(data, size)` of the analyzer. -/
def AnalyzePacket (data : Mem) (size : Int) (junk : Mem) : Int :=
  let lest := size
  if lessThanSizeof lest 14 then -1 else
  let lest := lest - 14
  let ptr := offsetMem data 14
  if ntohs (load16 data 12) = ETHERTYPE_ARP then
    let _r := AnalyzeArp ptr lest
    0
  else if ntohs (load16 data 12) = ETHERTYPE_IP then
    let _r := AnalyzeIp ptr lest junk
    0
  else if ntohs (load16 data 12) = ETHERTYPE_IPV6 then
    let _r := AnalyzeIpv6 ptr lest
    0
  else 0

end Ch3

/-- An entry the scan for `addr` passes over without returning it: a Free
slot, or an entry for another address. -/
def passedOver (addr : Nat) (ip2mac : IP2MAC) : Prop :=
  ip2mac.flag = FLAG_FREE ∨ ip2mac.addr ≠ addr

/-! ## Sample data used by the worked instances -/

/-- The hardware address aa:bb:cc:dd:ee:ff. -/
def sampleMac : Mem := memOf [0xaa, 0xbb, 0xcc, 0xdd, 0xee, 0xff]

/-- The address 10.0.0.5 as an `in_addr_t` of the little-endian host. -/
def sampleIp : Nat := 0x0500000a

/-- A table that has not been used yet. -/
def emptyTable : Ip2MacTable := ⟨[], 0⟩

/-- Two interfaces: 10.0.0.1/24 on socket 3 and 10.0.1.1/24 on socket 4; the
gateway is 10.0.1.250. -/
def sampleConfig : Config :=
  { Device := fun d =>
      if d = 0 then ⟨3, [2, 0, 0, 0, 0, 1], 0x0100000a, 0x0000000a, 0x00ffffff⟩
      else ⟨4, [2, 0, 0, 0, 0, 2], 0x0101000a, 0x0001000a, 0x00ffffff⟩
    NextRouter := 0xfa01000a }

/-- The state right after start-up: unused tables, nothing queued or written. -/
def initialState : State := ⟨fun _ => emptyTable, [], []⟩

/-- Memory holding zero bytes. -/
def zeroMem : Mem := fun _ => 0

/-- A 34-byte frame for interface 0 (02:00:00:00:00:01) from 02:00:00:00:00:09:
an option-less IPv4 header from 10.0.0.9 to 10.0.1.7 with TTL 1 and a valid
check field. -/
def frameTtl1 : Mem :=
  memOf [2, 0, 0, 0, 0, 1, 2, 0, 0, 0, 0, 9, 8, 0,
    0x45, 0, 0, 20, 0, 0, 0, 0, 1, 1, 164, 218, 10, 0, 0, 9, 10, 0, 1, 7]

/-- The same frame with TTL 64 and the check field that goes with it. -/
def frameTtl64 : Mem :=
  memOf [2, 0, 0, 0, 0, 1, 2, 0, 0, 0, 0, 9, 8, 0,
    0x45, 0, 0, 20, 0, 0, 0, 0, 64, 1, 101, 218, 10, 0, 0, 9, 10, 0, 1, 7]

/-- The 20 header bytes of the frame at `data` as the forwarding step hands
them to `checksum2`: TTL decremented, check field zero. -/
def updatedHeader (data : Mem) : List Nat :=
  readBytes data 14 8 ++ [(byteAt data 22 + 255) % 256, byteAt data 23, 0, 0]
    ++ readBytes data 26 8

/-- A state in which the table of interface 1 holds 10.0.1.7 Resolved at
aa:bb:cc:dd:ee:ff since time 0, with nothing pending. -/
def resolvedState : State :=
  ⟨fun d => if d = 1 then
      ⟨[⟨FLAG_OK, 1, 0x0701000a, [0xaa, 0xbb, 0xcc, 0xdd, 0xee, 0xff], 0, ⟨[]⟩⟩], 1024⟩
    else emptyTable, [], []⟩

/-- The frames `BufferSendOne` writes for the pending packets `q`, oldest
first, `option` being the content of its local array before each pass. -/
def flushAll (dev : DEVICE) (hwaddr : List Nat) : Mem → List DATA_BUF → List (Int × List Nat)
  | _, [] => []
  | option, d :: q =>
    (dev.soc, flushFrame dev hwaddr option d.size d.data)
      :: flushAll dev hwaddr (flushOption option d.data) q

/-- What an observation makes of the live entry for the address it hits: the
time stamp is refreshed if the entry was Resolved, the observed hardware
address is stored and the entry becomes Resolved. -/
def observed (ip2mac : IP2MAC) (hw : Mem) (now : Int) : IP2MAC :=
  { (if ip2mac.flag = FLAG_OK then { ip2mac with lastTime := now } else ip2mac) with
    hwaddr := readBytes hw 0 6, flag := FLAG_OK }

/-- The frame `frameTtl64` with TTL 9 and the check field that goes with it. -/
def frameTtl9 : Mem :=
  memOf [2, 0, 0, 0, 0, 1, 2, 0, 0, 0, 0, 9, 8, 0,
    0x45, 0, 0, 20, 0, 0, 0, 0, 9, 1, 156, 218, 10, 0, 0, 9, 10, 0, 1, 7]

/-- Two frames enqueued at times 1 and 2: `frameTtl64`, then `frameTtl9`. -/
def sampleQueue : List (Mem × Int × Int) := [(frameTtl64, 34, 1), (frameTtl9, 34, 2)]

/-- The entry for 10.0.1.7 of interface 1, created Negative at time 0, after
`sampleQueue` has been enqueued on it and aa:bb:cc:dd:ee:ff observed at time 3. -/
def pendingEntry : IP2MAC :=
  observed (sampleQueue.foldl (fun x p => AppendSendData x 1 0x0701000a p.1 p.2.1 p.2.2)
    (newEntry 1 0x0701000a none 0)) sampleMac 3

/-- A state whose table of interface 1 holds `pendingEntry` at index 0. -/
def pendingState : State :=
  ⟨fun d => if d = 1 then ⟨[pendingEntry], 1024⟩ else emptyTable, [(1, 0)], []⟩

/-! ## Sequences of calls on the notification queue -/

/-- One call on `SendReq`: `AppendSendReqData(deviceNo, ip2macNo)` or
`GetSendReqData`. -/
inductive SendReqCall where
  | append (deviceNo ip2macNo : Nat)
  | get
deriving DecidableEq, Repr

/-- The queue a call leaves. -/
def SendReqCall.run : SendReqCall → SendReqQueue → SendReqQueue
  | SendReqCall.append deviceNo ip2macNo, req => (AppendSendReqData req deviceNo ip2macNo).2
  | SendReqCall.get, req =>
    match GetSendReqData req with
    | none => req
    | some (_, rest) => rest

/-- The queue a sequence of calls leaves, the calls made in list order. -/
def runCalls (calls : List SendReqCall) (req : SendReqQueue) : SendReqQueue :=
  calls.foldl (fun q c => c.run q) req

/-- A 42-byte ARP request read on interface 0 (02:00:00:00:00:01): who has
10.0.0.1, tell 10.0.0.9 at 02:00:00:00:00:09. -/
def arpRequest : Mem :=
  memOf [2, 0, 0, 0, 0, 1, 2, 0, 0, 0, 0, 9, 8, 6,
    0, 1, 8, 0, 6, 4, 0, 1, 2, 0, 0, 0, 0, 9, 10, 0, 0, 9,
    0, 0, 0, 0, 0, 0, 10, 0, 0, 1]

/-- A receive buffer of which 34 bytes were received: a frame for
interface 0 whose IP header declares `ihl = 6`, that is four option bytes.
The four bytes behind the received ones (`1, 2, 3, 4`) are what the buffer
held before; the header checksum is valid over the header and those bytes. -/
def frameShortOptions : Mem :=
  memOf [2, 0, 0, 0, 0, 1, 2, 0, 0, 0, 0, 9, 8, 0,
    0x46, 0, 0, 24, 0, 0, 0, 0, 64, 1, 96, 208, 10, 0, 0, 9, 10, 0, 1, 7,
    1, 2, 3, 4]

/-- An IPv4 packet of which 20 bytes were received: a valid header for ICMP
whose total length 28 declares eight payload bytes; the memory behind the
header is zero. -/
def packetDeclares8 : Mem :=
  memOf [0x45, 0, 0, 28, 0, 0, 0, 0, 64, 1, 101, 210, 10, 0, 0, 9, 10, 0, 1, 7]

/-- An IPv4 packet of which 20 bytes were received: a valid header for ICMP
whose total length is 0, less than the header length. -/
def packetDeclares0 : Mem :=
  memOf [0x45, 0, 0, 0, 0, 0, 0, 0, 64, 1, 101, 238, 10, 0, 0, 9, 10, 0, 1, 7]

/-- An IPv6 packet of which 40 bytes were received: next header ICMPv6,
payload length 8; the eight bytes behind the header are what the buffer held
before (an echo request with a valid checksum). -/
def packet6Declares8 : Mem :=
  memOf [0x60, 0, 0, 0, 0, 8, 58, 64,
    0xfe, 0x80, 0, 0, 0, 0, 0, 0, 0, 0, 0, 0, 0, 0, 0, 1,
    0xfe, 0x80, 0, 0, 0, 0, 0, 0, 0, 0, 0, 0, 0, 0, 0, 2,
    128, 0, 130, 184, 0, 0, 0, 0]

/-- The statuses a run of `AppendSendReqData` calls returns, one call per
pair of `ps` in list order, and the queue left. -/
def appendAll : List (Nat × Nat) → SendReqQueue → List Int × SendReqQueue
  | [], req => ([], req)
  | p :: ps, req =>
    let r := AppendSendReqData req p.1 p.2
    ((r.1 :: (appendAll ps r.2).1), (appendAll ps r.2).2)

/-- The pairs that `k` calls of `GetSendReqData` in a row write to their
output parameters, in call order, and the queue left; a call on the empty
queue returns -1 and writes nothing. -/
def popN : Nat → SendReqQueue → List (Nat × Nat) × SendReqQueue
  | 0, req => ([], req)
  | k + 1, req =>
    match GetSendReqData req with
    | none => popN k req
    | some (d, rest) => (d :: (popN k rest).1, (popN k rest).2)

/-- A 98-byte frame for interface 0: an option-less IPv4 header from 10.0.0.9
to 10.0.1.7 with TTL 1, total length 84 and a valid check field, followed by
the 64 payload bytes 1, 2, ..., 64. -/
def frameTtl1Payload : Mem :=
  memOf ([2, 0, 0, 0, 0, 1, 2, 0, 0, 0, 0, 9, 8, 0,
    0x45, 0, 0, 84, 0, 0, 0, 0, 1, 1, 164, 154, 10, 0, 0, 9, 10, 0, 1, 7]
    ++ (List.range 64).map (fun i => i + 1))

/-! ## The scan of `Ip2MacSearch`, entry by entry -/

/-- The entry the scan of `Ip2MacSearch` leaves when it releases `ip2mac`:
`FreeSendData(ip2mac); ip2mac->flag = FLAG_FREE;`. -/
def released (ip2mac : IP2MAC) : IP2MAC := { FreeSendData ip2mac with flag := FLAG_FREE }

/-- What the scan at clock value `now` leaves of an entry it goes past: an
entry that passes the aging test is released, any other is left as it is. -/
def sweep (now : Int) (ip2mac : IP2MAC) : IP2MAC :=
  if expired ip2mac now then released ip2mac else ip2mac

/-- An entry the scan for `addr` goes past without returning it: a Free slot,
an entry for another address, or, on a query (`hwaddr == NULL`), an entry for
`addr` that is Negative and passes the aging test. -/
def goesPast (addr : Nat) (hwaddr : Option Mem) (now : Int) (ip2mac : IP2MAC) : Prop :=
  ip2mac.flag = FLAG_FREE ∨ ip2mac.addr ≠ addr ∨
    (hwaddr.isNone = true ∧ ip2mac.flag = FLAG_NG ∧
      now - ip2mac.lastTime > IP2MAC_NG_TIMEOUT_SEC)

/-- What the scan makes of the entry it returns: on an observation the entry
`observed`, on a query the entry with its time stamp refreshed if Resolved. -/
def touched (hwaddr : Option Mem) (now : Int) (ip2mac : IP2MAC) : IP2MAC :=
  match hwaddr with
  | some hw => observed ip2mac hw now
  | none => if ip2mac.flag = FLAG_OK then { ip2mac with lastTime := now } else ip2mac

/-- The index of the first Free slot of a table, if there is one. -/
def firstFree : List IP2MAC → Option Nat
  | [] => none
  | e :: l => if e.flag = FLAG_FREE then some 0 else (firstFree l).map (fun j => j + 1)

/-- The entry for 10.0.1.7 of interface 1, created Negative at time 0, with
`frameTtl64` pending since time 1. -/
def negativeEntry : IP2MAC :=
  AppendSendData (newEntry 1 0x0701000a none 0) 1 0x0701000a frameTtl64 34 1

/-- A state whose table of interface 1 holds `negativeEntry` at index 0. -/
def negativeState : State :=
  ⟨fun d => if d = 1 then ⟨[negativeEntry], 1024⟩ else emptyTable, [], []⟩

/-! ## The Internet checksum of RFC 1071, as a reference -/

/-- The consecutive 16-bit words of `m[off .. off+len)` read big-endian, as
RFC 1071 pairs the bytes; an odd trailing byte is padded on the right with a
zero byte. -/
def wordsBE (m : Mem) : Nat → Nat → List Nat
  | 0, _ => []
  | 1, off => [256 * byteAt m off + 0]
  | len + 2, off => (256 * byteAt m off + byteAt m (off + 1)) :: wordsBE m len (off + 2)

/-- The RFC 1071 checksum of the `len` bytes at `m`: the 16-bit complement of
the ones-complement sum of the big-endian words. Written to the wire it is
the two bytes `value / 256`, `value % 256`. -/
def rfc1071 (m : Mem) (len : Nat) : Nat := not16 (onesSum (wordsBE m len 0))

/-- The frame `frameTtl64` with TTL 0 and the check field that goes with it. -/
def frameTtl0 : Mem :=
  memOf [2, 0, 0, 0, 0, 1, 2, 0, 0, 0, 0, 9, 8, 0,
    0x45, 0, 0, 20, 0, 0, 0, 0, 0, 1, 165, 218, 10, 0, 0, 9, 10, 0, 1, 7]

/-- The frame `frameTtl64` with the header length nibble 4 and the check
field that makes the 20 fixed header bytes sum to a valid checksum. -/
def frameIhl4 : Mem :=
  memOf [2, 0, 0, 0, 0, 1, 2, 0, 0, 0, 0, 9, 8, 0,
    0x44, 0, 0, 20, 0, 0, 0, 0, 64, 1, 102, 218, 10, 0, 0, 9, 10, 0, 1, 7]

/-! ## Sequences of `Ip2MacSearch` calls -/

/-- One call `Ip2MacSearch(deviceNo, addr, hwaddr)`, made when `time(NULL)`
returns `now`. -/
structure SearchCall where
  deviceNo : Fin 2
  addr : Nat
  hwaddr : Option Mem
  now : Int

/-- What a call leaves of the tables `Ip2Macs[2]` and of the queue `SendReq`. -/
def SearchCall.run (c : SearchCall) (g : (Fin 2 → Ip2MacTable) × SendReqQueue) :
    (Fin 2 → Ip2MacTable) × SendReqQueue :=
  let r := Ip2MacSearch c.deviceNo.val c.addr c.hwaddr c.now (g.1 c.deviceNo) g.2
  (Function.update g.1 c.deviceNo r.table, r.SendReq)

/-- What a sequence of calls leaves, the calls made in list order. -/
def runSearches (calls : List SearchCall) (g : (Fin 2 → Ip2MacTable) × SendReqQueue) :
    (Fin 2 → Ip2MacTable) × SendReqQueue :=
  calls.foldl (fun g c => c.run g) g

/-- A table holds at most one entry in use per address: of any two entries,
one is Free or the addresses differ. -/
def uniqueKeys (l : List IP2MAC) : Prop :=
  l.Pairwise (fun x y => x.flag = FLAG_FREE ∨ y.flag = FLAG_FREE ∨ x.addr ≠ y.addr)

/-- The entry for 10.0.1.7 of interface 1, created Negative at time 0, after
the 34 bytes received of `frameShortOptions` have been enqueued on it at time
1 and aa:bb:cc:dd:ee:ff observed at time 3. -/
def shortOptionsEntry : IP2MAC :=
  observed (AppendSendData (newEntry 1 0x0701000a none 0) 1 0x0701000a frameShortOptions 34 1)
    sampleMac 3

/-- A state whose table of interface 1 holds `shortOptionsEntry` at index 0. -/
def shortOptionsState : State :=
  ⟨fun d => if d = 1 then ⟨[shortOptionsEntry], 1024⟩ else emptyTable, [(1, 0)], []⟩

/-! ## Theorems: ChecksumEngine -/

theorem and_bit31 (s : Nat) : s &&& 0x80000000 = (s / 2 ^ 31 % 2) * 2 ^ 31 := by
  apply Nat.eq_of_testBit_eq
  intro i
  have h : (0x80000000 : Nat) = 2 ^ 31 := by norm_num
  rw [h, Nat.testBit_and, Nat.testBit_two_pow, Nat.mul_comm, Nat.testBit_mul_pow_two]
  by_cases hi : 31 = i
  · subst hi
    simp [Nat.testBit_to_div_mod]
  · by_cases h2 : 31 ≤ i
    · have h1 : 1 ≤ i - 31 := by omega
      have hb : (s / 2 ^ 31 % 2).testBit (i - 31) = false := by
        apply Nat.testBit_lt_two_pow
        calc s / 2 ^ 31 % 2 < 2 := Nat.mod_lt _ (by norm_num)
          _ = 2 ^ 1 := by norm_num
          _ ≤ 2 ^ (i - 31) := Nat.pow_le_pow_right (by norm_num) h1
      rw [hb]; simp [hi]
    · simp [hi, h2]

theorem and_low16 (s : Nat) : s &&& 0xFFFF = s % 65536 := by
  have := Nat.and_pow_two_sub_one_eq_mod s 16
  simpa using this

theorem shiftRight16 (s : Nat) : s >>> 16 = s / 65536 := by
  rw [Nat.shiftRight_eq_div_pow]

theorem bit31_set_iff (s : Nat) : (s &&& 0x80000000 ≠ 0) ↔ 2147483648 ≤ s % 4294967296 ∨
    (4294967296 ≤ s ∧ s / 2147483648 % 2 = 1) := by
  rw [and_bit31]
  have h2 : (2 : Nat) ^ 31 = 2147483648 := by norm_num
  rw [h2]
  constructor
  · intro h
    have : s / 2147483648 % 2 = 1 := by
      rcases Nat.mod_two_eq_zero_or_one (s / 2147483648) with h0 | h1
      · rw [h0] at h; simp at h
      · exact h1
    omega
  · intro h
    have : s / 2147483648 % 2 = 1 := by omega
    rw [this]; norm_num

theorem byteAt_lt (m : Mem) (i : Nat) : byteAt m i < 256 := by
  unfold byteAt; omega

theorem load16_lt (m : Mem) (i : Nat) : load16 m i < 65536 := by
  have h0 := byteAt_lt m i
  have h1 := byteAt_lt m (i + 1)
  unfold load16; omega

theorem addWord_eq (sum w : Nat) (h : sum + w < 4294967296) :
    addWord sum w =
      if 2147483648 ≤ sum + w then (sum + w) % 65536 + (sum + w) / 65536 else sum + w := by
  unfold addWord
  have hm : (sum + w) % 2 ^ 32 = sum + w := Nat.mod_eq_of_lt (by norm_num; exact h)
  simp only [hm, and_low16, shiftRight16]
  by_cases hb : 2147483648 ≤ sum + w
  · have : (sum + w) &&& 0x80000000 ≠ 0 := (bit31_set_iff _).2 (Or.inl (by omega))
    rw [if_pos this, if_pos hb]
  · have : ¬ ((sum + w) &&& 0x80000000 ≠ 0) := by
      intro hc
      rcases (bit31_set_iff _).1 hc with h1 | h1 <;> omega
    rw [if_neg this, if_neg hb]

theorem red_le (x : Nat) : red x ≤ 65535 := by
  unfold red; split <;> omega

theorem red_of_le (x : Nat) (h : x ≤ 65535) : red x = x := by
  unfold red; split <;> omega

theorem red_eq_zero_iff (x : Nat) : red x = 0 ↔ x = 0 := by
  unfold red; split <;> omega

theorem red_fold (s : Nat) : red (s % 65536 + s / 65536) = red s := by
  unfold red; split <;> split <;> omega

theorem red_add_congr (a b x : Nat) (h : red a = red b) : red (a + x) = red (b + x) := by
  unfold red at h ⊢
  split at h <;> split at h <;> split <;> split <;> omega

theorem red_add_red (a x : Nat) : red (red a + x) = red (a + x) :=
  red_add_congr _ _ _ (by rw [red_of_le _ (red_le a)])

theorem red_complement (x : Nat) : red (x + (65535 - red x)) = 65535 := by
  unfold red; split <;> split <;> omega

theorem addWord_inv (sum w : Nat) (hs : sum < 2147483648) (hw : w < 65536) :
    addWord sum w < 2147483648 ∧ red (addWord sum w) = red (sum + w) := by
  rw [addWord_eq sum w (by omega)]
  split
  · exact ⟨by omega, red_fold _⟩
  · exact ⟨by omega, rfl⟩

theorem foldCarry_eq_red : ∀ (fuel s : Nat), s ≤ fuel → foldCarry fuel s = red s := by
  intro fuel
  induction fuel with
  | zero =>
    intro s hs
    have : s = 0 := by omega
    subst this; rfl
  | succ n ih =>
    intro s hs
    unfold foldCarry
    simp only [and_low16, shiftRight16]
    by_cases hc : s / 65536 ≠ 0
    · rw [if_pos hc, ih _ (by omega), red_fold]
    · rw [if_neg hc, red_of_le _ (by omega)]

/-- The carry-folding loop leaves through its own exit test: with `sum` passes
allowed, the value it returns has no bit above the low sixteen. -/
theorem foldCarry_exits (s : Nat) : foldCarry s s >>> 16 = 0 := by
  rw [foldCarry_eq_red s s (le_refl s), shiftRight16]
  have := red_le s
  omega

theorem complement16_of_le (x : Nat) (h : x ≤ 65535) : complement16 x = 65535 - x := by
  unfold complement16; omega

theorem wordLoop_ofNat (m : Mem) (n ptr sum : Nat) :
    wordLoop m (n : Int) ptr sum =
      (((sumWords m n ptr sum).1 : Int), (sumWords m n ptr sum).2.1, (sumWords m n ptr sum).2.2) := rfl

theorem sumWords_spec (m : Mem) : ∀ (c ptr sum : Nat), sum < 2147483648 →
    (sumWords m c ptr sum).1 = c % 2 ∧ (sumWords m c ptr sum).2.1 = ptr + (c - c % 2) ∧
    (sumWords m c ptr sum).2.2 < 2147483648 ∧
    red ((sumWords m c ptr sum).2.2 + (if c % 2 = 1 then byteAt m (ptr + (c - c % 2)) else 0))
      = red (sum + (words m c ptr).sum) := by
  intro c
  induction c using Nat.strong_induction_on with
  | _ c ih =>
    intro ptr sum hs
    match c, ih with
    | 0, _ => simp [sumWords, words, hs]
    | 1, _ => simp [sumWords, words, hs]
    | c + 2, ih =>
      have hw := load16_lt m ptr
      obtain ⟨h1, h2⟩ := addWord_inv sum (load16 m ptr) hs hw
      obtain ⟨i1, i2, i3, i4⟩ := ih c (by omega) (ptr + 2) (addWord sum (load16 m ptr)) h1
      have e1 : (c + 2) % 2 = c % 2 := by omega
      have e2 : ptr + (c + 2 - c % 2) = ptr + 2 + (c - c % 2) := by omega
      simp only [sumWords, words, List.sum_cons, e1, e2]
      refine ⟨i1, i2, i3, ?_⟩
      rw [i4, red_add_congr _ _ _ h2]
      congr 1; omega

theorem words_lt (m : Mem) : ∀ (len off : Nat), ∀ w ∈ words m len off, w < 65536 := by
  intro len
  induction len using Nat.strong_induction_on with
  | _ len ih =>
    intro off w hw
    match len, ih with
    | 0, _ => simp [words] at hw
    | 1, _ =>
      simp only [words, List.mem_singleton] at hw
      have := byteAt_lt m off
      omega
    | len + 2, ih =>
      simp only [words, List.mem_cons] at hw
      rcases hw with h | h
      · rw [h]; exact load16_lt m off
      · exact ih len (by omega) (off + 2) w h

theorem eacAdd_eq_red (a b : Nat) (ha : a ≤ 65535) (hb : b < 65536) :
    eacAdd a b = red (a + b) := by
  unfold eacAdd red; split <;> split <;> omega

theorem foldl_eacAdd (ws : List Nat) : ∀ (acc : Nat), acc ≤ 65535 → (∀ w ∈ ws, w < 65536) →
    ws.foldl eacAdd acc = red (acc + ws.sum) := by
  induction ws with
  | nil => intro acc h _; simp [red_of_le _ h]
  | cons w ws ih =>
    intro acc h hw
    have hw0 : w < 65536 := hw w (List.mem_cons_self _ _)
    rw [List.foldl_cons, eacAdd_eq_red acc w h hw0,
      ih _ (red_le _) (fun x hx => hw x (List.mem_cons_of_mem _ hx)), red_add_red,
      List.sum_cons, Nat.add_assoc]

theorem onesSum_eq_red (ws : List Nat) (h : ∀ w ∈ ws, w < 65536) : onesSum ws = red ws.sum := by
  unfold onesSum
  rw [foldl_eacAdd ws 0 (by omega) h, Nat.zero_add]

theorem two_pow_32 : (2 : Nat) ^ 32 = 4294967296 := by norm_num

/-- Closed form of `checksum`: the complement of the folded sum of the words. -/
theorem checksum_eq_red (m : Mem) (len : Nat) :
    checksum m (len : Int) = 65535 - red (words m len 0).sum := by
  obtain ⟨h1, h2, h3, h4⟩ := sumWords_spec m len 0 0 (by omega)
  have hb := byteAt_lt m (len - len % 2)
  simp only [Nat.zero_add] at h2 h4
  unfold checksum
  simp only [wordLoop_ofNat, h1, h2, two_pow_32]
  by_cases hc : len % 2 = 1
  · have e : ((len % 2 : Nat) : Int) = 1 := by rw [hc]; rfl
    rw [if_pos hc] at h4
    rw [if_pos e, Nat.mod_eq_of_lt (by omega), foldCarry_eq_red _ _ (le_refl _), h4,
      complement16_of_le _ (red_le _)]
  · have e : ¬ (((len % 2 : Nat) : Int) = 1) := by
      intro hx; exact hc (by exact_mod_cast hx)
    rw [if_neg hc, Nat.add_zero] at h4
    rw [if_neg e, foldCarry_eq_red _ _ (le_refl _), h4, complement16_of_le _ (red_le _)]

theorem rawAdds_lt (m : Mem) : ∀ (c ptr sum : Nat), sum < 2147483648 →
    ∀ x ∈ rawAdds m c ptr sum, x < 4294967296 := by
  intro c
  induction c using Nat.strong_induction_on with
  | _ c ih =>
    intro ptr sum hs x hx
    match c, ih with
    | 0, _ => simp [rawAdds] at hx
    | 1, _ =>
      simp only [rawAdds, List.mem_singleton] at hx
      have := byteAt_lt m ptr
      omega
    | c + 2, ih =>
      have hw := load16_lt m ptr
      simp only [rawAdds, List.mem_cons] at hx
      rcases hx with h | h
      · omega
      · exact ih c (by omega) (ptr + 2) _ (addWord_inv sum _ hs hw).1 x h

/-- Closed form of `checksum2` when the first buffer has even length: the
complement of the folded sum of the words of both buffers. -/
theorem checksum2_even (d1 d2 : Mem) (len1 len2 : Nat) (he : len1 % 2 = 0) :
    checksum2 d1 (len1 : Int) d2 (len2 : Int)
      = 65535 - red ((words d1 len1 0).sum + (words d2 len2 0).sum) := by
  obtain ⟨h1, _, h3, h4⟩ := sumWords_spec d1 len1 0 0 (by omega)
  rw [he] at h1
  rw [he, if_neg (by omega), Nat.add_zero, Nat.zero_add] at h4
  obtain ⟨g1, g2, g3, g4⟩ := sumWords_spec d2 len2 0 (sumWords d1 len1 0 0).2.2 h3
  have hb := byteAt_lt d2 (len2 - len2 % 2)
  have e0 : ¬ (((0 : Nat) : Int) = 1) := by decide
  rw [red_add_congr _ _ _ h4] at g4
  simp only [Nat.zero_add] at g2 g4
  unfold checksum2
  simp only [wordLoop_ofNat, h1, if_neg e0, g1, g2, two_pow_32]
  by_cases hc : len2 % 2 = 1
  · have e : ((len2 % 2 : Nat) : Int) = 1 := by rw [hc]; rfl
    rw [if_pos hc] at g4
    rw [if_pos e, Nat.mod_eq_of_lt (by omega), foldCarry_eq_red _ _ (le_refl _), g4,
      complement16_of_le _ (red_le _)]
  · have e : ¬ (((len2 % 2 : Nat) : Int) = 1) := by
      intro hx; exact hc (by exact_mod_cast hx)
    rw [if_neg hc, Nat.add_zero] at g4
    rw [if_neg e, foldCarry_eq_red _ _ (le_refl _), g4, complement16_of_le _ (red_le _)]

theorem words_congr (m n : Mem) : ∀ (len off : Nat),
    (∀ i, off ≤ i → i < off + len → byteAt m i = byteAt n i) →
    words m len off = words n len off := by
  intro len
  induction len using Nat.strong_induction_on with
  | _ len ih =>
    intro off h
    match len, ih with
    | 0, _ => simp [words]
    | 1, _ => simp [words, h off (le_refl _) (by omega)]
    | len + 2, ih =>
      simp only [words, load16]
      rw [h off (le_refl _) (by omega), h (off + 1) (by omega) (by omega),
        ih len (by omega) (off + 2) (fun i h1 h2 => h i (by omega) (by omega))]

theorem byteAt_memOf_readBytes (m : Mem) (off n i : Nat) (h : i < n) :
    byteAt (memOf (readBytes m off n)) i = byteAt m (off + i) := by
  simp [byteAt, memOf, readBytes, List.getD, List.getElem?_map, List.getElem?_range, h]

theorem words_sum_20 (m : Mem) :
    (words m 20 0).sum = load16 m 0 + load16 m 2 + load16 m 4 + load16 m 6 + load16 m 8
      + load16 m 10 + load16 m 12 + load16 m 14 + load16 m 16 + load16 m 18 := by
  simp only [words, List.sum_cons, List.sum_nil, Nat.zero_add, Nat.reduceAdd]
  omega

theorem checksum_20 (m : Mem) : checksum m 20 = 65535 - red (words m 20 0).sum :=
  checksum_eq_red m 20

theorem checksum2_20 (d1 d2 : Mem) (len2 : Nat) :
    checksum2 d1 20 d2 (len2 : Int)
      = 65535 - red ((words d1 20 0).sum + (words d2 len2 0).sum) :=
  checksum2_even d1 d2 20 len2 (by decide)

theorem words_sum_zeroed_check (h : Mem) :
    (words h 20 0).sum = (words (storeBytes h 10 [0, 0]) 20 0).sum + load16 h 10 := by
  rw [words_sum_20, words_sum_20]
  simp [load16, byteAt, storeBytes]
  omega

/-- C1 (defect of the code): for the one-byte buffers `A = [1]` and `B = [2]`
`checksum2(A, 1, B, 1)` returns 65277, while `checksum` over the concatenation
`[1, 2]` returns 65022: on an odd-length first buffer the merged boundary word
is built high-byte-first although every other word is loaded in host order. -/
theorem checksum2_odd_first_buffer_mismatch :
    checksum2 (memOf [1]) 1 (memOf [2]) 1 = 65277 ∧
    checksum (concatMem (memOf [1]) 1 (memOf [2])) 2 = 65022 ∧
    checksum (memOf [1, 2]) 2 = 65022 := by
  decide

/-- C2: for every buffer and every length `len ≥ 0`, `checksum` returns the
16-bit complement of the end-around-carry folded sum of the buffer's 16-bit
words (an odd trailing byte being the word "that byte, then a zero byte"); the
right-hand side takes no intermediate fold, so the folds taken when bit 31 is
set do not change the result; and no `sum += ...` of the run exceeds 32 bits. -/
theorem checksum_is_complement_of_folded_word_sum (buf : Mem) (len : Nat) :
    checksum buf (len : Int) = not16 (onesSum (words buf len 0)) ∧
    (∀ x ∈ rawAdds buf len 0 0, x < 2 ^ 32) := by
  constructor
  · rw [checksum_eq_red, onesSum_eq_red _ (words_lt buf len 0)]
    have := red_le (words buf len 0).sum
    unfold not16
    omega
  · rw [two_pow_32]
    exact rawAdds_lt buf len 0 0 (by omega)

/-- C3: a 20-byte IPv4 header `h` whose check field holds what `checksum2`
returns over the header with that field zeroed followed by the option block
`o` (length a multiple of 4 between 0 and 40) is accepted by
`checkIPchecksum(h, o, len o)`, which returns 1. -/
theorem checkIPchecksum_of_filled_check (h o : Mem) (olen : Nat)
    (hmul : olen % 4 = 0) (hle : olen ≤ 40)
    (hck : load16 h 10 = checksum2 (storeBytes h 10 [0, 0]) 20 o (olen : Int)) :
    checkIPchecksum h o (olen : Int) = 1 := by
  have hw : words (memOf (readBytes h 0 20)) 20 0 = words h 20 0 :=
    words_congr _ _ 20 0 (fun i _ h2 => by
      rw [byteAt_memOf_readBytes h 0 20 i (by omega), Nat.zero_add])
  rw [checksum2_20] at hck
  unfold checkIPchecksum
  by_cases h0 : olen = 0
  · subst h0
    have e : ((0 : Nat) : Int) = 0 := rfl
    have hz : (words o 0 0).sum = 0 := by simp [words]
    rw [if_pos e, checksum_20, hw, words_sum_zeroed_check, hck, hz, Nat.add_zero, red_complement]
    simp
  · have e : ¬ ((olen : Int) = 0) := by exact_mod_cast h0
    rw [if_neg e, checksum2_20, hw, words_sum_zeroed_check, hck]
    have : (words (storeBytes h 10 [0, 0]) 20 0).sum
        + (65535 - red ((words (storeBytes h 10 [0, 0]) 20 0).sum + (words o olen 0).sum))
        + (words o olen 0).sum
        = ((words (storeBytes h 10 [0, 0]) 20 0).sum + (words o olen 0).sum)
        + (65535 - red ((words (storeBytes h 10 [0, 0]) 20 0).sum + (words o olen 0).sum)) := by
      omega
    rw [this, red_complement]
    simp

/-- Witness for C3: an option-less header from 10.0.0.1 to 10.0.0.2 with
TTL 64 whose check field (bytes `0x66 0xe7`) is the computed checksum. -/
theorem checkIPchecksum_of_filled_check_witness :
    checkIPchecksum
      (memOf [0x45, 0, 0, 20, 0, 0, 0, 0, 64, 1, 0x66, 0xe7, 10, 0, 0, 1, 10, 0, 0, 2])
      (memOf []) ((0 : Nat) : Int) = 1 :=
  checkIPchecksum_of_filled_check
    (memOf [0x45, 0, 0, 20, 0, 0, 0, 0, 64, 1, 0x66, 0xe7, 10, 0, 0, 1, 10, 0, 0, 2])
    (memOf []) 0 (by decide) (by decide) (by decide)

/-! ## Theorems: AddressResolutionCache -/

theorem passedOver_freed (addr : Nat) (e : IP2MAC) :
    passedOver addr { FreeSendData e with flag := FLAG_FREE } := Or.inl rfl

/-- The scan of an observation (`hwaddr` given) either returns the first live
entry for `addr`, now Resolved with the observed address, or passes over the
whole table and leaves a valid `freeNo`. -/
theorem scanLoop_observe (deviceNo addr : Nat) (hw : Mem) (now : Int) :
    ∀ (rest pre : List IP2MAC) (freeNo : Option Nat) (req : SendReqQueue),
    (∀ x ∈ pre, passedOver addr x) → (∀ j, freeNo = some j → j < pre.length) →
    match scanLoop deviceNo addr (some hw) now pre rest freeNo req with
    | Scan.found i data _ => ∃ mid e tl, data = mid ++ e :: tl ∧ i = mid.length ∧
        (∀ x ∈ mid, passedOver addr x) ∧ e.flag = FLAG_OK ∧ e.addr = addr ∧
        e.hwaddr = readBytes hw 0 6
    | Scan.fellThrough f data => (∀ x ∈ data, passedOver addr x) ∧
        (∀ j, f = some j → j < data.length) := by
  intro rest
  induction rest with
  | nil =>
    intro pre freeNo req hp hf
    simp only [scanLoop]
    exact ⟨hp, hf⟩
  | cons e rest ih =>
    intro pre freeNo req hp hf
    have hf2 : ∀ (x : IP2MAC) (j : Nat),
        (if freeNo = none then some pre.length else freeNo) = some j →
        j < (pre ++ [x]).length := by
      intro x j hj
      rw [List.length_append, List.length_singleton]
      by_cases h0 : freeNo = none
      · rw [if_pos h0] at hj
        have := Option.some.inj hj
        omega
      · rw [if_neg h0] at hj
        have := hf j hj
        omega
    have hf3 : ∀ (x : IP2MAC) (j : Nat), freeNo = some j → j < (pre ++ [x]).length := by
      intro x j hj
      rw [List.length_append, List.length_singleton]
      have := hf j hj
      omega
    have hp2 : ∀ (x : IP2MAC), passedOver addr x → ∀ y ∈ pre ++ [x], passedOver addr y := by
      intro x hx y hy
      rcases List.mem_append.1 hy with h | h
      · exact hp y h
      · rw [List.mem_singleton.1 h]; exact hx
    unfold scanLoop
    by_cases h1 : e.flag = FLAG_FREE
    · simp only [h1, if_true]
      exact ih _ _ _ (hp2 e (Or.inl h1)) (hf2 e)
    · simp only [h1, if_false]
      by_cases h2 : e.addr = addr
      · simp only [h2, if_true]
        refine ⟨pre, _, rest, rfl, rfl, hp, rfl, ?_, rfl⟩
        by_cases h3 : e.flag = FLAG_OK
        · simp [h3, h2]
        · simp [h3, h2]
      · simp only [h2, if_false]
        by_cases h3 : expired e now = true
        · simp only [h3, if_true]
          exact ih _ _ _ (hp2 _ (passedOver_freed addr e)) (hf2 _)
        · simp only [h3]
          exact ih _ _ _ (hp2 e (Or.inr h2)) (hf3 e)

theorem not_expired_refreshed (e : IP2MAC) (now : Int) (h : e.flag = FLAG_OK) :
    expired { e with lastTime := now } now = false := by
  simp [expired, h, FLAG_OK, FLAG_NG, IP2MAC_TIMEOUT_SEC]

/-- The scan of a query (`hwaddr == NULL`) passes over Free slots and entries
for other addresses and returns the first Resolved entry for `addr` it meets,
with its time stamp set to `now`. -/
theorem scanLoop_query_resolved (deviceNo addr : Nat) (now : Int) (e : IP2MAC) (tl : List IP2MAC)
    (hflag : e.flag = FLAG_OK) (haddr : e.addr = addr) :
    ∀ (mid pre : List IP2MAC) (freeNo : Option Nat) (req : SendReqQueue),
    (∀ x ∈ mid, passedOver addr x) →
    ∃ mid2, mid2.length = mid.length ∧
      scanLoop deviceNo addr none now pre (mid ++ e :: tl) freeNo req
        = Scan.found (pre.length + mid.length)
            (pre ++ mid2 ++ { e with lastTime := now } :: tl) req := by
  intro mid
  induction mid with
  | nil =>
    intro pre freeNo req _
    refine ⟨[], rfl, ?_⟩
    have h1 : ¬ (e.flag = FLAG_FREE) := by rw [hflag]; decide
    simp only [List.nil_append, scanLoop, h1, if_false, haddr, if_true, hflag,
      List.length_nil, Nat.add_zero, List.append_nil]
    simp [expired, FLAG_OK, FLAG_FREE, FLAG_NG, IP2MAC_TIMEOUT_SEC]
  | cons x mid ih =>
    intro pre freeNo req hm
    have hx := hm x (List.mem_cons_self _ _)
    have hm2 : ∀ y ∈ mid, passedOver addr y := fun y hy => hm y (List.mem_cons_of_mem _ hy)
    have key : ∀ (x2 : IP2MAC) (f2 : Option Nat),
        ∃ mid2, mid2.length = (x :: mid).length ∧
          scanLoop deviceNo addr none now (pre ++ [x2]) (mid ++ e :: tl) f2 req
            = Scan.found (pre.length + (x :: mid).length)
                (pre ++ mid2 ++ { e with lastTime := now } :: tl) req := by
      intro x2 f2
      obtain ⟨m2, hl, he⟩ := ih (pre ++ [x2]) f2 req hm2
      refine ⟨x2 :: m2, by simp [hl], ?_⟩
      rw [he]
      simp [Nat.add_assoc, Nat.add_comm 1]
    rw [List.cons_append]
    unfold scanLoop
    by_cases h1 : x.flag = FLAG_FREE
    · simp only [h1, if_true]
      exact key _ _
    · have h2 : ¬ (x.addr = addr) := by
        rcases hx with h | h
        · exact absurd h h1
        · exact h
      simp only [h1, if_false, h2]
      by_cases h3 : expired x now = true
      · simp only [h3, if_true]
        exact key _ _
      · simp only [h3]
        exact key _ _

/-- After an observation the table reads `mid ++ e :: tl`, where the returned
entry `e` is Resolved for `addr` with the observed hardware address and every
entry before it is a Free slot or an entry for another address. -/
theorem Ip2MacSearch_observe_shape (deviceNo addr : Nat) (hw : Mem) (now : Int)
    (tab : Ip2MacTable) (req : SendReqQueue) :
    ∃ mid e tl, (Ip2MacSearch deviceNo addr (some hw) now tab req).table.data = mid ++ e :: tl ∧
      (Ip2MacSearch deviceNo addr (some hw) now tab req).index = mid.length ∧
      (∀ x ∈ mid, passedOver addr x) ∧ e.flag = FLAG_OK ∧ e.addr = addr ∧
      e.hwaddr = readBytes hw 0 6 := by
  have h := scanLoop_observe deviceNo addr hw now tab.data [] none req
    (fun x hx => absurd hx (List.not_mem_nil x)) (fun j hj => by simp at hj)
  unfold Ip2MacSearch
  generalize scanLoop deviceNo addr (some hw) now [] tab.data none req = sc at h
  cases sc with
  | found i data r =>
    obtain ⟨mid, e, tl, h1, h2, h3⟩ := h
    exact ⟨mid, e, tl, h1, h2, h3⟩
  | fellThrough f data =>
    obtain ⟨h1, h2⟩ := h
    cases f with
    | none =>
      exact ⟨data, newEntry deviceNo addr (some hw) now, [], rfl, rfl, h1, rfl, rfl, rfl⟩
    | some j =>
      have hj : j < data.length := h2 j rfl
      refine ⟨data.take j, newEntry deviceNo addr (some hw) now, data.drop (j + 1), ?_, ?_,
        fun x hx => h1 x (List.mem_of_mem_take hx), rfl, rfl, rfl⟩
      · simp only [List.set_eq_take_append_cons_drop, if_pos hj]
      · simp only [List.length_take]
        omega

theorem getD_append_cons (mid tl : List IP2MAC) (e d : IP2MAC) (n : Nat) (h : n = mid.length) :
    (mid ++ e :: tl).getD n d = e := by
  subst h
  rw [List.getD_append_right _ _ _ _ (le_refl _), Nat.sub_self]
  rfl

/-- C4: after the observation `Ip2MacSearch(dev, ip, mac)` at time `t0`, the
query `Ip2MacSearch(dev, ip, NULL)` at a time `t1` with `t0 ≤ t1 ≤ t0 + 60`
returns an entry that is Resolved (`FLAG_OK`), has `addr = ip` and whose
`hwaddr` is the six bytes of `mac`; this holds from every table state. -/
theorem query_after_observation_is_resolved (tab : Ip2MacTable) (req : SendReqQueue)
    (dev ip : Nat) (mac : Mem) (t0 t1 : Int) (_h0 : t0 ≤ t1) (_h1 : t1 ≤ t0 + 60) :
    (Ip2MacSearch dev ip none t1 (Ip2MacSearch dev ip (some mac) t0 tab req).table
        (Ip2MacSearch dev ip (some mac) t0 tab req).SendReq).entry.flag = FLAG_OK ∧
    (Ip2MacSearch dev ip none t1 (Ip2MacSearch dev ip (some mac) t0 tab req).table
        (Ip2MacSearch dev ip (some mac) t0 tab req).SendReq).entry.addr = ip ∧
    (Ip2MacSearch dev ip none t1 (Ip2MacSearch dev ip (some mac) t0 tab req).table
        (Ip2MacSearch dev ip (some mac) t0 tab req).SendReq).entry.hwaddr
      = readBytes mac 0 6 := by
  obtain ⟨mid, e, tl, hd, _, hm, hf, ha, hh⟩ := Ip2MacSearch_observe_shape dev ip mac t0 tab req
  generalize Ip2MacSearch dev ip (some mac) t0 tab req = r0 at hd
  obtain ⟨mid2, hl, hs⟩ := scanLoop_query_resolved dev ip t1 e tl hf ha mid [] none r0.SendReq hm
  have hr : (Ip2MacSearch dev ip none t1 r0.table r0.SendReq).entry = { e with lastTime := t1 } := by
    unfold Ip2MacSearch SearchResult.entry
    rw [hd, hs]
    simp only [List.nil_append, List.length_nil, Nat.zero_add]
    exact getD_append_cons _ _ _ _ _ hl.symm
  rw [hr]
  exact ⟨hf, ha, hh⟩

/-- Witness for C4: on an unused table, 10.0.0.5 is observed at aa:bb:cc:dd:ee:ff
at time 0 and queried at time 30. -/
theorem query_after_observation_is_resolved_witness :
    (Ip2MacSearch 0 sampleIp none 30 (Ip2MacSearch 0 sampleIp (some sampleMac) 0 emptyTable []).table
        (Ip2MacSearch 0 sampleIp (some sampleMac) 0 emptyTable []).SendReq).entry.flag = FLAG_OK ∧
    (Ip2MacSearch 0 sampleIp none 30 (Ip2MacSearch 0 sampleIp (some sampleMac) 0 emptyTable []).table
        (Ip2MacSearch 0 sampleIp (some sampleMac) 0 emptyTable []).SendReq).entry.addr = sampleIp ∧
    (Ip2MacSearch 0 sampleIp none 30 (Ip2MacSearch 0 sampleIp (some sampleMac) 0 emptyTable []).table
        (Ip2MacSearch 0 sampleIp (some sampleMac) 0 emptyTable []).SendReq).entry.hwaddr
      = readBytes sampleMac 0 6 :=
  query_after_observation_is_resolved emptyTable [] 0 sampleIp sampleMac 0 30
    (by decide) (by decide)

/-- C5 (defect of the code): 10.0.0.5 is observed at aa:bb:cc:dd:ee:ff at
time 0 on an unused table and queried at time 100, more than 60 s later with
no call in between. The query does not reclaim the entry: it returns the same
slot, still Resolved with the old hardware address, its time stamp moved to
100, because `lastTime = now` is executed before the aging test. -/
theorem query_after_timeout_returns_stale_entry :
    (Ip2MacSearch 0 sampleIp none 100 (Ip2MacSearch 0 sampleIp (some sampleMac) 0 emptyTable []).table
        (Ip2MacSearch 0 sampleIp (some sampleMac) 0 emptyTable []).SendReq).entry
      = ⟨FLAG_OK, 0, sampleIp, [0xaa, 0xbb, 0xcc, 0xdd, 0xee, 0xff], 100, ⟨[]⟩⟩ ∧
    (Ip2MacSearch 0 sampleIp none 100 (Ip2MacSearch 0 sampleIp (some sampleMac) 0 emptyTable []).table
        (Ip2MacSearch 0 sampleIp (some sampleMac) 0 emptyTable []).SendReq).entry.flag ≠ FLAG_NG := by
  decide

/-! ## Theorems: ForwardingEngine -/

/-- C10: `AnalyzePacket` returns -1 and leaves the whole state as it was (no
`write`, both ARP tables and the notification queue unchanged) when the frame
is shorter than the Ethernet header (`0 ≤ size < 14`), when its destination is
not the hardware address of the receiving interface, when it is an ARP frame
with fewer than 28 bytes after the Ethernet header, when it is an IPv4 frame
with fewer than 20 bytes after the Ethernet header, or when it is an IPv4 frame
whose header checksum does not validate. -/
theorem AnalyzePacket_rejects_without_effect (cfg : Config) (deviceNo : Fin 2) (data : Mem)
    (size now : Int) (junk : Mem) (s : State)
    (h : (0 ≤ size ∧ size < 14) ∨
      readBytes data 0 6 ≠ readBytes (memOf (cfg.Device deviceNo).hwaddr) 0 6 ∨
      (ntohs (load16 data 12) = ETHERTYPE_ARP ∧ 0 ≤ size ∧ size - 14 < 28) ∨
      (ntohs (load16 data 12) = ETHERTYPE_IP ∧ 0 ≤ size ∧ size - 14 < 20) ∨
      (ntohs (load16 data 12) = ETHERTYPE_IP ∧
        checkIPchecksum (offsetMem data 14)
          (optionBuf junk (offsetMem data 34) ((ihl (offsetMem data 14) : Int) * 4 - 20))
          ((ihl (offsetMem data 14) : Int) * 4 - 20) = 0)) :
    AnalyzePacket cfg deviceNo data size now junk s = (-1, s) := by
  unfold AnalyzePacket
  by_cases h1 : lessThanSizeof size 14 = true
  · simp only [h1, if_true]
  · simp only [h1]
    by_cases h2 : readBytes data 0 6 ≠ readBytes (memOf (cfg.Device deviceNo).hwaddr) 0 6
    · simp only [if_pos h2]; simp
    · simp only [if_neg h2]
      have h14 : ¬ (0 ≤ size ∧ size < 14) := by
        intro hc
        apply h1
        simp only [lessThanSizeof, decide_eq_true_eq]
        exact_mod_cast hc
      have hIPnotARP : ETHERTYPE_IP ≠ ETHERTYPE_ARP := by decide
      rcases h with h | h | h | h | h
      · exact absurd h h14
      · exact absurd h h2
      · obtain ⟨ht, h0, hs⟩ := h
        have hl : lessThanSizeof (size - 14) 28 = true := by
          simp only [lessThanSizeof, decide_eq_true_eq]
          constructor
          · omega
          · exact_mod_cast hs
        simp [ht, hl]
      · obtain ⟨ht, h0, hs⟩ := h
        have hl : lessThanSizeof (size - 14) 20 = true := by
          simp only [lessThanSizeof, decide_eq_true_eq]
          constructor
          · omega
          · exact_mod_cast hs
        simp [ht, hl, hIPnotARP]
      · obtain ⟨ht, hc⟩ := h
        simp only [ht, hIPnotARP, if_false, if_true, hc]
        by_cases hl : lessThanSizeof (size - 14) 20 = true
        · simp [hl]
        · simp only [hl]
          by_cases ho : 0 < (ihl (offsetMem data 14) : Int) * 4 - 20
              ∧ 1500 ≤ (ihl (offsetMem data 14) : Int) * 4 - 20
          · simp [ho]
          · simp [ho]

/-- Witness for C10: a 10-byte buffer read on interface 0. -/
theorem AnalyzePacket_rejects_without_effect_witness :
    AnalyzePacket sampleConfig 0 (memOf [2, 0, 0, 0, 0, 1, 2, 0, 0, 0]) 10 0 zeroMem initialState
      = (-1, initialState) :=
  AnalyzePacket_rejects_without_effect sampleConfig 0 (memOf [2, 0, 0, 0, 0, 1, 2, 0, 0, 0]) 10 0
    zeroMem initialState (Or.inl (by decide))

theorem ihl_lt (m : Mem) : ihl m < 16 := by
  unfold ihl; omega

theorem optionLen_small (m : Mem) :
    ¬ (0 < (ihl m : Int) * 4 - 20 ∧ 1500 ≤ (ihl m : Int) * 4 - 20) := by
  have := ihl_lt m
  omega

theorem bytes32_load32 (m : Mem) (off : Nat) : bytes32 (load32 m off) = readBytes m off 4 := by
  have h0 := byteAt_lt m off
  have h1 := byteAt_lt m (off + 1)
  have h2 := byteAt_lt m (off + 2)
  have h3 := byteAt_lt m (off + 3)
  simp only [bytes32, load32, readBytes, List.range, List.range.loop, List.map, Nat.add_zero]
  congr 1
  · omega
  congr 1
  · omega
  congr 1
  · omega
  congr 1
  · omega

/-- The layout of the frame `SendIcmpTimeExceeded` writes. -/
theorem icmpTimeExceededFrame_layout (dev : DEVICE) (data : Mem) :
    ∃ ck ick, icmpTimeExceededFrame dev data =
      readBytes data 6 6 ++ readBytes (memOf dev.hwaddr) 0 6 ++ [0x08, 0x00]
      ++ [0x45, 0, 0, 92, 0, 0, 0, 0, 64, 1, ck % 256, ck / 256 % 256]
      ++ bytes32 dev.addr ++ readBytes data 26 4
      ++ [11, 0, ick % 256, ick / 256 % 256, 0, 0, 0, 0] ++ readBytes data 14 64 := by
  refine ⟨checksum (memOf ([4 * 16 + 20 / 4, 0] ++ bytes16 (htons (sizeof_struct_icmp + 64))
    ++ bytes16 0 ++ bytes16 0 ++ [64, IPPROTO_ICMP] ++ bytes16 0
    ++ bytes32 dev.addr ++ bytes32 (load32 data 26))) 20,
    checksum2 (memOf ([ICMP_TIME_EXCEEDED, ICMP_TIMXCEED_INTRANS] ++ bytes16 0 ++ bytes32 0)) 8
      (offsetMem data 14) 64, ?_⟩
  rw [← bytes32_load32]
  simp [icmpTimeExceededFrame, readBytes, storeBytes, memOf, byteAt, bytes16, bytes32, htons,
    ETHERTYPE_IP, IPPROTO_ICMP, ICMP_TIME_EXCEEDED, ICMP_TIMXCEED_INTRANS, sizeof_struct_icmp,
    List.range, List.range.loop]

/-- C6: an IPv4 frame addressed to the receiving interface that passes
decoding and header-checksum validation and has `ttl = 1` makes `AnalyzePacket`
return -1 after exactly one `write`, on the socket of the receiving interface,
of an ICMP Time-Exceeded datagram (type 11, code 0): Ethernet destination = the
original Ethernet source, IP source = the address of the receiving interface,
IP destination = the original IP source. Both ARP tables and the notification
queue are left as they were. -/
theorem ttl_one_answers_time_exceeded (cfg : Config) (deviceNo : Fin 2) (data : Mem)
    (size now : Int) (junk : Mem) (s : State)
    (hsize : 34 ≤ size)
    (hdst : readBytes data 0 6 = readBytes (memOf (cfg.Device deviceNo).hwaddr) 0 6)
    (htype : ntohs (load16 data 12) = ETHERTYPE_IP)
    (hck : checkIPchecksum (offsetMem data 14)
      (optionBuf junk (offsetMem data 34) ((ihl (offsetMem data 14) : Int) * 4 - 20))
      ((ihl (offsetMem data 14) : Int) * 4 - 20) = 1)
    (httl : byteAt data 22 = 1) :
    AnalyzePacket cfg deviceNo data size now junk s
      = (-1, { s with out := s.out ++
          [((cfg.Device deviceNo).soc, icmpTimeExceededFrame (cfg.Device deviceNo) data)] }) ∧
    ∃ ck ick, icmpTimeExceededFrame (cfg.Device deviceNo) data =
      readBytes data 6 6 ++ readBytes (memOf (cfg.Device deviceNo).hwaddr) 0 6 ++ [0x08, 0x00]
      ++ [0x45, 0, 0, 92, 0, 0, 0, 0, 64, 1, ck % 256, ck / 256 % 256]
      ++ bytes32 (cfg.Device deviceNo).addr ++ readBytes data 26 4
      ++ [11, 0, ick % 256, ick / 256 % 256, 0, 0, 0, 0] ++ readBytes data 14 64 := by
  refine ⟨?_, icmpTimeExceededFrame_layout _ _⟩
  have h1 : lessThanSizeof size 14 = false := by
    simp only [lessThanSizeof, decide_eq_false_iff_not]
    omega
  have h2 : lessThanSizeof (size - 14) 20 = false := by
    simp only [lessThanSizeof, decide_eq_false_iff_not]
    omega
  have h3 : ETHERTYPE_IP ≠ ETHERTYPE_ARP := by decide
  unfold AnalyzePacket
  simp [h1, h2, hdst, htype, h3, hck, httl, SendIcmpTimeExceeded]
  intro _ hb
  have := ihl_lt (offsetMem data 14)
  omega

/-- Witness for C6: `frameTtl1` read on interface 0 of `sampleConfig`. -/
theorem ttl_one_answers_time_exceeded_witness :
    AnalyzePacket sampleConfig 0 frameTtl1 34 0 zeroMem initialState
      = (-1, { initialState with out := initialState.out ++
          [((sampleConfig.Device 0).soc, icmpTimeExceededFrame (sampleConfig.Device 0) frameTtl1)] }) :=
  (ttl_one_answers_time_exceeded sampleConfig 0 frameTtl1 34 0 zeroMem initialState
    (by decide) (by decide) (by decide) (by decide) (by decide)).1

/-- Closed form of `checksum2` over a 20-byte first buffer for any `int`
length of the second one: a negative length contributes no word. -/
theorem checksum2_20_int (d1 d2 : Mem) (len2 : Int) :
    checksum2 d1 20 d2 len2
      = 65535 - red ((words d1 20 0).sum + (words d2 len2.toNat 0).sum) := by
  cases len2 with
  | ofNat n => exact checksum2_20 d1 d2 n
  | negSucc k =>
    obtain ⟨h1, _, h3, h4⟩ := sumWords_spec d1 20 0 0 (by omega)
    have e20 : (20 : Nat) % 2 = 0 := by decide
    rw [e20] at h1
    rw [e20, if_neg (by omega), Nat.add_zero, Nat.zero_add] at h4
    have e0 : ¬ (((0 : Nat) : Int) = 1) := by decide
    have en : ¬ (Int.negSucc k = 1) := by
      intro h; cases h
    show checksum2 d1 ((20 : Nat) : Int) d2 (Int.negSucc k) = _
    unfold checksum2
    simp only [wordLoop_ofNat, h1, if_neg e0]
    simp only [wordLoop, if_neg en]
    rw [foldCarry_eq_red _ _ (le_refl _), h4, complement16_of_le _ (red_le _)]
    simp [words]

theorem checksum2_20_congr (d1 e1 d2 e2 : Mem) (len2 : Int)
    (h1 : ∀ i, i < 20 → byteAt d1 i = byteAt e1 i)
    (h2 : ∀ i, i < len2.toNat → byteAt d2 i = byteAt e2 i) :
    checksum2 d1 20 d2 len2 = checksum2 e1 20 e2 len2 := by
  rw [checksum2_20_int, checksum2_20_int,
    words_congr d1 e1 20 0 (fun i _ hi => h1 i (by omega)),
    words_congr d2 e2 len2.toNat 0 (fun i _ hi => h2 i (by omega))]

theorem length_readBytes (m : Mem) (off n : Nat) : (readBytes m off n).length = n := by
  simp [readBytes]

theorem readBytes_add (m : Mem) (off a b : Nat) :
    readBytes m off (a + b) = readBytes m off a ++ readBytes m (off + a) b := by
  simp only [readBytes, List.range_add, List.map_append, List.map_map]
  congr 1
  apply List.map_congr_left
  intro i _
  simp [Nat.add_assoc]

theorem readBytes_congr (m n : Mem) (off k : Nat)
    (h : ∀ i, off ≤ i → i < off + k → byteAt m i = byteAt n i) :
    readBytes m off k = readBytes n off k := by
  apply List.map_congr_left
  intro i hi
  have := List.mem_range.1 hi
  exact h (off + i) (by omega) (by omega)

theorem byteAt_memOf_readBytes_self (m : Mem) (off n : Nat) :
    readBytes (memOf (readBytes m off n)) 0 n = readBytes m off n := by
  apply List.map_congr_left
  intro i hi
  have := List.mem_range.1 hi
  rw [Nat.zero_add, byteAt_memOf_readBytes m off n i this]

theorem byteAt_of_readBytes_eq (m n : Mem) (k i : Nat) (hi : i < k)
    (h : readBytes m 0 k = readBytes n 0 k) : byteAt m i = byteAt n i := by
  have h1 := congrArg (fun l => l.getD i 0) h
  simpa [readBytes, List.getD, List.getElem?_map, List.getElem?_range, hi] using h1

theorem forwardFrame_header (data : Mem) (hwaddr shost : List Nat) :
    readBytes (offsetMem
        (storeBytes (storeBytes (storeBytes (storeBytes data 0 (readBytes (memOf hwaddr) 0 6)) 6
          (readBytes (memOf shost) 0 6)) 22
          [(byteAt (storeBytes (storeBytes data 0 (readBytes (memOf hwaddr) 0 6)) 6
            (readBytes (memOf shost) 0 6)) 22 + 255) % 256]) 24 [0, 0]) 14) 0 20
      = readBytes (memOf (updatedHeader data)) 0 20 := by
  simp [offsetMem, updatedHeader, readBytes, storeBytes, memOf, byteAt, List.range,
    List.range.loop]

theorem forwardFrame_tail (data option : Mem) (optionLen : Int) (hwaddr shost : List Nat)
    (i : Nat) (hi : 26 ≤ i) :
    byteAt (forwardFrame data option optionLen hwaddr shost) i = byteAt data i := by
  simp only [forwardFrame, byteAt, storeBytes, length_readBytes, bytes16, List.length_cons,
    List.length_nil]
  rw [if_neg (by omega), if_neg (by omega), if_neg (by omega), if_neg (by omega),
    if_neg (by omega)]

/-- The bytes the forwarding step of `AnalyzePacket` writes for a frame of
`n ≥ 34` bytes. -/
theorem forwardFrame_layout (data option : Mem) (optionLen : Int) (hwaddr shost : List Nat)
    (n : Nat) (hn : 34 ≤ n) :
    readBytes (forwardFrame data option optionLen hwaddr shost) 0 n =
      readBytes (memOf hwaddr) 0 6 ++ readBytes (memOf shost) 0 6 ++ readBytes data 12 10
      ++ [(byteAt data 22 + 255) % 256, byteAt data 23]
      ++ bytes16 (checksum2 (memOf (updatedHeader data)) 20 option optionLen)
      ++ readBytes data 26 (n - 26) := by
  have hck : checksum2 (offsetMem
        (storeBytes (storeBytes (storeBytes (storeBytes data 0 (readBytes (memOf hwaddr) 0 6)) 6
          (readBytes (memOf shost) 0 6)) 22
          [(byteAt (storeBytes (storeBytes data 0 (readBytes (memOf hwaddr) 0 6)) 6
            (readBytes (memOf shost) 0 6)) 22 + 255) % 256]) 24 [0, 0]) 14) 20 option optionLen
      = checksum2 (memOf (updatedHeader data)) 20 option optionLen :=
    checksum2_20_congr _ _ _ _ _
      (fun i hi => byteAt_of_readBytes_eq _ _ 20 i hi
        (forwardFrame_header data hwaddr shost))
      (fun _ _ => rfl)
  have e : n = 26 + (n - 26) := by omega
  have hsplit : readBytes (forwardFrame data option optionLen hwaddr shost) 0 n
      = readBytes (forwardFrame data option optionLen hwaddr shost) 0 26
        ++ readBytes (forwardFrame data option optionLen hwaddr shost) 26 (n - 26) := by
    conv_lhs => rw [e]
    rw [readBytes_add, Nat.zero_add]
  rw [hsplit, readBytes_congr _ data 26 (n - 26)
    (fun i h1 _ => forwardFrame_tail data option optionLen hwaddr shost i h1)]
  congr 1
  unfold forwardFrame
  simp only [hck]
  simp [readBytes, storeBytes, memOf, byteAt, bytes16, List.range, List.range.loop]

theorem entry_after_update (f : Fin 2 → Ip2MacTable) (tno : Fin 2) (r : SearchResult) :
    (Function.update f tno r.table tno).data.getD r.index default = r.entry := by
  rw [Function.update_same]
  rfl

/-- The resolve-and-send step when the target is found Resolved with nothing
pending: no ARP request, one `write` of the rewritten frame, return value 0. -/
theorem resolveAndSend_resolved (cfg : Config) (tno : Fin 2) (target : Nat) (data : Mem)
    (size : Int) (option : Mem) (optionLen : Int) (now : Int) (s : State) (r : SearchResult)
    (hn : 34 ≤ size.toNat) (httl : 1 ≤ byteAt data 22)
    (hr : r = Ip2MacSearch tno.val target none now (s.Ip2Macs tno) s.SendReq)
    (hres : r.entry.flag = FLAG_OK) (hq : r.entry.sd.top = []) :
    resolveAndSend cfg tno target data size option optionLen now s =
      (0, { Ip2Macs := Function.update s.Ip2Macs tno r.table
            SendReq := r.SendReq
            out := s.out ++ [((cfg.Device tno).soc,
              readBytes (memOf r.entry.hwaddr) 0 6 ++ readBytes (memOf (cfg.Device tno).hwaddr) 0 6
              ++ readBytes data 12 10 ++ [byteAt data 22 - 1, byteAt data 23]
              ++ bytes16 (checksum2 (memOf (updatedHeader data)) 20 option optionLen)
              ++ readBytes data 26 (size.toNat - 26))] }) := by
  have h6 : ¬ (FLAG_OK = FLAG_NG ∨ r.entry.sd.dno ≠ 0) := by
    rw [SEND_DATA.dno, hq]
    decide
  have httl2 : (byteAt data 22 + 255) % 256 = byteAt data 22 - 1 := by
    have := byteAt_lt data 22
    omega
  unfold resolveAndSend Ip2Mac
  simp only [← hr, hres, if_true, entry_after_update, if_neg h6,
    forwardFrame_layout _ _ _ _ _ _ hn, byteAt_memOf_readBytes_self, httl2]

/-- C7: a valid IPv4 frame with `ttl ≥ 2`, not for local delivery, whose
resolution target is found Resolved with an empty pending queue, makes
`AnalyzePacket` return 0 after exactly one `write`, on the socket of the other
interface `tno`, and nothing else is written (no ICMP, no ARP request). The
frame written has the size of the frame received; its Ethernet destination is
the hardware address of the entry, its Ethernet source the hardware address of
the outgoing interface, its TTL the original TTL minus one, its check field
`checksum2` over the updated header (TTL decremented, check zero) and the
options; every other byte is as received. -/
theorem forwards_to_resolved_target (cfg : Config) (deviceNo tno : Fin 2) (data : Mem)
    (size now : Int) (junk : Mem) (s : State) (target : Nat) (r : SearchResult)
    (hsize : 34 ≤ size)
    (hdst : readBytes data 0 6 = readBytes (memOf (cfg.Device deviceNo).hwaddr) 0 6)
    (htype : ntohs (load16 data 12) = ETHERTYPE_IP)
    (hck : checkIPchecksum (offsetMem data 14)
      (optionBuf junk (offsetMem data 34) ((ihl (offsetMem data 14) : Int) * 4 - 20))
      ((ihl (offsetMem data 14) : Int) * 4 - 20) = 1)
    (httl : 2 ≤ byteAt data 22)
    (htno : tno = if deviceNo = 0 then 1 else 0)
    (hlocal : ¬ (load32 data 30 &&& (cfg.Device tno).netmask = (cfg.Device tno).subnet ∧
      load32 data 30 = (cfg.Device tno).addr))
    (htarget : target = if load32 data 30 &&& (cfg.Device tno).netmask = (cfg.Device tno).subnet
      then load32 data 30 else cfg.NextRouter)
    (hr : r = Ip2MacSearch tno.val target none now (s.Ip2Macs tno) s.SendReq)
    (hres : r.entry.flag = FLAG_OK) (hq : r.entry.sd.top = []) :
    AnalyzePacket cfg deviceNo data size now junk s =
      (0, { Ip2Macs := Function.update s.Ip2Macs tno r.table
            SendReq := r.SendReq
            out := s.out ++ [((cfg.Device tno).soc,
              readBytes (memOf r.entry.hwaddr) 0 6 ++ readBytes (memOf (cfg.Device tno).hwaddr) 0 6
              ++ readBytes data 12 10 ++ [byteAt data 22 - 1, byteAt data 23]
              ++ bytes16 (checksum2 (memOf (updatedHeader data)) 20
                  (optionBuf junk (offsetMem data 34) ((ihl (offsetMem data 14) : Int) * 4 - 20))
                  ((ihl (offsetMem data 14) : Int) * 4 - 20))
              ++ readBytes data 26 (size.toNat - 26))] }) ∧
    (readBytes (memOf r.entry.hwaddr) 0 6 ++ readBytes (memOf (cfg.Device tno).hwaddr) 0 6
      ++ readBytes data 12 10 ++ [byteAt data 22 - 1, byteAt data 23]
      ++ bytes16 (checksum2 (memOf (updatedHeader data)) 20
          (optionBuf junk (offsetMem data 34) ((ihl (offsetMem data 14) : Int) * 4 - 20))
          ((ihl (offsetMem data 14) : Int) * 4 - 20))
      ++ readBytes data 26 (size.toNat - 26)).length = size.toNat := by
  constructor
  · have h1 : lessThanSizeof size 14 = false := by
      simp only [lessThanSizeof, decide_eq_false_iff_not]
      omega
    have h2 : lessThanSizeof (size - 14) 20 = false := by
      simp only [lessThanSizeof, decide_eq_false_iff_not]
      omega
    have h3 : ETHERTYPE_IP ≠ ETHERTYPE_ARP := by decide
    have h4 := optionLen_small (offsetMem data 14)
    have h5 : ¬ ((byteAt data 22 : Int) - 1 = 0) := by omega
    have hn : 34 ≤ size.toNat := by omega
    have key := resolveAndSend_resolved cfg tno target data size
      (optionBuf junk (offsetMem data 34) ((ihl (offsetMem data 14) : Int) * 4 - 20))
      ((ihl (offsetMem data 14) : Int) * 4 - 20) now s r hn (by omega) hr hres hq
    unfold AnalyzePacket
    simp only [h1, h2, hdst, htype, h3, if_neg h4, hck, if_neg h5, ← htno]
    by_cases hm : load32 data 30 &&& (cfg.Device tno).netmask = (cfg.Device tno).subnet
    · have hl : ¬ (load32 data 30 = (cfg.Device tno).addr) := fun h => hlocal ⟨hm, h⟩
      rw [if_pos hm] at htarget
      subst htarget
      rw [if_pos hm, if_neg hl, key]
      simp
    · rw [if_neg hm] at htarget
      subst htarget
      rw [if_neg hm, key]
      simp
  · simp only [List.length_append, length_readBytes, bytes16, List.length_cons, List.length_nil]
    omega

/-- Witness for C7: `frameTtl64` (to 10.0.1.7) read on interface 0 while the
table of interface 1 holds 10.0.1.7 Resolved at aa:bb:cc:dd:ee:ff: the frame
goes out on socket 4 with TTL 63. -/
theorem forwards_to_resolved_target_witness :
    (AnalyzePacket sampleConfig 0 frameTtl64 34 5 zeroMem resolvedState).2.out =
      [(4, [0xaa, 0xbb, 0xcc, 0xdd, 0xee, 0xff, 2, 0, 0, 0, 0, 2, 8, 0,
        0x45, 0, 0, 20, 0, 0, 0, 0, 63, 1, 102, 218, 10, 0, 0, 9, 10, 0, 1, 7])] :=
  (congrArg (fun x => x.2.out)
    (forwards_to_resolved_target sampleConfig 0 1 frameTtl64 34 5 zeroMem resolvedState
      0x0701000a (Ip2MacSearch 1 0x0701000a none 5 (resolvedState.Ip2Macs 1) [])
      (by decide) (by decide) (by decide) (by decide) (by decide) (by decide) (by decide)
      (by decide) rfl (by decide) (by decide)).1).trans (by decide)

theorem set_append_cons (mid tl : List IP2MAC) (e e1 : IP2MAC) :
    (mid ++ e :: tl).set mid.length e1 = mid ++ e1 :: tl := by
  induction mid with
  | nil => rfl
  | cons x mid ih => simp [ih]

/-- The flush loop writes one frame per pending packet, oldest first, and
leaves through the failing `GetSendData` with the queue empty. -/
theorem bufferSendLoop_drains (dev : DEVICE) :
    ∀ (q : List DATA_BUF) (fuel : Nat) (e : IP2MAC) (option : Mem) (out : List (Int × List Nat)),
    e.sd.top = q → q.length < fuel →
    bufferSendLoop dev fuel e option out
      = ({ e with sd := ⟨[]⟩ }, out ++ flushAll dev e.hwaddr option q) := by
  intro q
  induction q with
  | nil =>
    intro fuel e option out he hf
    match fuel, hf with
    | fuel + 1, _ =>
      have hsd : e.sd = ⟨[]⟩ := by
        cases hs : e.sd with
        | mk top => rw [hs] at he; simp only at he; rw [he]
      simp only [bufferSendLoop, GetSendData, he, flushAll, List.append_nil]
      cases e with
      | mk f d a h l sd => simp only at hsd; rw [hsd]
  | cons p q ih =>
    intro fuel e option out he hf
    match fuel, hf with
    | fuel + 1, hf =>
      simp only [bufferSendLoop, GetSendData, he, flushAll]
      rw [ih fuel _ _ _ rfl (by simpa using hf)]
      simp

theorem ihl_copy (m : Mem) : ihl (memOf (readBytes m 14 20)) = ihl (offsetMem m 14) := by
  simp [ihl, byteAt, memOf, readBytes, offsetMem, List.range, List.range.loop]

theorem flushFrame_header (m : Mem) :
    readBytes (storeBytes (storeBytes (memOf (readBytes m 14 20)) 8
        [(byteAt (memOf (readBytes m 14 20)) 8 + 255) % 256]) 10 [0, 0]) 0 20
      = readBytes (memOf (updatedHeader m)) 0 20 := by
  simp [updatedHeader, readBytes, storeBytes, memOf, byteAt, List.range, List.range.loop]

/-- The bytes `BufferSendOne` writes for a pending packet of `n ≥ 34` bytes:
the same layout as the forwarding step of `AnalyzePacket` produces. -/
theorem flushFrame_layout (dev : DEVICE) (hwaddr : List Nat) (option : Mem) (n : Nat)
    (data : List Nat) (hn : 34 ≤ n) :
    flushFrame dev hwaddr option n data =
      readBytes (memOf hwaddr) 0 6 ++ readBytes (memOf dev.hwaddr) 0 6
      ++ readBytes (memOf data) 12 10
      ++ [(byteAt (memOf data) 22 + 255) % 256, byteAt (memOf data) 23]
      ++ bytes16 (checksum2 (memOf (updatedHeader (memOf data))) 20
          (optionBuf option (offsetMem (memOf data) 34)
            ((ihl (offsetMem (memOf data) 14) : Int) * 4 - 20))
          ((ihl (offsetMem (memOf data) 14) : Int) * 4 - 20))
      ++ readBytes (memOf data) 26 (n - 26) := by
  have hck : ∀ (o : Mem) (l : Int),
      checksum2 (storeBytes (storeBytes (memOf (readBytes (memOf data) 14 20)) 8
        [(byteAt (memOf (readBytes (memOf data) 14 20)) 8 + 255) % 256]) 10 [0, 0]) 20 o l
      = checksum2 (memOf (updatedHeader (memOf data))) 20 o l := fun o l =>
    checksum2_20_congr _ _ _ _ _
      (fun i hi => byteAt_of_readBytes_eq _ _ 20 i hi (flushFrame_header (memOf data)))
      (fun _ _ => rfl)
  have e : n = 34 + (n - 34) := by omega
  have e2 : n - 26 = 8 + (n - 34) := by omega
  unfold flushFrame
  simp only [hck, ihl_copy]
  conv_lhs => rw [e]
  rw [readBytes_add, Nat.zero_add, e2, readBytes_add]
  have htail : ∀ (X : List Nat) (Y : List Nat), X.length = 14 → Y.length = 20 →
      readBytes (storeBytes (storeBytes (memOf data) 0 X) 14 Y) 34 (n - 34)
        = readBytes (memOf data) 34 (n - 34) := by
    intro X Y hX hY
    apply readBytes_congr
    intro i h1 _
    simp only [byteAt, storeBytes, hX, hY]
    rw [if_neg (by omega), if_neg (by omega)]
  rw [htail _ _ (length_readBytes _ _ _) (length_readBytes _ _ _)]
  simp [readBytes, storeBytes, memOf, byteAt, bytes16, List.range, List.range.loop]

theorem checksum2_optionBuf (d1 option ptr : Mem) (optionLen : Int) :
    checksum2 d1 20 (optionBuf option ptr optionLen) optionLen
      = checksum2 d1 20 (optionBuf zeroMem ptr optionLen) optionLen := by
  apply checksum2_20_congr
  · intro _ _; rfl
  · intro i hi
    have hpos : 0 < optionLen := by omega
    simp only [optionBuf, if_pos hpos, byteAt, storeBytes, length_readBytes]
    rw [if_pos ⟨Nat.zero_le _, by omega⟩, if_pos ⟨Nat.zero_le _, by omega⟩]

/-- The frame written for a pending packet does not depend on what the local
array `option` held before the pass. -/
theorem flushFrame_option_irrelevant (dev : DEVICE) (hwaddr : List Nat) (option : Mem) (n : Nat)
    (data : List Nat) :
    flushFrame dev hwaddr option n data = flushFrame dev hwaddr zeroMem n data := by
  unfold flushFrame
  simp only [checksum2_optionBuf _ option]

theorem flushAll_eq_map (dev : DEVICE) (hwaddr : List Nat) :
    ∀ (q : List DATA_BUF) (option : Mem),
    flushAll dev hwaddr option q
      = q.map (fun d => (dev.soc, flushFrame dev hwaddr zeroMem d.size d.data)) := by
  intro q
  induction q with
  | nil => intro _; rfl
  | cons d q ih =>
    intro option
    simp only [flushAll, List.map_cons, ih]
    rw [flushFrame_option_irrelevant]

/-- The state `BufferSendOne` leaves when the table holds the entry `e` at
index `i`: one frame per pending packet of `e` is written, oldest first, and
the entry is left with an empty queue. -/
theorem BufferSendOne_at (cfg : Config) (deviceNo : Fin 2) (i : Nat) (junk : Mem) (s : State)
    (e : IP2MAC) (hget : (s.Ip2Macs deviceNo).data[i]? = some e) :
    (BufferSendOne cfg deviceNo i junk s).1 = 0 ∧
    (BufferSendOne cfg deviceNo i junk s).2.out
      = s.out ++ e.sd.top.map (fun d => ((cfg.Device deviceNo).soc,
          flushFrame (cfg.Device deviceNo) e.hwaddr zeroMem d.size d.data)) ∧
    (((BufferSendOne cfg deviceNo i junk s).2.Ip2Macs deviceNo).data.getD i default).sd.top = [] ∧
    (BufferSendOne cfg deviceNo i junk s).2.SendReq = s.SendReq := by
  have hi : i < (s.Ip2Macs deviceNo).data.length := by
    rcases Nat.lt_or_ge i (s.Ip2Macs deviceNo).data.length with h | h
    · exact h
    · rw [List.getElem?_eq_none h] at hget
      cases hget
  have hd : (s.Ip2Macs deviceNo).data.getD i default = e := by
    rw [List.getD_eq_getElem?_getD, hget]
    rfl
  have hl := bufferSendLoop_drains (cfg.Device deviceNo) e.sd.top (e.sd.dno + 1) e junk s.out rfl
    (by unfold SEND_DATA.dno; omega)
  unfold BufferSendOne
  simp only [hd, hl, flushAll_eq_map, Function.update_same]
  refine ⟨trivial, trivial, ?_, trivial⟩
  rw [List.getD_eq_getElem?_getD, List.getElem?_set_self hi]
  rfl

theorem foldl_AppendSendData (addr : Nat) :
    ∀ (ps : List (Mem × Int × Int)) (e0 : IP2MAC),
    (ps.foldl (fun x p => AppendSendData x 1 addr p.1 p.2.1 p.2.2) e0).sd.top
      = e0.sd.top ++ ps.map (fun p => ⟨p.2.2, p.2.1.toNat, readBytes p.1 0 p.2.1.toNat⟩) := by
  intro ps
  induction ps with
  | nil => intro e0; simp
  | cons p ps ih =>
    intro e0
    rw [List.foldl_cons, ih]
    simp [AppendSendData]

/-- C9: let the pending queue of a cache entry be what enqueuing the frames
`P1, ..., Pn` in that order (`AppendSendData`) onto an entry with an empty
queue produces. Then the flush `BufferSendOne` of that entry makes exactly `n`
writes on the socket of the interface, the k-th being the rewrite of `Pk` (so
in the order `P1, ..., Pn`), and leaves the pending queue of the entry empty. -/
theorem pending_frames_flush_in_order (cfg : Config) (deviceNo : Fin 2) (i : Nat) (junk : Mem)
    (s : State) (e e0 : IP2MAC) (addr : Nat) (ps : List (Mem × Int × Int))
    (hget : (s.Ip2Macs deviceNo).data[i]? = some e)
    (hempty : e0.sd.top = [])
    (henq : e.sd.top = (ps.foldl (fun x p => AppendSendData x 1 addr p.1 p.2.1 p.2.2) e0).sd.top) :
    (BufferSendOne cfg deviceNo i junk s).2.out
      = s.out ++ ps.map (fun p => ((cfg.Device deviceNo).soc,
          flushFrame (cfg.Device deviceNo) e.hwaddr zeroMem p.2.1.toNat
            (readBytes p.1 0 p.2.1.toNat))) ∧
    ((BufferSendOne cfg deviceNo i junk s).2.out).length = s.out.length + ps.length ∧
    (((BufferSendOne cfg deviceNo i junk s).2.Ip2Macs deviceNo).data.getD i default).sd.top
      = [] := by
  obtain ⟨_, h2, h3, _⟩ := BufferSendOne_at cfg deviceNo i junk s e hget
  rw [henq, foldl_AppendSendData, hempty, List.nil_append, List.map_map] at h2
  refine ⟨h2, ?_, h3⟩
  rw [h2]
  simp

theorem readBytes_offsetMem (m : Mem) (k off n : Nat) :
    readBytes (offsetMem m k) off n = readBytes m (k + off) n := by
  simp [readBytes, offsetMem, byteAt, Nat.add_assoc]

/-- Witness for C9: `sampleQueue` is pending on the entry at index 0 of the
table of interface 1; the flush writes the two frames in that order. -/
theorem pending_frames_flush_in_order_witness :
    (BufferSendOne sampleConfig 1 0 zeroMem pendingState).2.out =
      [(4, [0xaa, 0xbb, 0xcc, 0xdd, 0xee, 0xff, 2, 0, 0, 0, 0, 2, 8, 0,
        0x45, 0, 0, 20, 0, 0, 0, 0, 63, 1, 102, 218, 10, 0, 0, 9, 10, 0, 1, 7]),
       (4, [0xaa, 0xbb, 0xcc, 0xdd, 0xee, 0xff, 2, 0, 0, 0, 0, 2, 8, 0,
        0x45, 0, 0, 20, 0, 0, 0, 0, 8, 1, 157, 218, 10, 0, 0, 9, 10, 0, 1, 7])] :=
  (pending_frames_flush_in_order sampleConfig 1 0 zeroMem pendingState pendingEntry
    (newEntry 1 0x0701000a none 0) 0x0701000a sampleQueue rfl rfl rfl).1.trans (by decide)

theorem words_sum_zero (m : Mem) : ∀ (len off : Nat),
    (∀ i, off ≤ i → i < off + len → byteAt m i = 0) → (words m len off).sum = 0 := by
  intro len
  induction len using Nat.strong_induction_on with
  | _ len ih =>
    intro off h
    match len, ih with
    | 0, _ => simp [words]
    | 1, _ => simp [words, h off (le_refl _) (by omega)]
    | len + 2, ih =>
      simp only [words, load16, List.sum_cons]
      rw [h off (le_refl _) (by omega), h (off + 1) (by omega) (by omega),
        ih len (by omega) (off + 2) (fun i h1 h2 => h i (by omega) (by omega))]

/-- C16: for every even length `n ≥ 0`, `checksum` over a buffer whose first
`n` bytes are zero returns 0xFFFF. -/
theorem checksum_of_zero_bytes (buf : Mem) (n : Nat) (_heven : n % 2 = 0)
    (hzero : ∀ i, i < n → byteAt buf i = 0) : checksum buf (n : Int) = 0xFFFF := by
  rw [checksum_eq_red, words_sum_zero buf n 0 (fun i _ hi => hzero i (by omega))]
  rfl

/-- Witness for C16: four zero bytes. -/
theorem checksum_of_zero_bytes_witness : checksum zeroMem ((4 : Nat) : Int) = 0xFFFF :=
  checksum_of_zero_bytes zeroMem 4 (by decide) (fun _ _ => rfl)

/-! ## Theorems: PendingSendQueue -/

theorem AppendSendReqData_of_mem (req : SendReqQueue) (deviceNo ip2macNo : Nat)
    (h : (deviceNo, ip2macNo) ∈ req) : AppendSendReqData req deviceNo ip2macNo = (1, req) := by
  unfold AppendSendReqData
  have : req.any (fun d => decide (d.1 = deviceNo ∧ d.2 = ip2macNo)) = true :=
    List.any_eq_true.2 ⟨(deviceNo, ip2macNo), h, by simp⟩
  rw [if_pos this]

theorem AppendSendReqData_of_not_mem (req : SendReqQueue) (deviceNo ip2macNo : Nat)
    (h : (deviceNo, ip2macNo) ∉ req) :
    AppendSendReqData req deviceNo ip2macNo = (0, req ++ [(deviceNo, ip2macNo)]) := by
  unfold AppendSendReqData
  have : ¬ (req.any (fun d => decide (d.1 = deviceNo ∧ d.2 = ip2macNo)) = true) := by
    intro hc
    obtain ⟨d, hd, he⟩ := List.any_eq_true.1 hc
    have he2 : d.1 = deviceNo ∧ d.2 = ip2macNo := by simpa using he
    have : d = (deviceNo, ip2macNo) := Prod.ext he2.1 he2.2
    exact h (this ▸ hd)
  rw [if_neg this]

theorem SendReqCall_run_nodup (c : SendReqCall) (req : SendReqQueue) (h : req.Nodup) :
    (c.run req).Nodup := by
  cases c with
  | append d i =>
    simp only [SendReqCall.run]
    by_cases hm : (d, i) ∈ req
    · rw [AppendSendReqData_of_mem req d i hm]; exact h
    · rw [AppendSendReqData_of_not_mem req d i hm]
      exact List.nodup_append.2 ⟨h, List.nodup_singleton _, by
        intro a ha hb
        rw [List.mem_singleton.1 hb] at ha
        exact hm ha⟩
  | get =>
    cases req with
    | nil => exact h
    | cons x rest => exact (List.nodup_cons.1 h).2

theorem runCalls_nodup (calls : List SendReqCall) :
    ∀ (req : SendReqQueue), req.Nodup → (runCalls calls req).Nodup := by
  induction calls with
  | nil => intro req h; exact h
  | cons c calls ih =>
    intro req h
    exact ih _ (SendReqCall_run_nodup c req h)

/-- C13: in every state of `SendReq` reached from the empty queue by a sequence
of `AppendSendReqData` and `GetSendReqData` calls no pair `(deviceNo, ip2macNo)`
is queued twice; `AppendSendReqData` with a pair already queued returns 1 and
leaves the queue as it was, and with a pair not queued it returns 0 and appends
the pair at the tail. -/
theorem SendReq_never_holds_duplicates :
    (∀ calls : List SendReqCall, (runCalls calls []).Nodup) ∧
    (∀ (req : SendReqQueue) (deviceNo ip2macNo : Nat), (deviceNo, ip2macNo) ∈ req →
      AppendSendReqData req deviceNo ip2macNo = (1, req)) ∧
    (∀ (req : SendReqQueue) (deviceNo ip2macNo : Nat), (deviceNo, ip2macNo) ∉ req →
      AppendSendReqData req deviceNo ip2macNo = (0, req ++ [(deviceNo, ip2macNo)])) :=
  ⟨fun calls => runCalls_nodup calls [] List.nodup_nil,
    AppendSendReqData_of_mem, AppendSendReqData_of_not_mem⟩

/-! ## Theorems: the boundary merge of `checksum2` -/

theorem sumWords_odd (m : Mem) : ∀ (k ptr sum : Nat),
    sumWords m (2 * k + 1) ptr sum = (1, (sumWords m (2 * k) ptr sum).2) := by
  intro k
  induction k with
  | zero => intro ptr sum; rfl
  | succ k ih =>
    intro ptr sum
    have e1 : 2 * (k + 1) + 1 = (2 * k + 1) + 2 := by omega
    have e2 : 2 * (k + 1) = 2 * k + 2 := by omega
    rw [e1, e2]
    simp only [sumWords]
    exact ih _ _

theorem merge_word (x a b : Nat) (ha : a < 256) (hb : b < 256) :
    (((a + 256 * x) <<< 8) + b) % 65536 = 256 * a + b := by
  rw [Nat.shiftLeft_eq]
  omega

/-- Closed form of `checksum2` when the first buffer has odd length `2k + 1`
and the second one is not empty: the boundary word is `256 * a + b`. -/
theorem checksum2_odd (d1 d2 : Mem) (k len2 : Nat) (h2 : 1 ≤ len2) :
    checksum2 d1 ((2 * k + 1 : Nat) : Int) d2 (len2 : Int)
      = 65535 - red ((words d1 (2 * k) 0).sum + (256 * byteAt d1 (2 * k) + byteAt d2 0)
          + (words d2 (len2 - 1) 1).sum) := by
  obtain ⟨h1, hp, h3, h4⟩ := sumWords_spec d1 (2 * k) 0 0 (by omega)
  have ek : (2 * k) % 2 = 0 := by omega
  rw [ek, if_neg (by omega), Nat.add_zero, Nat.zero_add] at h4
  rw [ek, Nat.zero_add, Nat.sub_zero] at hp
  have ha := byteAt_lt d1 (2 * k)
  have hb := byteAt_lt d2 0
  have hval : ((load16 d1 (2 * k) <<< 8) + byteAt d2 0) % 65536
      = 256 * byteAt d1 (2 * k) + byteAt d2 0 := by
    unfold load16
    exact merge_word _ _ _ ha hb
  obtain ⟨a1, a2⟩ := addWord_inv (sumWords d1 (2 * k) 0 0).2.2
    (256 * byteAt d1 (2 * k) + byteAt d2 0) h3 (by omega)
  obtain ⟨g1, g2, g3, g4⟩ := sumWords_spec d2 (len2 - 1) 1
    (addWord (sumWords d1 (2 * k) 0 0).2.2 (256 * byteAt d1 (2 * k) + byteAt d2 0)) a1
  rw [red_add_congr _ _ _ a2, Nat.add_assoc, red_add_congr _ _ _ h4, ← Nat.add_assoc] at g4
  have hbt := byteAt_lt d2 (1 + (len2 - 1 - (len2 - 1) % 2))
  have e1 : (((1 : Nat) : Int) = 1) := rfl
  have elen : ((len2 : Nat) : Int) - 1 = ((len2 - 1 : Nat) : Int) := by omega
  unfold checksum2
  simp only [wordLoop_ofNat, sumWords_odd, hp, hval, if_pos e1, elen, g1, g2, two_pow_32]
  by_cases hc : (len2 - 1) % 2 = 1
  · have e : (((len2 - 1) % 2 : Nat) : Int) = 1 := by rw [hc]; rfl
    rw [if_pos hc] at g4
    rw [if_pos e, Nat.mod_eq_of_lt (by omega), foldCarry_eq_red _ _ (le_refl _), g4,
      complement16_of_le _ (red_le _)]
  · have e : ¬ ((((len2 - 1) % 2 : Nat) : Int) = 1) := by
      intro hx; exact hc (by exact_mod_cast hx)
    rw [if_neg hc, Nat.add_zero] at g4
    rw [if_neg e, foldCarry_eq_red _ _ (le_refl _), g4, complement16_of_le _ (red_le _)]

/-- C18: for an odd-length `A = A' ++ [a]` and a non-empty `B = [b] ++ B'`,
`checksum2(A, B)` is the 16-bit complement of the folded ones-complement sum of
the words of `A'` (as `checksum` reads them), the single word `256 * a + b`, and
the words of `B'` (an odd trailing byte zero-padded); the result is the same
for every memory that agrees with `A` on its `len A` bytes, so the byte stored
after the end of `A` has no influence. -/
theorem checksum2_boundary_merge (A B : Mem) (lenA lenB : Nat) (hodd : lenA % 2 = 1)
    (hB : 1 ≤ lenB) :
    checksum2 A (lenA : Int) B (lenB : Int)
      = not16 (onesSum (words A (lenA - 1) 0
          ++ [256 * byteAt A (lenA - 1) + byteAt B 0] ++ words B (lenB - 1) 1)) ∧
    ∀ A2 : Mem, (∀ i, i < lenA → byteAt A2 i = byteAt A i) →
      checksum2 A2 (lenA : Int) B (lenB : Int) = checksum2 A (lenA : Int) B (lenB : Int) := by
  obtain ⟨k, hk⟩ : ∃ k, lenA = 2 * k + 1 := ⟨lenA / 2, by omega⟩
  subst hk
  have e : 2 * k + 1 - 1 = 2 * k := by omega
  constructor
  · rw [checksum2_odd A B k lenB hB, e, onesSum_eq_red]
    · have := red_le ((words A (2 * k) 0 ++ [256 * byteAt A (2 * k) + byteAt B 0]
        ++ words B (lenB - 1) 1).sum)
      simp only [List.sum_append, List.sum_cons, List.sum_nil, Nat.add_zero] at this ⊢
      unfold not16
      omega
    · intro w hw
      have ha := byteAt_lt A (2 * k)
      have hb := byteAt_lt B 0
      rcases List.mem_append.1 hw with h | h
      · rcases List.mem_append.1 h with h | h
        · exact words_lt A _ _ w h
        · rw [List.mem_singleton.1 h]; omega
      · exact words_lt B _ _ w h
  · intro A2 hA
    rw [checksum2_odd A2 B k lenB hB, checksum2_odd A B k lenB hB,
      words_congr A2 A (2 * k) 0 (fun i _ hi => hA i (by omega)), hA (2 * k) (by omega)]

/-- Witness for C18: `A = [1, 2, 3]` followed in memory by the byte 9, and
`B = [4, 5]`. -/
theorem checksum2_boundary_merge_witness :
    checksum2 (memOf [1, 2, 3, 9]) ((3 : Nat) : Int) (memOf [4, 5]) ((2 : Nat) : Int)
      = not16 (onesSum (words (memOf [1, 2, 3, 9]) (3 - 1) 0
          ++ [256 * byteAt (memOf [1, 2, 3, 9]) (3 - 1) + byteAt (memOf [4, 5]) 0]
          ++ words (memOf [4, 5]) (2 - 1) 1)) :=
  (checksum2_boundary_merge (memOf [1, 2, 3, 9]) (memOf [4, 5]) 3 2 (by decide) (by decide)).1

/-! ## Theorems: observations, ARP frames and route selection -/

/-- C19 (defect of the code): on an unused table 10.0.0.5 is queried at time 0,
which creates a Negative entry, and then observed at aa:bb:cc:dd:ee:ff at
time 1. The entry returned is Resolved with that hardware address, but its
`lastTime` is still 0, not 1: `lastTime = now` is executed only if the entry
was already `FLAG_OK` before the update. -/
theorem observation_of_negative_entry_keeps_old_time :
    (Ip2MacSearch 0 sampleIp (some sampleMac) 1
        (Ip2MacSearch 0 sampleIp none 0 emptyTable []).table
        (Ip2MacSearch 0 sampleIp none 0 emptyTable []).SendReq).entry
      = ⟨FLAG_OK, 0, sampleIp, [0xaa, 0xbb, 0xcc, 0xdd, 0xee, 0xff], 0, ⟨[]⟩⟩ ∧
    (Ip2MacSearch 0 sampleIp (some sampleMac) 1
        (Ip2MacSearch 0 sampleIp none 0 emptyTable []).table
        (Ip2MacSearch 0 sampleIp none 0 emptyTable []).SendReq).entry.lastTime ≠ 1 := by
  decide

/-- An observation through `Ip2Mac`: the entry returned is Resolved, so no ARP
request is written; the table of `deviceNo` and the notification queue are
those `Ip2MacSearch` leaves. -/
theorem Ip2Mac_observe (cfg : Config) (deviceNo : Fin 2) (addr : Nat) (hw : Mem) (now : Int)
    (s : State) :
    Ip2Mac cfg deviceNo addr (some hw) now s =
      ((Ip2MacSearch deviceNo.val addr (some hw) now (s.Ip2Macs deviceNo) s.SendReq).index,
       { Ip2Macs := Function.update s.Ip2Macs deviceNo
           (Ip2MacSearch deviceNo.val addr (some hw) now (s.Ip2Macs deviceNo) s.SendReq).table
         SendReq :=
           (Ip2MacSearch deviceNo.val addr (some hw) now (s.Ip2Macs deviceNo) s.SendReq).SendReq
         out := s.out }) := by
  obtain ⟨mid, e, tl, hd, hi, _, hf, _, _⟩ :=
    Ip2MacSearch_observe_shape deviceNo.val addr hw now (s.Ip2Macs deviceNo) s.SendReq
  have he : (Ip2MacSearch deviceNo.val addr (some hw) now (s.Ip2Macs deviceNo) s.SendReq).entry.flag
      = FLAG_OK := by
    unfold SearchResult.entry
    rw [hd, getD_append_cons _ _ _ _ _ hi]
    exact hf
  unfold Ip2Mac
  simp only [he, if_true]

/-- C12: an ARP frame addressed to the receiving interface with at least 28
bytes after the Ethernet header and opcode request or reply is fed to the cache
of the receiving interface as an observation: afterwards that table (the one
`Ip2MacSearch` leaves) holds a Resolved entry for the sender protocol address
with the sender hardware address, nothing has been written (no ARP request),
and 0 is returned. For any other opcode 0 is returned and the state is left as
it was. -/
theorem arp_frame_is_learned (cfg : Config) (deviceNo : Fin 2) (data : Mem)
    (size now : Int) (junk : Mem) (s : State)
    (hsize : 42 ≤ size)
    (hdst : readBytes data 0 6 = readBytes (memOf (cfg.Device deviceNo).hwaddr) 0 6)
    (htype : ntohs (load16 data 12) = ETHERTYPE_ARP) :
    (load16 data 20 = htons ARPOP_REQUEST ∨ load16 data 20 = htons ARPOP_REPLY →
      AnalyzePacket cfg deviceNo data size now junk s =
        (0, { Ip2Macs := Function.update s.Ip2Macs deviceNo
                (Ip2MacSearch deviceNo.val (load32 data 28) (some (offsetMem data 22)) now
                  (s.Ip2Macs deviceNo) s.SendReq).table
              SendReq := (Ip2MacSearch deviceNo.val (load32 data 28) (some (offsetMem data 22))
                  now (s.Ip2Macs deviceNo) s.SendReq).SendReq
              out := s.out }) ∧
      ∃ e ∈ ((AnalyzePacket cfg deviceNo data size now junk s).2.Ip2Macs deviceNo).data,
        e.flag = FLAG_OK ∧ e.addr = load32 data 28 ∧ e.hwaddr = readBytes data 22 6) ∧
    (load16 data 20 ≠ htons ARPOP_REQUEST → load16 data 20 ≠ htons ARPOP_REPLY →
      AnalyzePacket cfg deviceNo data size now junk s = (0, s)) := by
  have h1 : lessThanSizeof size 14 = false := by
    simp only [lessThanSizeof, decide_eq_false_iff_not]
    omega
  have h2 : lessThanSizeof (size - 14) 28 = false := by
    simp only [lessThanSizeof, decide_eq_false_iff_not]
    omega
  have h3 : ¬ (htons ARPOP_REPLY = htons ARPOP_REQUEST) := by decide
  have h4 : ¬ (htons ARPOP_REQUEST = htons ARPOP_REPLY) := by decide
  constructor
  · intro hop
    have hA : AnalyzePacket cfg deviceNo data size now junk s =
        (0, { Ip2Macs := Function.update s.Ip2Macs deviceNo
                (Ip2MacSearch deviceNo.val (load32 data 28) (some (offsetMem data 22)) now
                  (s.Ip2Macs deviceNo) s.SendReq).table
              SendReq := (Ip2MacSearch deviceNo.val (load32 data 28) (some (offsetMem data 22))
                  now (s.Ip2Macs deviceNo) s.SendReq).SendReq
              out := s.out }) := by
      unfold AnalyzePacket
      simp only [h1, h2, hdst, htype]
      rcases hop with hop | hop
      · simp [hop, h4, Ip2Mac_observe]
      · simp [hop, h3, Ip2Mac_observe]
    refine ⟨hA, ?_⟩
    obtain ⟨mid, e, tl, hd, _, _, hf, ha, hh⟩ := Ip2MacSearch_observe_shape deviceNo.val
      (load32 data 28) (offsetMem data 22) now (s.Ip2Macs deviceNo) s.SendReq
    refine ⟨e, ?_, hf, ha, ?_⟩
    · rw [hA]
      simp only [Function.update_same, hd]
      simp
    · rw [hh, readBytes_offsetMem]
  · intro hq hp
    unfold AnalyzePacket
    simp [h1, h2, hdst, htype, hq, hp]

/-- Witness for C12: `arpRequest` read on interface 0 in the start-up state. -/
theorem arp_frame_is_learned_witness :
    (AnalyzePacket sampleConfig 0 arpRequest 42 7 zeroMem initialState).1 = 0 ∧
    (AnalyzePacket sampleConfig 0 arpRequest 42 7 zeroMem initialState).2.out = [] :=
  ⟨congrArg Prod.fst
      (((arp_frame_is_learned sampleConfig 0 arpRequest 42 7 zeroMem initialState
        (by decide) (by decide) (by decide)).1 (Or.inl (by decide))).1),
    congrArg (fun x => x.2.out)
      (((arp_frame_is_learned sampleConfig 0 arpRequest 42 7 zeroMem initialState
        (by decide) (by decide) (by decide)).1 (Or.inl (by decide))).1)⟩

/-- What `AnalyzePacket` does with an IPv4 frame that has passed decoding and
header-checksum validation: the TTL check, then the choice of the resolution
target, then the resolve-and-send step on the other interface. -/
theorem AnalyzePacket_validated (cfg : Config) (deviceNo tno : Fin 2) (data : Mem)
    (size now : Int) (junk : Mem) (s : State)
    (hsize : 34 ≤ size)
    (hdst : readBytes data 0 6 = readBytes (memOf (cfg.Device deviceNo).hwaddr) 0 6)
    (htype : ntohs (load16 data 12) = ETHERTYPE_IP)
    (hck : checkIPchecksum (offsetMem data 14)
      (optionBuf junk (offsetMem data 34) ((ihl (offsetMem data 14) : Int) * 4 - 20))
      ((ihl (offsetMem data 14) : Int) * 4 - 20) = 1)
    (htno : tno = if deviceNo = 0 then 1 else 0) :
    AnalyzePacket cfg deviceNo data size now junk s =
      if byteAt data 22 = 1 then (-1, SendIcmpTimeExceeded cfg deviceNo data size s)
      else if load32 data 30 &&& (cfg.Device tno).netmask = (cfg.Device tno).subnet then
        if load32 data 30 = (cfg.Device tno).addr then (1, s)
        else resolveAndSend cfg tno (load32 data 30) data size
          (optionBuf junk (offsetMem data 34) ((ihl (offsetMem data 14) : Int) * 4 - 20))
          ((ihl (offsetMem data 14) : Int) * 4 - 20) now s
      else resolveAndSend cfg tno cfg.NextRouter data size
        (optionBuf junk (offsetMem data 34) ((ihl (offsetMem data 14) : Int) * 4 - 20))
        ((ihl (offsetMem data 14) : Int) * 4 - 20) now s := by
  have h1 : lessThanSizeof size 14 = false := by
    simp only [lessThanSizeof, decide_eq_false_iff_not]
    omega
  have h2 : lessThanSizeof (size - 14) 20 = false := by
    simp only [lessThanSizeof, decide_eq_false_iff_not]
    omega
  have h3 : ETHERTYPE_IP ≠ ETHERTYPE_ARP := by decide
  have h4 := optionLen_small (offsetMem data 14)
  have h5 : ((byteAt data 22 : Int) - 1 = 0) ↔ byteAt data 22 = 1 := by omega
  unfold AnalyzePacket
  simp only [h1, h2, hdst, htype, h3, if_neg h4, hck, h5, ← htno]
  simp

/-- The resolve-and-send step works on the interface `tno` only: the table of
the other interface is left as it was and whatever is written is written on
the socket of `tno`. -/
theorem resolveAndSend_on_tno (cfg : Config) (tno : Fin 2) (target : Nat) (data : Mem)
    (size : Int) (option : Mem) (optionLen : Int) (now : Int) (s : State) :
    (∀ d : Fin 2, d ≠ tno →
      (resolveAndSend cfg tno target data size option optionLen now s).2.Ip2Macs d
        = s.Ip2Macs d) ∧
    ∃ w, (resolveAndSend cfg tno target data size option optionLen now s).2.out = s.out ++ w ∧
      ∀ x ∈ w, x.1 = (cfg.Device tno).soc := by
  unfold resolveAndSend Ip2Mac
  by_cases h1 : (Ip2MacSearch tno.val target none now (s.Ip2Macs tno) s.SendReq).entry.flag
      = FLAG_OK
  · simp only [h1, if_true, entry_after_update]
    by_cases h2 : (Ip2MacSearch tno.val target none now (s.Ip2Macs tno) s.SendReq).entry.flag
        = FLAG_NG ∨
        (Ip2MacSearch tno.val target none now (s.Ip2Macs tno) s.SendReq).entry.sd.dno ≠ 0
    · rw [h1] at h2
      simp only [if_pos h2, setEntry]
      refine ⟨fun d hd => ?_, [], by simp, by simp⟩
      simp [Function.update_noteq hd]
    · rw [h1] at h2
      simp only [if_neg h2]
      refine ⟨fun d hd => ?_, _, rfl, by simp⟩
      simp [Function.update_noteq hd]
  · simp only [h1, if_false, SendArpRequestB, entry_after_update]
    by_cases h2 : (Ip2MacSearch tno.val target none now (s.Ip2Macs tno) s.SendReq).entry.flag
        = FLAG_NG ∨
        (Ip2MacSearch tno.val target none now (s.Ip2Macs tno) s.SendReq).entry.sd.dno ≠ 0
    · simp only [if_pos h2, setEntry]
      refine ⟨fun d hd => ?_, _, rfl, by simp⟩
      simp [Function.update_noteq hd]
    · simp only [if_neg h2]
      refine ⟨fun d hd => ?_, _, List.append_assoc _ _ _, by simp⟩
      simp [Function.update_noteq hd]

/-- C11: route selection. Let the subnet of the other interface `tno` be its
address AND its netmask. For a validated IPv4 frame with `ttl ≠ 1` read on
`deviceNo`: `tno` is the other interface (`1 - deviceNo`); if the IP destination
is the address of `tno`, `AnalyzePacket` returns 1 and leaves the state as it
was (nothing written, no lookup); otherwise it is the resolve-and-send step
`Ip2Mac(tno, target, NULL)` on interface `tno`, with `target` the IP
destination when `destination AND netmask = subnet` on `tno` and `NextRouter`
in every other case; that step leaves the table of `deviceNo` untouched and
writes on the socket of `tno` only. -/
theorem route_selection (cfg : Config) (deviceNo tno : Fin 2) (data : Mem)
    (size now : Int) (junk : Mem) (s : State)
    (hsize : 34 ≤ size)
    (hdst : readBytes data 0 6 = readBytes (memOf (cfg.Device deviceNo).hwaddr) 0 6)
    (htype : ntohs (load16 data 12) = ETHERTYPE_IP)
    (hck : checkIPchecksum (offsetMem data 14)
      (optionBuf junk (offsetMem data 34) ((ihl (offsetMem data 14) : Int) * 4 - 20))
      ((ihl (offsetMem data 14) : Int) * 4 - 20) = 1)
    (httl : byteAt data 22 ≠ 1)
    (htno : tno = if deviceNo = 0 then 1 else 0)
    (hsub : (cfg.Device tno).subnet = (cfg.Device tno).addr &&& (cfg.Device tno).netmask) :
    tno.val = 1 - deviceNo.val ∧
    (load32 data 30 = (cfg.Device tno).addr →
      AnalyzePacket cfg deviceNo data size now junk s = (1, s)) ∧
    (load32 data 30 ≠ (cfg.Device tno).addr →
      AnalyzePacket cfg deviceNo data size now junk s =
        resolveAndSend cfg tno
          (if load32 data 30 &&& (cfg.Device tno).netmask = (cfg.Device tno).subnet
            then load32 data 30 else cfg.NextRouter)
          data size
          (optionBuf junk (offsetMem data 34) ((ihl (offsetMem data 14) : Int) * 4 - 20))
          ((ihl (offsetMem data 14) : Int) * 4 - 20) now s ∧
      (AnalyzePacket cfg deviceNo data size now junk s).2.Ip2Macs deviceNo = s.Ip2Macs deviceNo ∧
      ∃ w, (AnalyzePacket cfg deviceNo data size now junk s).2.out = s.out ++ w ∧
        ∀ x ∈ w, x.1 = (cfg.Device tno).soc) := by
  have hv := AnalyzePacket_validated cfg deviceNo tno data size now junk s hsize hdst htype hck
    htno
  rw [if_neg httl] at hv
  have hne : deviceNo ≠ tno := by
    rw [htno]
    by_cases h0 : deviceNo = 0
    · rw [if_pos h0, h0]; decide
    · rw [if_neg h0]; exact h0
  refine ⟨?_, ?_, ?_⟩
  · rw [htno]
    by_cases h0 : deviceNo = 0
    · rw [if_pos h0, h0]; rfl
    · rw [if_neg h0]
      have : deviceNo.val ≠ 0 := fun h => h0 (Fin.ext h)
      have := deviceNo.isLt
      show 0 = 1 - deviceNo.val
      omega
  · intro hd
    have hm : load32 data 30 &&& (cfg.Device tno).netmask = (cfg.Device tno).subnet := by
      rw [hd, hsub]
    rw [hv, if_pos hm, if_pos hd]
  · intro hd
    have hA : AnalyzePacket cfg deviceNo data size now junk s =
        resolveAndSend cfg tno
          (if load32 data 30 &&& (cfg.Device tno).netmask = (cfg.Device tno).subnet
            then load32 data 30 else cfg.NextRouter)
          data size
          (optionBuf junk (offsetMem data 34) ((ihl (offsetMem data 14) : Int) * 4 - 20))
          ((ihl (offsetMem data 14) : Int) * 4 - 20) now s := by
      rw [hv]
      by_cases hm : load32 data 30 &&& (cfg.Device tno).netmask = (cfg.Device tno).subnet
      · rw [if_pos hm, if_neg hd, if_pos hm]
      · rw [if_neg hm, if_neg hm]
    obtain ⟨e1, e2⟩ := resolveAndSend_on_tno cfg tno
      (if load32 data 30 &&& (cfg.Device tno).netmask = (cfg.Device tno).subnet
        then load32 data 30 else cfg.NextRouter) data size
      (optionBuf junk (offsetMem data 34) ((ihl (offsetMem data 14) : Int) * 4 - 20))
      ((ihl (offsetMem data 14) : Int) * 4 - 20) now s
    refine ⟨hA, ?_, ?_⟩
    · rw [hA]; exact e1 deviceNo hne
    · rw [hA]; exact e2

/-- Witness for C11: `frameTtl64` (to 10.0.1.7, on the segment of interface 1)
read on interface 0 of `sampleConfig`. -/
theorem route_selection_witness :
    AnalyzePacket sampleConfig 0 frameTtl64 34 5 zeroMem initialState =
      resolveAndSend sampleConfig 1
        (if load32 frameTtl64 30 &&& (sampleConfig.Device 1).netmask
            = (sampleConfig.Device 1).subnet
          then load32 frameTtl64 30 else sampleConfig.NextRouter)
        frameTtl64 34
        (optionBuf zeroMem (offsetMem frameTtl64 34)
          ((ihl (offsetMem frameTtl64 14) : Int) * 4 - 20))
        ((ihl (offsetMem frameTtl64 14) : Int) * 4 - 20) 5 initialState :=
  ((route_selection sampleConfig 0 1 frameTtl64 34 5 zeroMem initialState
    (by decide) (by decide) (by decide) (by decide) (by decide) (by decide) (by decide)).2.2
    (by decide)).1

/-! ## Theorems: the TTL in the flush path -/

/-- The resolve-and-send step when the entry found is Negative or has packets
pending: -1 is returned, nothing but a possible ARP request is written, and the
frame is appended to the pending queue of the entry through `AppendSendData`
with the pointer and size `AnalyzePacket` received. -/
theorem resolveAndSend_queued (cfg : Config) (tno : Fin 2) (target : Nat) (data : Mem)
    (size : Int) (option : Mem) (optionLen : Int) (now : Int) (s : State) (r : SearchResult)
    (hr : r = Ip2MacSearch tno.val target none now (s.Ip2Macs tno) s.SendReq)
    (hq : r.entry.flag = FLAG_NG ∨ r.entry.sd.dno ≠ 0) :
    (resolveAndSend cfg tno target data size option optionLen now s).1 = -1 ∧
    ((resolveAndSend cfg tno target data size option optionLen now s).2.Ip2Macs tno).data
      = r.table.data.set r.index (AppendSendData r.entry 1 target data size now) ∧
    (resolveAndSend cfg tno target data size option optionLen now s).2.out
      = s.out ++ (if r.entry.flag = FLAG_OK then []
          else [((cfg.Device tno).soc, arpRequestFrame target (memOf bcast)
            (cfg.Device tno).addr (memOf (cfg.Device tno).hwaddr))]) := by
  have he : r.table.data.getD r.index default = r.entry := rfl
  unfold resolveAndSend Ip2Mac
  by_cases h1 : r.entry.flag = FLAG_OK
  · simp only [← hr, if_pos h1, entry_after_update, he, if_pos hq, setEntry,
      Function.update_same, List.append_nil, and_self]
  · simp only [← hr, if_neg h1, SendArpRequestB, entry_after_update, he, if_pos hq, setEntry,
      Function.update_same, and_self]

theorem flushFrame_ttl (dev : DEVICE) (hwaddr : List Nat) (option : Mem) (n : Nat)
    (data : List Nat) (hn : 34 ≤ n) :
    (flushFrame dev hwaddr option n data).getD 22 0 = (byteAt (memOf data) 22 + 255) % 256 := by
  rw [flushFrame_layout dev hwaddr option n data hn]
  simp only [List.append_assoc]
  rw [List.getD_append_right _ _ _ _ (by rw [length_readBytes]; omega),
    List.getD_append_right _ _ _ _ (by rw [length_readBytes, length_readBytes]; omega),
    List.getD_append_right _ _ _ _ (by simp only [length_readBytes]; omega)]
  simp only [length_readBytes]
  rfl

/-- C20, amended: the flush decrements the TTL, once. For every pending packet
of at least 34 bytes that `BufferSendOne` dequeues, the TTL byte of the frame
it writes is the TTL byte of the frame as stored in the pending queue minus one
(modulo 256); and when `AnalyzePacket` queues a frame (entry Negative, or
packets already pending), what it appends to the queue is the frame as
received, no decrement applied. -/
theorem flush_decrements_ttl (cfg : Config) (deviceNo : Fin 2) (i : Nat) (junk : Mem)
    (s : State) (e : IP2MAC)
    (hget : (s.Ip2Macs deviceNo).data[i]? = some e)
    (hsz : ∀ p ∈ e.sd.top, 34 ≤ p.size) :
    (BufferSendOne cfg deviceNo i junk s).2.out
      = s.out ++ e.sd.top.map (fun p => ((cfg.Device deviceNo).soc,
          flushFrame (cfg.Device deviceNo) e.hwaddr zeroMem p.size p.data)) ∧
    (∀ p ∈ e.sd.top,
      (flushFrame (cfg.Device deviceNo) e.hwaddr zeroMem p.size p.data).getD 22 0
        = (byteAt (memOf p.data) 22 + 255) % 256) ∧
    (∀ (target : Nat) (data : Mem) (size : Int) (option : Mem) (optionLen now : Int)
      (s0 : State),
      (Ip2MacSearch deviceNo.val target none now (s0.Ip2Macs deviceNo) s0.SendReq).entry.flag
          = FLAG_NG ∨
        (Ip2MacSearch deviceNo.val target none now (s0.Ip2Macs deviceNo)
          s0.SendReq).entry.sd.dno ≠ 0 →
      ((resolveAndSend cfg deviceNo target data size option optionLen now s0).2.Ip2Macs
          deviceNo).data
        = (Ip2MacSearch deviceNo.val target none now (s0.Ip2Macs deviceNo) s0.SendReq).table.data.set
            (Ip2MacSearch deviceNo.val target none now (s0.Ip2Macs deviceNo) s0.SendReq).index
            { (Ip2MacSearch deviceNo.val target none now (s0.Ip2Macs deviceNo)
                s0.SendReq).entry with
              sd := ⟨(Ip2MacSearch deviceNo.val target none now (s0.Ip2Macs deviceNo)
                  s0.SendReq).entry.sd.top
                ++ [⟨now, size.toNat, readBytes data 0 size.toNat⟩]⟩ }) := by
  obtain ⟨_, h2, _, _⟩ := BufferSendOne_at cfg deviceNo i junk s e hget
  refine ⟨h2, fun p hp => flushFrame_ttl _ _ _ _ _ (hsz p hp), ?_⟩
  intro target data size option optionLen now s0 hq
  exact (resolveAndSend_queued cfg deviceNo target data size option optionLen now s0 _ rfl hq).2.1

/-- Witness for C20, amended: the flush of `pendingState`, where `frameTtl64`
and `frameTtl9` are pending. -/
theorem flush_decrements_ttl_witness :
    (BufferSendOne sampleConfig 1 0 zeroMem pendingState).2.out
      = pendingState.out ++ pendingEntry.sd.top.map (fun p => ((sampleConfig.Device 1).soc,
          flushFrame (sampleConfig.Device 1) pendingEntry.hwaddr zeroMem p.size p.data)) :=
  (flush_decrements_ttl sampleConfig 1 0 zeroMem pendingState pendingEntry rfl
    (by decide)).1

/-- C20 as stated fails: in `pendingState` the frames stored in the pending
queue have the TTL bytes 64 and 9, and the frames `BufferSendOne` writes for
them have the TTL bytes 63 and 8. -/
theorem flush_ttl_differs_from_stored_ttl :
    pendingEntry.sd.top.map (fun p => p.data.getD 22 0) = [64, 9] ∧
    (BufferSendOne sampleConfig 1 0 zeroMem pendingState).2.out.map (fun f => f.2.getD 22 0)
      = [63, 8] ∧
    (BufferSendOne sampleConfig 1 0 zeroMem pendingState).2.out.map (fun f => f.2.getD 22 0)
      ≠ pendingEntry.sd.top.map (fun p => p.data.getD 22 0) := by
  decide

/-! ## Theorems: option length and remaining size -/

/-- The local array `option` holds, after the copy, the `optionLen` bytes
that follow `ptr` in memory. -/
theorem byteAt_optionBuf (junk ptr : Mem) (optionLen : Int) (hpos : 0 < optionLen) (i : Nat)
    (hi : i < optionLen.toNat) :
    byteAt (optionBuf junk ptr optionLen) i = byteAt ptr i := by
  have h := byteAt_memOf_readBytes ptr 0 optionLen.toNat i hi
  simp only [byteAt, memOf, Nat.zero_add] at h
  simp only [optionBuf, if_pos hpos, byteAt, storeBytes, length_readBytes]
  rw [if_pos ⟨Nat.zero_le _, by omega⟩, Nat.sub_zero]
  exact h

/-- The router drops an IPv4 frame whose header checksum does not validate,
leaving the state as it was. -/
theorem AnalyzePacket_bad_header_checksum (cfg : Config) (deviceNo : Fin 2) (data : Mem)
    (size now : Int) (junk : Mem) (s : State)
    (hsize : 34 ≤ size)
    (hdst : readBytes data 0 6 = readBytes (memOf (cfg.Device deviceNo).hwaddr) 0 6)
    (htype : ntohs (load16 data 12) = ETHERTYPE_IP)
    (hck : checkIPchecksum (offsetMem data 14)
      (optionBuf junk (offsetMem data 34) ((ihl (offsetMem data 14) : Int) * 4 - 20))
      ((ihl (offsetMem data 14) : Int) * 4 - 20) = 0) :
    AnalyzePacket cfg deviceNo data size now junk s = (-1, s) := by
  have h1 : lessThanSizeof size 14 = false := by
    simp only [lessThanSizeof, decide_eq_false_iff_not]
    omega
  have h2 : lessThanSizeof (size - 14) 20 = false := by
    simp only [lessThanSizeof, decide_eq_false_iff_not]
    omega
  have h3 : ETHERTYPE_IP ≠ ETHERTYPE_ARP := by decide
  have h4 := optionLen_small (offsetMem data 14)
  unfold AnalyzePacket
  simp only [h1, h2, hdst, htype, h3, if_neg h4, hck]
  simp

/-- The analyzer's verdict on an IPv4 packet is the same for every size that
holds the 20-byte fixed header. -/
theorem AnalyzeIp_of_size (data junk : Mem) (size : Int) (h : 20 ≤ size) :
    Ch3.AnalyzeIp data size junk = Ch3.AnalyzeIp data 20 junk := by
  have h1 : lessThanSizeof size 20 = false := by
    simp only [lessThanSizeof, decide_eq_false_iff_not]
    omega
  have h2 : lessThanSizeof 20 20 = false := by decide
  unfold Ch3.AnalyzeIp
  simp only [h1, h2]

/-- The analyzer rejects an IPv4 packet whose header checksum over the header
and the declared option bytes does not validate. -/
theorem AnalyzeIp_bad_header_checksum (data junk : Mem) (size : Int)
    (hpos : 0 < Ch3.ipOptionLen data)
    (hck : Ch3.checkIPchecksum data (offsetMem data 20) (Ch3.ipOptionLen data) = 0) :
    Ch3.AnalyzeIp data size junk = -1 := by
  unfold Ch3.AnalyzeIp
  simp only [if_pos hpos, hck]
  simp

/-- The function `checkIPchecksum` returns 0 or 1. -/
theorem checkIPchecksum_zero_or_one (iphdr option : Mem) (optionLen : Int) :
    checkIPchecksum iphdr option optionLen = 0 ∨ checkIPchecksum iphdr option optionLen = 1 := by
  simp only [checkIPchecksum]
  split_ifs <;> first | exact Or.inr rfl | exact Or.inl rfl

/-- C14 (as the code has it): for an IPv4 frame whose positive option length
exceeds the bytes remaining after the fixed header, neither decoder compares
the option length with the remaining size. The router copies the `optionLen`
bytes that follow the fixed header in the buffer, received or not, into
`option`, and `checkIPchecksum` over the header and those bytes returns 0 or
1. If it returns 0, `AnalyzePacket` returns -1 with the state unchanged. If
it returns 1, the frame is handled as any other validated frame: the ICMP
Time-Exceeded answer when `ttl = 1`, the return value 1 for local delivery,
and otherwise the resolve-and-send step on the other interface, which queues
the frame or forwards it. The analyzer returns -1 if its header checksum
fails, and in every case its verdict is the one it gives for any other size
that holds the fixed header. -/
theorem option_length_is_not_compared_with_size (cfg : Config) (deviceNo tno : Fin 2)
    (data : Mem) (size now : Int) (junk : Mem) (s : State)
    (hsize : 34 ≤ size)
    (hdst : readBytes data 0 6 = readBytes (memOf (cfg.Device deviceNo).hwaddr) 0 6)
    (htype : ntohs (load16 data 12) = ETHERTYPE_IP)
    (hpos : 0 < (ihl (offsetMem data 14) : Int) * 4 - 20)
    (_hbeyond : size - 34 < (ihl (offsetMem data 14) : Int) * 4 - 20)
    (htno : tno = if deviceNo = 0 then 1 else 0) :
    (∀ i, i < ((ihl (offsetMem data 14) : Int) * 4 - 20).toNat →
      byteAt (optionBuf junk (offsetMem data 34) ((ihl (offsetMem data 14) : Int) * 4 - 20)) i
        = byteAt data (34 + i)) ∧
    (checkIPchecksum (offsetMem data 14)
        (optionBuf junk (offsetMem data 34) ((ihl (offsetMem data 14) : Int) * 4 - 20))
        ((ihl (offsetMem data 14) : Int) * 4 - 20) = 0 →
      AnalyzePacket cfg deviceNo data size now junk s = (-1, s)) ∧
    (checkIPchecksum (offsetMem data 14)
        (optionBuf junk (offsetMem data 34) ((ihl (offsetMem data 14) : Int) * 4 - 20))
        ((ihl (offsetMem data 14) : Int) * 4 - 20) = 1 →
      AnalyzePacket cfg deviceNo data size now junk s =
        if byteAt data 22 = 1 then (-1, SendIcmpTimeExceeded cfg deviceNo data size s)
        else if load32 data 30 &&& (cfg.Device tno).netmask = (cfg.Device tno).subnet then
          if load32 data 30 = (cfg.Device tno).addr then (1, s)
          else resolveAndSend cfg tno (load32 data 30) data size
            (optionBuf junk (offsetMem data 34) ((ihl (offsetMem data 14) : Int) * 4 - 20))
            ((ihl (offsetMem data 14) : Int) * 4 - 20) now s
        else resolveAndSend cfg tno cfg.NextRouter data size
          (optionBuf junk (offsetMem data 34) ((ihl (offsetMem data 14) : Int) * 4 - 20))
          ((ihl (offsetMem data 14) : Int) * 4 - 20) now s) ∧
    (Ch3.checkIPchecksum (offsetMem data 14) (offsetMem (offsetMem data 14) 20)
        (Ch3.ipOptionLen (offsetMem data 14)) = 0 →
      Ch3.AnalyzeIp (offsetMem data 14) (size - 14) junk = -1) ∧
    (∀ size2 : Int, 20 ≤ size2 →
      Ch3.AnalyzeIp (offsetMem data 14) (size - 14) junk
        = Ch3.AnalyzeIp (offsetMem data 14) size2 junk) ∧
    (checkIPchecksum (offsetMem data 14)
        (optionBuf junk (offsetMem data 34) ((ihl (offsetMem data 14) : Int) * 4 - 20))
        ((ihl (offsetMem data 14) : Int) * 4 - 20) = 0 ∨
      checkIPchecksum (offsetMem data 14)
        (optionBuf junk (offsetMem data 34) ((ihl (offsetMem data 14) : Int) * 4 - 20))
        ((ihl (offsetMem data 14) : Int) * 4 - 20) = 1) := by
  refine ⟨?_, ?_, ?_, ?_, ?_, checkIPchecksum_zero_or_one _ _ _⟩
  · intro i hi
    rw [byteAt_optionBuf junk _ _ hpos i hi]
    rfl
  · intro hck
    exact AnalyzePacket_bad_header_checksum cfg deviceNo data size now junk s hsize hdst htype hck
  · intro hck
    exact AnalyzePacket_validated cfg deviceNo tno data size now junk s hsize hdst htype hck htno
  · intro hck
    exact AnalyzeIp_bad_header_checksum _ junk _ hpos hck
  · intro size2 h2
    rw [AnalyzeIp_of_size _ junk (size - 14) (by omega), AnalyzeIp_of_size _ junk size2 h2]

/-- Witness for C14: `frameShortOptions` (34 bytes received, four option
bytes declared) read on interface 0 of `sampleConfig` while 10.0.1.7 is
Resolved; the copy takes the four bytes behind the received ones. -/
theorem option_length_is_not_compared_with_size_witness :
    (34 : Int) - 34 < (ihl (offsetMem frameShortOptions 14) : Int) * 4 - 20 ∧
    byteAt (optionBuf zeroMem (offsetMem frameShortOptions 34)
        ((ihl (offsetMem frameShortOptions 14) : Int) * 4 - 20)) 3
      = byteAt frameShortOptions (34 + 3) :=
  ⟨by decide,
    (option_length_is_not_compared_with_size sampleConfig 0 1 frameShortOptions 34 5 zeroMem
      resolvedState (by decide) (by decide) (by decide) (by decide) (by decide) (by decide)).1
      3 (by decide)⟩

/-- C14 (counterexample): `frameShortOptions` declares four option bytes and
none remains after the fixed header, yet the router returns 0 and writes the
forwarded frame, whose header checksum covers the bytes `1, 2, 3, 4` from
behind the received data, and the analyzer's `AnalyzeIp` returns 0. -/
theorem short_options_frame_is_forwarded :
    (Ch3.ipOptionLen (offsetMem frameShortOptions 14) = 4 ∧ (34 : Int) - 34 < 4) ∧
    (AnalyzePacket sampleConfig 0 frameShortOptions 34 5 zeroMem resolvedState).1 = 0 ∧
    (AnalyzePacket sampleConfig 0 frameShortOptions 34 5 zeroMem resolvedState).2.out
      = [(4, [0xaa, 0xbb, 0xcc, 0xdd, 0xee, 0xff, 2, 0, 0, 0, 0, 2, 8, 0,
           0x46, 0, 0, 24, 0, 0, 0, 0, 63, 1, 97, 208, 10, 0, 0, 9, 10, 0, 1, 7])] ∧
    checksum2 (memOf [0x46, 0, 0, 24, 0, 0, 0, 0, 63, 1, 97, 208, 10, 0, 0, 9, 10, 0, 1, 7]) 20
      (memOf [1, 2, 3, 4]) 4 = 0 ∧
    Ch3.AnalyzeIp (offsetMem frameShortOptions 14) (34 - 14) zeroMem = 0 := by
  decide

/-! ## Theorems: declared payload length and remaining size -/

/-- The value of `AnalyzeIp` once the fixed header fits: -1 exactly when the
header checksum or the checksum of the declared payload fails. -/
theorem AnalyzeIp_verdict (data junk : Mem) (size : Int) (h : 20 ≤ size) :
    Ch3.AnalyzeIp data size junk =
      if Ch3.checkIPchecksum data
          (if 0 < Ch3.ipOptionLen data then offsetMem data 20 else junk)
          (Ch3.ipOptionLen data) = 0 then -1
      else if byteAt data 9 = IPPROTO_ICMP then
        if checksum (offsetMem data (Ch3.ipPayloadOffset data)) (Ch3.ipDeclaredLen data) ≠ 0 ∧
            checksum (offsetMem data (Ch3.ipPayloadOffset data)) (Ch3.ipDeclaredLen data)
              ≠ 0xffff then -1 else 0
      else if byteAt data 9 = IPPROTO_TCP then
        if Ch3.checkIPDATAchecksum data (offsetMem data (Ch3.ipPayloadOffset data))
            (Ch3.ipDeclaredLen data) = 0 then -1 else 0
      else if byteAt data 9 = IPPROTO_UDP then
        if load16 (offsetMem data (Ch3.ipPayloadOffset data)) 6 ≠ 0 ∧
            Ch3.checkIPDATAchecksum data (offsetMem data (Ch3.ipPayloadOffset data))
              (Ch3.ipDeclaredLen data) = 0 then -1 else 0
      else 0 := by
  have h1 : lessThanSizeof size 20 = false := by
    simp only [lessThanSizeof, decide_eq_false_iff_not]
    omega
  have h4 : ¬ (0 < Ch3.ipOptionLen data ∧ 1500 ≤ Ch3.ipOptionLen data) :=
    optionLen_small data
  unfold Ch3.AnalyzeIp
  simp only [h1, if_neg h4]
  rfl

/-- The value of `AnalyzeIpv6` once the fixed header fits: -1 exactly when
the next header is ICMPv6, TCP or UDP and the checksum of the declared payload
fails. -/
theorem AnalyzeIpv6_verdict (data : Mem) (size : Int) (h : 40 ≤ size) :
    Ch3.AnalyzeIpv6 data size =
      if (byteAt data 6 = IPPROTO_ICMPV6 ∨ byteAt data 6 = IPPROTO_TCP ∨
            byteAt data 6 = IPPROTO_UDP) ∧
          Ch3.checkIP6DATAchecksum data (offsetMem data 40) (ntohs (load16 data 4) : Int) = 0
      then -1 else 0 := by
  have h1 : lessThanSizeof size 40 = false := by
    simp only [lessThanSizeof, decide_eq_false_iff_not]
    omega
  unfold Ch3.AnalyzeIpv6
  simp only [h1]
  split_ifs <;> simp_all

/-- A negative length runs no pass of the summing loop: the checksum is
`0xFFFF`. -/
theorem checksum_of_negative_len (m : Mem) (len : Int) (h : len < 0) :
    checksum m len = 0xFFFF := by
  cases len with
  | ofNat n => exact absurd h (by simp)
  | negSucc n =>
    have hc : (Int.negSucc n = 1) = False := by simp
    simp only [checksum, wordLoop, hc, if_false, foldCarry]
    decide

/-- C15 (as the code has it): for an IPv4 packet given to `AnalyzeIp`, or an
IPv6 packet given to `AnalyzeIpv6`, whose declared payload length is larger
than the bytes remaining after the header or negative, the decoder hands the
declared length to the payload checksum without comparing it with the
remaining size. Once the fixed header fits, `AnalyzeIp` returns -1 exactly
when the header checksum fails or the checksum over the declared length fails
(ICMP, TCP, and UDP with a nonzero check field), and 0 otherwise; a negative
length sums nothing, so an ICMP packet with a valid header is accepted.
`AnalyzeIpv6` returns -1 exactly when the next header is ICMPv6, TCP or UDP
and the checksum over `ip6_plen` bytes fails, and 0 otherwise. -/
theorem declared_length_goes_unchecked_to_checksum (data4 junk data6 : Mem)
    (size4 size6 : Int)
    (h4 : 20 ≤ size4) (h6 : 40 ≤ size6)
    (_hlen4 : size4 - (Ch3.ipPayloadOffset data4 : Int) < Ch3.ipDeclaredLen data4 ∨
      Ch3.ipDeclaredLen data4 < 0)
    (_hlen6 : size6 - 40 < (ntohs (load16 data6 4) : Int)) :
    (Ch3.AnalyzeIp data4 size4 junk =
      if Ch3.checkIPchecksum data4
          (if 0 < Ch3.ipOptionLen data4 then offsetMem data4 20 else junk)
          (Ch3.ipOptionLen data4) = 0 then -1
      else if byteAt data4 9 = IPPROTO_ICMP then
        if checksum (offsetMem data4 (Ch3.ipPayloadOffset data4)) (Ch3.ipDeclaredLen data4) ≠ 0 ∧
            checksum (offsetMem data4 (Ch3.ipPayloadOffset data4)) (Ch3.ipDeclaredLen data4)
              ≠ 0xffff then -1 else 0
      else if byteAt data4 9 = IPPROTO_TCP then
        if Ch3.checkIPDATAchecksum data4 (offsetMem data4 (Ch3.ipPayloadOffset data4))
            (Ch3.ipDeclaredLen data4) = 0 then -1 else 0
      else if byteAt data4 9 = IPPROTO_UDP then
        if load16 (offsetMem data4 (Ch3.ipPayloadOffset data4)) 6 ≠ 0 ∧
            Ch3.checkIPDATAchecksum data4 (offsetMem data4 (Ch3.ipPayloadOffset data4))
              (Ch3.ipDeclaredLen data4) = 0 then -1 else 0
      else 0) ∧
    (Ch3.ipDeclaredLen data4 < 0 → byteAt data4 9 = IPPROTO_ICMP →
      Ch3.checkIPchecksum data4
          (if 0 < Ch3.ipOptionLen data4 then offsetMem data4 20 else junk)
          (Ch3.ipOptionLen data4) ≠ 0 →
      Ch3.AnalyzeIp data4 size4 junk = 0) ∧
    (Ch3.AnalyzeIpv6 data6 size6 =
      if (byteAt data6 6 = IPPROTO_ICMPV6 ∨ byteAt data6 6 = IPPROTO_TCP ∨
            byteAt data6 6 = IPPROTO_UDP) ∧
          Ch3.checkIP6DATAchecksum data6 (offsetMem data6 40) (ntohs (load16 data6 4) : Int) = 0
      then -1 else 0) := by
  refine ⟨AnalyzeIp_verdict data4 junk size4 h4, ?_, AnalyzeIpv6_verdict data6 size6 h6⟩
  intro hneg hicmp hck
  rw [AnalyzeIp_verdict data4 junk size4 h4, if_neg hck, if_pos hicmp,
    checksum_of_negative_len _ _ hneg]
  simp

/-- Witness for C15: `packetDeclares0` (total length 0, so a declared payload
length of -20) with 20 bytes received, and `packet6Declares8` (payload length
8) with 40 bytes received. -/
theorem declared_length_goes_unchecked_to_checksum_witness :
    Ch3.ipDeclaredLen packetDeclares0 < 0 ∧
    Ch3.AnalyzeIp packetDeclares0 20 zeroMem = 0 :=
  ⟨by decide,
    (declared_length_goes_unchecked_to_checksum packetDeclares0 zeroMem packet6Declares8 20 40
      (by decide) (by decide) (by decide) (by decide)).2.1 (by decide) (by decide) (by decide)⟩

set_option maxRecDepth 4000 in
/-- C15 (counterexample): three packets whose declared payload length exceeds
what remains after the header, or is negative, and for which the decoder
returns 0: an IPv4 header declaring eight payload bytes with none received, an
IPv4 header declaring a total length of 0, and an IPv6 header declaring eight
payload bytes with none received. -/
theorem declared_length_beyond_buffer_is_accepted :
    ((20 : Int) - (Ch3.ipPayloadOffset packetDeclares8 : Int) < Ch3.ipDeclaredLen packetDeclares8 ∧
      Ch3.AnalyzeIp packetDeclares8 20 zeroMem = 0) ∧
    (Ch3.ipDeclaredLen packetDeclares0 < 0 ∧
      Ch3.AnalyzeIp packetDeclares0 20 zeroMem = 0) ∧
    ((40 : Int) - 40 < (ntohs (load16 packet6Declares8 4) : Int) ∧
      Ch3.AnalyzeIpv6 packet6Declares8 40 = 0) := by
  decide

/-! ## Theorems: the notification queue is first-in first-out -/

theorem appendAll_distinct : ∀ (ps : List (Nat × Nat)) (req : SendReqQueue),
    (req ++ ps).Nodup →
    appendAll ps req = (ps.map (fun _ => (0 : Int)), req ++ ps) := by
  intro ps
  induction ps with
  | nil => intro req _; simp [appendAll]
  | cons p ps ih =>
    intro req h
    have hp : (p.1, p.2) ∉ req := by
      intro hmem
      have h1 := List.nodup_append.1 h
      exact h1.2.2 hmem (List.mem_cons_self _ _)
    have h2 : (req ++ [(p.1, p.2)] ++ ps).Nodup := by
      simpa [List.append_assoc] using h
    simp only [appendAll, AppendSendReqData_of_not_mem req p.1 p.2 hp, ih _ h2, List.map_cons,
      List.append_assoc, List.singleton_append]

theorem popN_all : ∀ (req : SendReqQueue), popN req.length req = (req, []) := by
  intro req
  induction req with
  | nil => rfl
  | cons d rest ih => simp only [List.length_cons, popN, GetSendReqData, ih]

/-- C29: the notification queue is FIFO. `GetSendReqData` on the empty queue
returns -1 (`none`) and leaves the queue empty; on a non-empty queue it
returns 0 with the pair at the head and leaves the rest of the queue; so
appending distinct pairs, none of them queued yet, returns 0 each time and
puts them behind what was queued, and as many calls of `GetSendReqData` as the
queue is long output the queued pairs oldest first and empty the queue. -/
theorem SendReq_is_first_in_first_out :
    GetSendReqData [] = none ∧
    (∀ (d : Nat × Nat) (rest : SendReqQueue), GetSendReqData (d :: rest) = some (d, rest)) ∧
    (∀ (ps : List (Nat × Nat)) (req : SendReqQueue), (req ++ ps).Nodup →
      appendAll ps req = (ps.map (fun _ => (0 : Int)), req ++ ps)) ∧
    (∀ req : SendReqQueue, popN req.length req = (req, [])) ∧
    (∀ ps : List (Nat × Nat), ps.Nodup →
      popN ps.length (appendAll ps []).2 = (ps, [])) := by
  refine ⟨rfl, fun _ _ => rfl, appendAll_distinct, popN_all, ?_⟩
  intro ps h
  rw [appendAll_distinct ps [] (by simpa using h)]
  exact popN_all ps

/-! ## Theorems: the length test of the layer decoders -/

theorem lessThanSizeof_of_neg (lest : Int) (n : Nat) (h : lest < 0) :
    lessThanSizeof lest n = false := by
  simp only [lessThanSizeof, decide_eq_false_iff_not]
  omega

theorem lessThanSizeof_of_short (lest : Int) (n : Nat) (h0 : 0 ≤ lest) (h : lest < n) :
    lessThanSizeof lest n = true := by
  simp only [lessThanSizeof, decide_eq_true_eq]
  exact ⟨h0, h⟩

set_option maxRecDepth 4000 in
/-- C30 (what the code does): the test `lest < sizeof(...)` of each layer
decoder compares an `int` with a `size_t`, that is as unsigned values. A size
from 0 up to the fixed header size makes the decoder return -1, but a negative
size passes the test: `AnalyzeArp`, `AnalyzeIcmp`, `AnalyzeIcmp6`, `AnalyzeTcp`
and `AnalyzeUdp` return 0 for every negative size, `AnalyzeIp` and
`AnalyzeIpv6` go on to read the header (and return 0 on `packetDeclares0`,
`packet6Declares8` with size -1), and the remaining length -4 that `AnalyzeIp`
passes down for `frameShortOptions` is accepted by `AnalyzeIcmp`. -/
theorem negative_size_passes_the_length_test :
    (∀ (m : Mem) (size : Int), size < 0 →
      Ch3.AnalyzeArp m size = 0 ∧ Ch3.AnalyzeIcmp m size = 0 ∧ Ch3.AnalyzeIcmp6 m size = 0 ∧
      Ch3.AnalyzeTcp m size = 0 ∧ Ch3.AnalyzeUdp m size = 0) ∧
    (∀ (m junk : Mem) (size : Int), 0 ≤ size →
      (size < 28 → Ch3.AnalyzeArp m size = -1) ∧ (size < 28 → Ch3.AnalyzeIcmp m size = -1) ∧
      (size < 8 → Ch3.AnalyzeIcmp6 m size = -1) ∧ (size < 20 → Ch3.AnalyzeTcp m size = -1) ∧
      (size < 8 → Ch3.AnalyzeUdp m size = -1) ∧ (size < 20 → Ch3.AnalyzeIp m size junk = -1) ∧
      (size < 40 → Ch3.AnalyzeIpv6 m size = -1)) ∧
    Ch3.AnalyzeIp packetDeclares0 (-1) zeroMem = 0 ∧
    Ch3.AnalyzeIpv6 packet6Declares8 (-1) = 0 ∧
    (20 : Int) - 20 - Ch3.ipOptionLen (offsetMem frameShortOptions 14) = -4 ∧
    Ch3.AnalyzeIcmp (offsetMem frameShortOptions 38) (-4) = 0 := by
  refine ⟨?_, ?_, by decide, by decide, by decide, by decide⟩
  · intro m size h
    simp [Ch3.AnalyzeArp, Ch3.AnalyzeIcmp, Ch3.AnalyzeIcmp6, Ch3.AnalyzeTcp, Ch3.AnalyzeUdp,
      lessThanSizeof_of_neg _ _ h]
  · intro m junk size h0
    refine ⟨?_, ?_, ?_, ?_, ?_, ?_, ?_⟩ <;> intro h
    · simp [Ch3.AnalyzeArp, lessThanSizeof_of_short size 28 h0 (by exact_mod_cast h)]
    · simp [Ch3.AnalyzeIcmp, sizeof_struct_icmp,
        lessThanSizeof_of_short size 28 h0 (by exact_mod_cast h)]
    · simp [Ch3.AnalyzeIcmp6, lessThanSizeof_of_short size 8 h0 (by exact_mod_cast h)]
    · simp [Ch3.AnalyzeTcp, lessThanSizeof_of_short size 20 h0 (by exact_mod_cast h)]
    · simp [Ch3.AnalyzeUdp, lessThanSizeof_of_short size 8 h0 (by exact_mod_cast h)]
    · simp [Ch3.AnalyzeIp, lessThanSizeof_of_short size 20 h0 (by exact_mod_cast h)]
    · simp [Ch3.AnalyzeIpv6, lessThanSizeof_of_short size 40 h0 (by exact_mod_cast h)]

/-! ## Theorems: the checksums of the Time-Exceeded datagram -/

/-- The words of `m` from `k + off` on are the words from `off` on of the
memory at `m + k`. -/
theorem words_offsetMem (m : Mem) (k : Nat) : ∀ (len off : Nat),
    words (offsetMem m k) len off = words m len (k + off) := by
  intro len
  induction len using Nat.strong_induction_on with
  | _ len ih =>
    intro off
    match len with
    | 0 => rfl
    | 1 => rfl
    | len + 2 =>
      simp only [words, load16, byteAt, offsetMem]
      rw [ih len (by omega) (off + 2)]
      rfl

/-- The word sum over an even number of bytes followed by `b` more bytes. -/
theorem words_sum_split (m : Mem) (b : Nat) : ∀ (k off : Nat),
    (words m (2 * k + b) off).sum = (words m (2 * k) off).sum + (words m b (off + 2 * k)).sum := by
  intro k
  induction k with
  | zero => intro off; simp [words]
  | succ k ih =>
    intro off
    have h1 : 2 * (k + 1) + b = (2 * k + b) + 2 := by omega
    have h2 : 2 * (k + 1) = 2 * k + 2 := by omega
    rw [h1, h2]
    simp only [words, List.sum_cons]
    rw [ih (off + 2)]
    have h3 : off + 2 + 2 * k = off + (2 * k + 2) := by omega
    rw [h3]
    omega

/-- The bytes of the frame `SendIcmpTimeExceeded` writes, with the two check
fields spelled out. -/
theorem icmpTimeExceededFrame_eq (dev : DEVICE) (data : Mem) :
    icmpTimeExceededFrame dev data =
      readBytes data 6 6 ++ readBytes (memOf dev.hwaddr) 0 6 ++ [0x08, 0x00]
      ++ [0x45, 0, 0, 92, 0, 0, 0, 0, 64, 1]
      ++ bytes16 (checksum (memOf ([0x45, 0, 0, 92, 0, 0, 0, 0, 64, 1, 0, 0]
          ++ bytes32 dev.addr ++ readBytes data 26 4)) 20)
      ++ bytes32 dev.addr ++ readBytes data 26 4
      ++ [11, 0] ++ bytes16 (checksum2 (memOf [11, 0, 0, 0, 0, 0, 0, 0]) 8 (offsetMem data 14) 64)
      ++ [0, 0, 0, 0] ++ readBytes data 14 64 := by
  rw [← bytes32_load32]
  simp [icmpTimeExceededFrame, readBytes, storeBytes, memOf, byteAt, bytes16, bytes32, htons,
    ETHERTYPE_IP, IPPROTO_ICMP, ICMP_TIME_EXCEEDED, ICMP_TIMXCEED_INTRANS, sizeof_struct_icmp,
    List.range, List.range.loop]
theorem icmp_total_length (dev : DEVICE) (data : Mem) :
    ntohs (load16 (memOf (icmpTimeExceededFrame dev data)) 16) = 92 ∧
    (icmpTimeExceededFrame dev data).length = 106 := by
  rw [icmpTimeExceededFrame_eq]
  constructor
  · simp [load16, byteAt, memOf, ntohs, readBytes, bytes16, bytes32, List.range, List.range.loop]
  · simp [readBytes, bytes16, bytes32]

theorem icmp_header_zeroed (dev : DEVICE) (data : Mem) :
    readBytes (storeBytes (offsetMem (memOf (icmpTimeExceededFrame dev data)) 14) 10 [0, 0]) 0 20
      = readBytes (memOf ([0x45, 0, 0, 92, 0, 0, 0, 0, 64, 1, 0, 0]
          ++ bytes32 dev.addr ++ readBytes data 26 4)) 0 20 := by
  rw [icmpTimeExceededFrame_eq]
  simp [offsetMem, storeBytes, byteAt, memOf, readBytes, bytes16, bytes32, List.range,
    List.range.loop]

theorem icmp_header_check (dev : DEVICE) (data : Mem) :
    load16 (offsetMem (memOf (icmpTimeExceededFrame dev data)) 14) 10
      = checksum (memOf ([0x45, 0, 0, 92, 0, 0, 0, 0, 64, 1, 0, 0]
          ++ bytes32 dev.addr ++ readBytes data 26 4)) 20 := by
  have h := checksum_eq_red (memOf ([0x45, 0, 0, 92, 0, 0, 0, 0, 64, 1, 0, 0]
          ++ bytes32 dev.addr ++ readBytes data 26 4)) 20
  have hlt : checksum (memOf ([0x45, 0, 0, 92, 0, 0, 0, 0, 64, 1, 0, 0]
          ++ bytes32 dev.addr ++ readBytes data 26 4)) 20 < 65536 := by
    rw [show ((20 : Nat) : Int) = 20 from rfl] at h
    omega
  rw [icmpTimeExceededFrame_eq]
  generalize checksum (memOf ([0x45, 0, 0, 92, 0, 0, 0, 0, 64, 1, 0, 0]
          ++ bytes32 dev.addr ++ readBytes data 26 4)) 20 = ck at hlt ⊢
  simp [load16, offsetMem, byteAt, memOf, readBytes, bytes16, bytes32, List.range,
    List.range.loop]
  omega
theorem icmp_message_head (dev : DEVICE) (data : Mem) :
    (words (offsetMem (memOf (icmpTimeExceededFrame dev data)) 34) 8 0).sum
      = 11 + checksum2 (memOf [11, 0, 0, 0, 0, 0, 0, 0]) 8 (offsetMem data 14) 64 := by
  have h := checksum2_even (memOf [11, 0, 0, 0, 0, 0, 0, 0]) (offsetMem data 14) 8 64 (by decide)
  have hlt : checksum2 (memOf [11, 0, 0, 0, 0, 0, 0, 0]) 8 (offsetMem data 14) 64 < 65536 := by
    rw [show ((8 : Nat) : Int) = 8 from rfl, show ((64 : Nat) : Int) = 64 from rfl] at h
    omega
  rw [icmpTimeExceededFrame_eq]
  generalize checksum2 (memOf [11, 0, 0, 0, 0, 0, 0, 0]) 8 (offsetMem data 14) 64 = ick at hlt ⊢
  simp [words, load16, offsetMem, byteAt, memOf, readBytes, bytes16, bytes32, List.range,
    List.range.loop]
  omega

theorem icmp_message_body (dev : DEVICE) (data : Mem) :
    words (offsetMem (memOf (icmpTimeExceededFrame dev data)) 34) 64 8
      = words (offsetMem data 14) 64 0 := by
  have h : ∀ i, i < 64 → byteAt (memOf (icmpTimeExceededFrame dev data)) (42 + i)
      = byteAt data (14 + i) := by
    intro i hi
    rw [icmpTimeExceededFrame_eq]
    have hlen : (readBytes data 6 6 ++ readBytes (memOf dev.hwaddr) 0 6 ++ [0x08, 0x00]
      ++ [0x45, 0, 0, 92, 0, 0, 0, 0, 64, 1]
      ++ bytes16 (checksum (memOf ([0x45, 0, 0, 92, 0, 0, 0, 0, 64, 1, 0, 0]
          ++ bytes32 dev.addr ++ readBytes data 26 4)) 20)
      ++ bytes32 dev.addr ++ readBytes data 26 4
      ++ [11, 0] ++ bytes16 (checksum2 (memOf [11, 0, 0, 0, 0, 0, 0, 0]) 8 (offsetMem data 14) 64)
      ++ [0, 0, 0, 0]).length = 42 := by
      simp [readBytes, bytes16, bytes32]
    have := byteAt_memOf_readBytes data 14 64 i hi
    simp only [byteAt, memOf] at this ⊢
    rw [List.getD_append_right _ _ _ _ (by omega), hlen, Nat.add_sub_cancel_left]
    exact this
  rw [← words_offsetMem (offsetMem (memOf (icmpTimeExceededFrame dev data)) 34) 8 64 0]
  apply words_congr
  intro i _ hi
  have := h i (by omega)
  simp only [byteAt, offsetMem] at this ⊢
  rw [← this]
  congr 2
  omega

theorem icmp_message_checksum (dev : DEVICE) (data : Mem) :
    checksum (offsetMem (memOf (icmpTimeExceededFrame dev data)) 34) 72 = 0 := by
  have h1 := checksum_eq_red (offsetMem (memOf (icmpTimeExceededFrame dev data)) 34) 72
  have h2 := words_sum_split (offsetMem (memOf (icmpTimeExceededFrame dev data)) 34) 64 4 0
  have h3 := checksum2_even (memOf [11, 0, 0, 0, 0, 0, 0, 0]) (offsetMem data 14) 8 64
    (by decide)
  have h4 : (words (memOf [11, 0, 0, 0, 0, 0, 0, 0]) 8 0).sum = 11 := by decide
  rw [show ((72 : Nat) : Int) = 72 from rfl] at h1
  rw [show ((8 : Nat) : Int) = 8 from rfl, show ((64 : Nat) : Int) = 64 from rfl, h4] at h3
  rw [show 2 * 4 + 64 = 72 from rfl, show 2 * 4 = 8 from rfl, Nat.zero_add,
    icmp_message_head, icmp_message_body, h3] at h2
  have h5 := red_complement (11 + (words (offsetMem data 14) 64 0).sum)
  have h6 : 11 + (65535 - red (11 + (words (offsetMem data 14) 64 0).sum))
      + (words (offsetMem data 14) 64 0).sum
      = 11 + (words (offsetMem data 14) 64 0).sum
        + (65535 - red (11 + (words (offsetMem data 14) 64 0).sum)) := by omega
  rw [h1, h2, h6, h5]
theorem icmp_header_valid (dev : DEVICE) (data junk : Mem) :
    checkIPchecksum (offsetMem (memOf (icmpTimeExceededFrame dev data)) 14) junk 0 = 1 := by
  have hw : words (storeBytes (offsetMem (memOf (icmpTimeExceededFrame dev data)) 14) 10 [0, 0])
      20 0 = words (memOf ([0x45, 0, 0, 92, 0, 0, 0, 0, 64, 1, 0, 0]
          ++ bytes32 dev.addr ++ readBytes data 26 4)) 20 0 := by
    apply words_congr
    intro i _ hi
    exact byteAt_of_readBytes_eq _ _ 20 i (by omega) (icmp_header_zeroed dev data)
  have hck : load16 (offsetMem (memOf (icmpTimeExceededFrame dev data)) 14) 10
      = checksum2 (storeBytes (offsetMem (memOf (icmpTimeExceededFrame dev data)) 14) 10 [0, 0])
          20 junk ((0 : Nat) : Int) := by
    rw [icmp_header_check, checksum2_20, checksum_20, hw]
    simp [words]
  have := checkIPchecksum_of_filled_check _ junk 0 (by decide) (by decide) hck
  simpa using this

/-- C22: the datagram `SendIcmpTimeExceeded` writes carries valid fresh
checksums, whatever the original frame and the interface: `checkIPchecksum`
over its 20-byte IPv4 header (no options) returns 1; `checksum` over its whole
ICMP message, the 8-byte ICMP header and the 64 embedded bytes, is 0x0000; and its
total-length field, 92, is the number of bytes that follow the 14-byte
Ethernet header in the 106-byte frame. -/
theorem time_exceeded_datagram_has_valid_checksums (cfg : Config) (deviceNo : Fin 2)
    (data : Mem) (size : Int) (s : State) (junk : Mem) :
    (SendIcmpTimeExceeded cfg deviceNo data size s).out = s.out ++
      [((cfg.Device deviceNo).soc, icmpTimeExceededFrame (cfg.Device deviceNo) data)] ∧
    checkIPchecksum (offsetMem (memOf (icmpTimeExceededFrame (cfg.Device deviceNo) data)) 14)
      junk 0 = 1 ∧
    ((icmpTimeExceededFrame (cfg.Device deviceNo) data).length - 34 = 72 ∧
      checksum (offsetMem (memOf (icmpTimeExceededFrame (cfg.Device deviceNo) data)) 34) 72
        = 0) ∧
    ntohs (load16 (memOf (icmpTimeExceededFrame (cfg.Device deviceNo) data)) 16)
      = (icmpTimeExceededFrame (cfg.Device deviceNo) data).length - 14 := by
  have hl := icmp_total_length (cfg.Device deviceNo) data
  refine ⟨rfl, icmp_header_valid _ data junk, ⟨?_, icmp_message_checksum _ data⟩, ?_⟩
  · rw [hl.2]
  · rw [hl.1, hl.2]

/-! ## Theorems: the body of the Time-Exceeded message -/

/-- C21 (as the code has it): for every frame that triggers
`SendIcmpTimeExceeded`, the body of the ICMP message written, the bytes after
its 8-byte ICMP header, is the 64 bytes that start at the original IPv4
header: the original header with its options (`ihl * 4` bytes) followed by
the first `64 - ihl * 4` bytes of the original payload. -/
theorem time_exceeded_body_is_64_bytes_from_header (cfg : Config) (deviceNo : Fin 2)
    (data : Mem) (size now : Int) (junk : Mem) (s : State)
    (hsize : 34 ≤ size)
    (hdst : readBytes data 0 6 = readBytes (memOf (cfg.Device deviceNo).hwaddr) 0 6)
    (htype : ntohs (load16 data 12) = ETHERTYPE_IP)
    (hck : checkIPchecksum (offsetMem data 14)
      (optionBuf junk (offsetMem data 34) ((ihl (offsetMem data 14) : Int) * 4 - 20))
      ((ihl (offsetMem data 14) : Int) * 4 - 20) = 1)
    (httl : byteAt data 22 = 1) :
    AnalyzePacket cfg deviceNo data size now junk s
      = (-1, { s with out := s.out ++
          [((cfg.Device deviceNo).soc, icmpTimeExceededFrame (cfg.Device deviceNo) data)] }) ∧
    (icmpTimeExceededFrame (cfg.Device deviceNo) data).length = 14 + 20 + 8 + 64 ∧
    (icmpTimeExceededFrame (cfg.Device deviceNo) data).drop (14 + 20 + 8)
      = readBytes data 14 (ihl (offsetMem data 14) * 4)
        ++ readBytes data (14 + ihl (offsetMem data 14) * 4) (64 - ihl (offsetMem data 14) * 4) := by
  refine ⟨?_, (icmp_total_length _ data).2, ?_⟩
  · rw [AnalyzePacket_validated cfg deviceNo (if deviceNo = 0 then 1 else 0) data size now junk s
      hsize hdst htype hck rfl, if_pos httl]
    rfl
  · have h := ihl_lt (offsetMem data 14)
    rw [← readBytes_add, show ihl (offsetMem data 14) * 4 + (64 - ihl (offsetMem data 14) * 4) = 64
      by omega, icmpTimeExceededFrame_eq]
    have hlen : (readBytes data 6 6 ++ readBytes (memOf (cfg.Device deviceNo).hwaddr) 0 6
      ++ [0x08, 0x00] ++ [0x45, 0, 0, 92, 0, 0, 0, 0, 64, 1]
      ++ bytes16 (checksum (memOf ([0x45, 0, 0, 92, 0, 0, 0, 0, 64, 1, 0, 0]
          ++ bytes32 (cfg.Device deviceNo).addr ++ readBytes data 26 4)) 20)
      ++ bytes32 (cfg.Device deviceNo).addr ++ readBytes data 26 4
      ++ [11, 0] ++ bytes16 (checksum2 (memOf [11, 0, 0, 0, 0, 0, 0, 0]) 8 (offsetMem data 14) 64)
      ++ [0, 0, 0, 0]).length = 14 + 20 + 8 := by
      simp [readBytes, bytes16, bytes32]
    rw [← hlen, List.drop_left]

/-- Witness for C21 (as the code has it): `frameTtl1Payload` read on
interface 0 of `sampleConfig`. -/
theorem time_exceeded_body_is_64_bytes_from_header_witness :
    (icmpTimeExceededFrame (sampleConfig.Device 0) frameTtl1Payload).drop (14 + 20 + 8)
      = readBytes frameTtl1Payload 14 (ihl (offsetMem frameTtl1Payload 14) * 4)
        ++ readBytes frameTtl1Payload (14 + ihl (offsetMem frameTtl1Payload 14) * 4)
            (64 - ihl (offsetMem frameTtl1Payload 14) * 4) :=
  (time_exceeded_body_is_64_bytes_from_header sampleConfig 0 frameTtl1Payload 98 5 zeroMem
    initialState (by decide) (by decide) (by decide) (by decide) (by decide)).2.2

set_option maxRecDepth 8000 in
/-- C21 (counterexample): for `frameTtl1Payload`, whose IPv4 payload is the
bytes 1 to 64, the body of the ICMP message written is the 20 header bytes
followed by the payload bytes 1 to 44 only: 64 bytes, not the 84 of the header
followed by 64 payload bytes. -/
theorem time_exceeded_body_is_not_header_plus_64_payload_bytes :
    (AnalyzePacket sampleConfig 0 frameTtl1Payload 98 5 zeroMem initialState).2.out.map
        (fun f => (f.1, f.2.drop 42))
      = [(3, readBytes frameTtl1Payload 14 20 ++ (List.range 44).map (fun i => i + 1))] ∧
    readBytes frameTtl1Payload 34 64 = (List.range 64).map (fun i => i + 1) ∧
    (AnalyzePacket sampleConfig 0 frameTtl1Payload 98 5 zeroMem initialState).2.out.map
        (fun f => (f.1, f.2.drop 42))
      ≠ [(3, readBytes frameTtl1Payload 14 20 ++ readBytes frameTtl1Payload 34 64)] := by
  decide

/-! ## Theorems: the scan of `Ip2MacSearch`, entry by entry -/

theorem sweep_of_free (now : Int) (x : IP2MAC) (h : x.flag = FLAG_FREE) : sweep now x = x := by
  have : expired x now = false := by
    simp [expired, h, FLAG_FREE, FLAG_OK, FLAG_NG]
  simp [sweep, this]

theorem expired_of_negative (now : Int) (x : IP2MAC) (h : x.flag = FLAG_NG)
    (ht : now - x.lastTime > IP2MAC_NG_TIMEOUT_SEC) : expired x now = true := by
  simp [expired, h, ht]

/-- The scan over entries it goes past, followed by an entry it does not go
past: that entry is returned, the entries before it are swept, the entries
behind it are not visited. -/
theorem scanLoop_hit (deviceNo addr : Nat) (hw : Option Mem) (now : Int) (e : IP2MAC)
    (tl : List IP2MAC) (he : ¬ goesPast addr hw now e) :
    ∀ (mid pre : List IP2MAC) (freeNo : Option Nat) (req : SendReqQueue),
    (∀ x ∈ mid, goesPast addr hw now x) →
    scanLoop deviceNo addr hw now pre (mid ++ e :: tl) freeNo req
      = Scan.found (pre.length + mid.length)
          (pre ++ mid.map (sweep now) ++ touched hw now e :: tl)
          (if hw.isSome = true ∧ e.sd.top ≠ [] then
            (AppendSendReqData req deviceNo (pre.length + mid.length)).2 else req) := by
  have hfree : e.flag ≠ FLAG_FREE := fun h => he (Or.inl h)
  have haddr : e.addr = addr := by
    by_contra h
    exact he (Or.inr (Or.inl h))
  intro mid
  induction mid with
  | nil =>
    intro pre freeNo req _
    simp only [List.nil_append, List.length_nil, Nat.add_zero, List.map_nil, List.append_nil]
    unfold scanLoop
    rw [if_neg hfree, if_pos haddr]
    cases hw with
    | some h =>
      have hsd : (if e.flag = FLAG_OK then { e with lastTime := now } else e).sd = e.sd := by
        split <;> rfl
      simp [touched, observed, hsd]
    | none =>
      have hne : expired (if e.flag = FLAG_OK then { e with lastTime := now } else e) now
          = false := by
        by_cases hok : e.flag = FLAG_OK
        · rw [if_pos hok]
          exact not_expired_refreshed e now hok
        · rw [if_neg hok]
          have hng : ¬ (e.flag = FLAG_NG ∧ now - e.lastTime > IP2MAC_NG_TIMEOUT_SEC) := by
            intro h
            exact he (Or.inr (Or.inr ⟨rfl, h.1, h.2⟩))
          simp only [expired, hok, false_and, false_or, decide_eq_false_iff_not]
          exact hng
      simp [touched, hne]
  | cons x mid ih =>
    intro pre freeNo req hmid
    have hx := hmid x (List.mem_cons_self _ _)
    have hrest : ∀ y ∈ mid, goesPast addr hw now y :=
      fun y hy => hmid y (List.mem_cons_of_mem _ hy)
    have key : ∀ (f : Option Nat),
        scanLoop deviceNo addr hw now (pre ++ [sweep now x]) (mid ++ e :: tl) f req
          = Scan.found (pre.length + (x :: mid).length)
            (pre ++ (x :: mid).map (sweep now) ++ touched hw now e :: tl)
            (if hw.isSome = true ∧ e.sd.top ≠ [] then
              (AppendSendReqData req deviceNo (pre.length + (x :: mid).length)).2 else req) := by
      intro f
      rw [ih (pre ++ [sweep now x]) f req hrest]
      simp only [List.length_append, List.length_cons, List.length_nil, List.map_cons,
        List.append_assoc, List.singleton_append, Nat.zero_add]
      have : pre.length + 1 + mid.length = pre.length + (mid.length + 1) := by omega
      rw [this]
    rw [List.cons_append]
    unfold scanLoop
    by_cases hf : x.flag = FLAG_FREE
    · rw [if_pos hf]
      have := key (if freeNo = none then some pre.length else freeNo)
      rw [sweep_of_free now x hf] at this
      exact this
    · rw [if_neg hf]
      by_cases ha : x.addr = addr
      · rw [if_pos ha]
        rcases hx with h | h | ⟨hq, hng, ht⟩
        · exact absurd h hf
        · exact absurd ha h
        · have hnone : hw = none := by
            cases hw with
            | none => rfl
            | some _ => simp at hq
          subst hnone
          have hok : ¬ x.flag = FLAG_OK := by
            rw [hng]; decide
          have hex := expired_of_negative now x hng ht
          simp only [if_neg hok, hex, if_true]
          have := key (if freeNo = none then some pre.length else freeNo)
          simp only [sweep, hex, if_true, released] at this
          exact this
      · rw [if_neg ha]
        by_cases hex : expired x now = true
        · rw [if_pos hex]
          have := key (if freeNo = none then some pre.length else freeNo)
          simp only [sweep, hex, if_true, released] at this
          exact this
        · rw [if_neg hex]
          have := key freeNo
          simp only [sweep, hex] at this
          exact this

/-- The scan over entries it goes past to the end of the table: every entry
is swept, and `freeNo` ends on the first Free slot of the swept table unless
it was set before. -/
theorem scanLoop_miss (deviceNo addr : Nat) (hw : Option Mem) (now : Int) :
    ∀ (rest pre : List IP2MAC) (freeNo : Option Nat) (req : SendReqQueue),
    (∀ x ∈ rest, goesPast addr hw now x) →
    scanLoop deviceNo addr hw now pre rest freeNo req
      = Scan.fellThrough
          (if freeNo = none then
            (firstFree (rest.map (sweep now))).map (fun j => j + pre.length) else freeNo)
          (pre ++ rest.map (sweep now)) := by
  intro rest
  induction rest with
  | nil =>
    intro pre freeNo req _
    cases freeNo <;> simp [scanLoop, firstFree]
  | cons x rest ih =>
    intro pre freeNo req hall
    have hx := hall x (List.mem_cons_self _ _)
    have hrest : ∀ y ∈ rest, goesPast addr hw now y :=
      fun y hy => hall y (List.mem_cons_of_mem _ hy)
    have keyFree : (sweep now x).flag = FLAG_FREE →
        scanLoop deviceNo addr hw now (pre ++ [sweep now x]) rest
          (if freeNo = none then some pre.length else freeNo) req
        = Scan.fellThrough
          (if freeNo = none then
            (firstFree ((x :: rest).map (sweep now))).map (fun j => j + pre.length) else freeNo)
          (pre ++ (x :: rest).map (sweep now)) := by
      intro hfl
      rw [ih _ _ req hrest]
      cases freeNo with
      | none => simp [firstFree, hfl]
      | some j => simp
    have keyLive : (sweep now x).flag ≠ FLAG_FREE →
        scanLoop deviceNo addr hw now (pre ++ [sweep now x]) rest freeNo req
        = Scan.fellThrough
          (if freeNo = none then
            (firstFree ((x :: rest).map (sweep now))).map (fun j => j + pre.length) else freeNo)
          (pre ++ (x :: rest).map (sweep now)) := by
      intro hfl
      rw [ih _ _ req hrest]
      cases freeNo with
      | none =>
        have h1 : firstFree ((x :: rest).map (sweep now))
            = (firstFree (rest.map (sweep now))).map (fun j => j + 1) := by
          simp only [List.map_cons, firstFree, if_neg hfl]
        rw [h1]
        cases firstFree (rest.map (sweep now)) with
        | none => simp
        | some j => simp; omega
      | some j => simp
    unfold scanLoop
    by_cases hf : x.flag = FLAG_FREE
    · rw [if_pos hf]
      have := keyFree (by rw [sweep_of_free now x hf]; exact hf)
      rw [sweep_of_free now x hf] at this
      exact this
    · rw [if_neg hf]
      by_cases ha : x.addr = addr
      · rw [if_pos ha]
        rcases hx with h | h | ⟨hq, hng, ht⟩
        · exact absurd h hf
        · exact absurd ha h
        · have hnone : hw = none := by
            cases hw with
            | none => rfl
            | some _ => simp at hq
          subst hnone
          have hok : ¬ x.flag = FLAG_OK := by
            rw [hng]; decide
          have hex := expired_of_negative now x hng ht
          simp only [if_neg hok, hex, if_true]
          have := keyFree (by simp [sweep, hex, released])
          simp only [sweep, hex, if_true, released] at this
          exact this
      · rw [if_neg ha]
        by_cases hex : expired x now = true
        · rw [if_pos hex]
          have := keyFree (by simp [sweep, hex, released])
          simp only [sweep, hex, if_true, released] at this
          exact this
        · rw [if_neg hex]
          have hex2 : expired x now = false := by simpa using hex
          have hsw : sweep now x = x := by simp [sweep, hex2]
          have := keyLive (by rw [hsw]; exact hf)
          rw [hsw] at this
          exact this

/-- Facts about the first Free slot of a table. -/
theorem firstFree_some : ∀ (l : List IP2MAC) (j : Nat), firstFree l = some j →
    ∃ a e b, l = a ++ e :: b ∧ j = a.length ∧ e.flag = FLAG_FREE ∧
      ∀ x ∈ a, x.flag ≠ FLAG_FREE := by
  intro l
  induction l with
  | nil => intro j h; simp [firstFree] at h
  | cons x l ih =>
    intro j h
    by_cases hf : x.flag = FLAG_FREE
    · simp only [firstFree, if_pos hf, Option.some.injEq] at h
      exact ⟨[], x, l, rfl, h.symm, hf, by simp⟩
    · simp only [firstFree, if_neg hf, Option.map_eq_some'] at h
      obtain ⟨k, hk, hj⟩ := h
      obtain ⟨a, e, b, hl, hlen, he, ha⟩ := ih k hk
      refine ⟨x :: a, e, b, by rw [hl]; rfl, by simp [← hj, hlen], he, ?_⟩
      intro y hy
      rcases List.mem_cons.1 hy with h1 | h1
      · rw [h1]; exact hf
      · exact ha y h1

theorem firstFree_none : ∀ (l : List IP2MAC), firstFree l = none →
    ∀ x ∈ l, x.flag ≠ FLAG_FREE := by
  intro l
  induction l with
  | nil => intro _ x hx; simp at hx
  | cons y l ih =>
    intro h x hx
    by_cases hf : y.flag = FLAG_FREE
    · simp [firstFree, hf] at h
    · simp only [firstFree, if_neg hf, Option.map_eq_none'] at h
      rcases List.mem_cons.1 hx with h1 | h1
      · rw [h1]; exact hf
      · exact ih h x h1

/-- The result of `Ip2MacSearch` when the scan returns an entry. -/
theorem Ip2MacSearch_hit (deviceNo addr : Nat) (hw : Option Mem) (now : Int)
    (tab : Ip2MacTable) (req : SendReqQueue) (mid tl : List IP2MAC) (e : IP2MAC)
    (hdata : tab.data = mid ++ e :: tl)
    (hmid : ∀ x ∈ mid, goesPast addr hw now x) (he : ¬ goesPast addr hw now e) :
    Ip2MacSearch deviceNo addr hw now tab req
      = ⟨mid.length, { tab with data := mid.map (sweep now) ++ touched hw now e :: tl },
          if hw.isSome = true ∧ e.sd.top ≠ [] then
            (AppendSendReqData req deviceNo mid.length).2 else req⟩ := by
  unfold Ip2MacSearch
  rw [hdata, scanLoop_hit deviceNo addr hw now e tl he mid [] none req hmid]
  simp

/-- The result of `Ip2MacSearch` when the scan returns no entry: the new entry
goes into the first Free slot of the swept table, or behind its last entry. -/
theorem Ip2MacSearch_miss (deviceNo addr : Nat) (hw : Option Mem) (now : Int)
    (tab : Ip2MacTable) (req : SendReqQueue)
    (hall : ∀ x ∈ tab.data, goesPast addr hw now x) :
    Ip2MacSearch deviceNo addr hw now tab req
      = match firstFree (tab.data.map (sweep now)) with
        | some j => ⟨j, { tab with data :=
            (tab.data.map (sweep now)).set j (newEntry deviceNo addr hw now) }, req⟩
        | none => ⟨tab.data.length,
            ⟨tab.data.map (sweep now) ++ [newEntry deviceNo addr hw now],
              if tab.data.length ≥ tab.size then
                (if tab.size = 0 then 1024 else tab.size + 1024) else tab.size⟩, req⟩ := by
  unfold Ip2MacSearch
  rw [scanLoop_miss deviceNo addr hw now tab.data [] none req hall]
  cases firstFree (tab.data.map (sweep now)) with
  | none => simp
  | some j => simp

theorem goesPast_of_passedOver (addr : Nat) (hw : Option Mem) (now : Int) (x : IP2MAC)
    (h : passedOver addr x) : goesPast addr hw now x := by
  rcases h with h | h
  · exact Or.inl h
  · exact Or.inr (Or.inl h)

theorem not_goesPast_observed (addr : Nat) (hw : Mem) (now : Int) (e : IP2MAC)
    (hflag : e.flag ≠ FLAG_FREE) (haddr : e.addr = addr) : ¬ goesPast addr (some hw) now e := by
  intro h
  rcases h with h | h | ⟨h, _⟩
  · exact hflag h
  · exact h haddr
  · simp at h

/-! ## Theorems: notifications raised by an observation -/

/-- C23: when `Ip2MacSearch(dev, addr, hw)` with `hw` present updates the
existing entry for `addr` at index `i` (the first entry in use for `addr`):
if the pending queue of the entry is non-empty, the notification `(dev, i)`
is appended at the tail when none is queued and nothing is added when one is,
so that a queue without duplicates afterwards holds `(dev, i)` and still has
no duplicates, that is holds it exactly once; if
the pending queue is empty the notification queue is unchanged. When no entry
in use for `addr` exists (table `tab2`), the entry is newly created and the
notification queue is unchanged. -/
theorem observation_notifies_once (deviceNo addr : Nat) (hw : Mem) (now : Int)
    (tab tab2 : Ip2MacTable) (req : SendReqQueue) (mid tl : List IP2MAC) (e : IP2MAC)
    (hdata : tab.data = mid ++ e :: tl)
    (hmid : ∀ x ∈ mid, passedOver addr x)
    (hflag : e.flag ≠ FLAG_FREE) (haddr : e.addr = addr)
    (hnew : ∀ x ∈ tab2.data, passedOver addr x) :
    (Ip2MacSearch deviceNo addr (some hw) now tab req).index = mid.length ∧
    (e.sd.top ≠ [] → (deviceNo, mid.length) ∈ req →
      (Ip2MacSearch deviceNo addr (some hw) now tab req).SendReq = req) ∧
    (e.sd.top ≠ [] → (deviceNo, mid.length) ∉ req →
      (Ip2MacSearch deviceNo addr (some hw) now tab req).SendReq
        = req ++ [(deviceNo, mid.length)]) ∧
    (e.sd.top ≠ [] → req.Nodup →
      (deviceNo, mid.length) ∈ (Ip2MacSearch deviceNo addr (some hw) now tab req).SendReq ∧
      (Ip2MacSearch deviceNo addr (some hw) now tab req).SendReq.Nodup) ∧
    (e.sd.top = [] → (Ip2MacSearch deviceNo addr (some hw) now tab req).SendReq = req) ∧
    (Ip2MacSearch deviceNo addr (some hw) now tab2 req).entry
      = newEntry deviceNo addr (some hw) now ∧
    (Ip2MacSearch deviceNo addr (some hw) now tab2 req).SendReq = req := by
  have hhit := Ip2MacSearch_hit deviceNo addr (some hw) now tab req mid tl e hdata
    (fun x hx => goesPast_of_passedOver addr _ now x (hmid x hx))
    (not_goesPast_observed addr hw now e hflag haddr)
  have hmiss := Ip2MacSearch_miss deviceNo addr (some hw) now tab2 req
    (fun x hx => goesPast_of_passedOver addr _ now x (hnew x hx))
  refine ⟨by rw [hhit], ?_, ?_, ?_, ?_, ?_, ?_⟩
  · intro hq hmem
    rw [hhit]
    simp only [Option.isSome_some, true_and, if_pos hq,
      AppendSendReqData_of_mem req deviceNo mid.length hmem]
  · intro hq hmem
    rw [hhit]
    simp only [Option.isSome_some, true_and, if_pos hq,
      AppendSendReqData_of_not_mem req deviceNo mid.length hmem]
  · intro hq hnd
    rw [hhit]
    simp only [Option.isSome_some, true_and, if_pos hq]
    by_cases hmem : (deviceNo, mid.length) ∈ req
    · rw [AppendSendReqData_of_mem req deviceNo mid.length hmem]
      exact ⟨hmem, hnd⟩
    · rw [AppendSendReqData_of_not_mem req deviceNo mid.length hmem]
      refine ⟨by simp, ?_⟩
      rw [List.nodup_append]
      refine ⟨hnd, List.nodup_singleton _, ?_⟩
      intro a ha hb
      rw [List.mem_singleton] at hb
      exact hmem (hb ▸ ha)
  · intro hq
    rw [hhit]
    simp [hq]
  · rw [hmiss]
    cases hff : firstFree (tab2.data.map (sweep now)) with
    | none => simp [SearchResult.entry]
    | some j =>
      obtain ⟨a, x, b, hl, hj, _, _⟩ := firstFree_some _ j hff
      simp only [SearchResult.entry, hl, hj, set_append_cons]
      exact getD_append_cons a b _ default a.length rfl
  · rw [hmiss]
    cases firstFree (tab2.data.map (sweep now)) <;> rfl

/-- Witness for C23: the observation of aa:bb:cc:dd:ee:ff for 10.0.1.7 on the
table of `pendingState`, whose entry 0 has two packets pending, with no
notification queued. -/
theorem observation_notifies_once_witness :
    (Ip2MacSearch 1 0x0701000a (some sampleMac) 5 (pendingState.Ip2Macs 1) []).SendReq
      = [] ++ [(1, ([] : List IP2MAC).length)] :=
  (observation_notifies_once 1 0x0701000a sampleMac 5 (pendingState.Ip2Macs 1) emptyTable []
    [] [] pendingEntry rfl (by simp) (by decide) (by decide) (by simp [emptyTable])).2.2.1
    (by decide) (by simp)

/-! ## Theorems: the aging sweep -/

theorem sweep_eq (now : Int) (x : IP2MAC) :
    sweep now x =
      if (x.flag = FLAG_OK ∧ now - x.lastTime > 60) ∨ (x.flag = FLAG_NG ∧ now - x.lastTime > 1)
      then ⟨FLAG_FREE, x.deviceNo, x.addr, x.hwaddr, x.lastTime, ⟨[]⟩⟩ else x := by
  simp only [sweep, expired, released, FreeSendData, IP2MAC_TIMEOUT_SEC, IP2MAC_NG_TIMEOUT_SEC,
    Bool.decide_or, Bool.or_eq_true, decide_eq_true_eq]

/-- Every table splits at the first entry the scan does not go past, unless
the scan goes past all of it. -/
theorem goesPast_split (addr : Nat) (hw : Option Mem) (now : Int) :
    ∀ l : List IP2MAC, (∀ x ∈ l, goesPast addr hw now x) ∨
      ∃ mid e tl, l = mid ++ e :: tl ∧ (∀ x ∈ mid, goesPast addr hw now x) ∧
        ¬ goesPast addr hw now e := by
  intro l
  induction l with
  | nil => left; intro x hx; simp at hx
  | cons y l ih =>
    by_cases hy : goesPast addr hw now y
    · rcases ih with h | ⟨mid, e, tl, hl, hmid, he⟩
      · left
        intro x hx
        rcases List.mem_cons.1 hx with h1 | h1
        · rw [h1]; exact hy
        · exact h x h1
      · right
        refine ⟨y :: mid, e, tl, by rw [hl]; rfl, ?_, he⟩
        intro x hx
        rcases List.mem_cons.1 hx with h1 | h1
        · rw [h1]; exact hy
        · exact hmid x h1
    · right
      exact ⟨[], y, l, rfl, by simp, hy⟩

/-- C25: the aging sweep of `Ip2MacSearch` at clock value `now`. An entry the
scan goes past (a Free slot, an entry for another address, or on a query an
aged-out Negative entry for `addr`) is left as `sweep now` makes it: reset to
Free, its pending packets dropped, exactly when it is Resolved with
`now - lastTime > 60` or Negative with `now - lastTime > 1`, and unchanged
otherwise, so an entry idle exactly 60 s, respectively 1 s, is kept. When the
scan returns the entry at index `i`, the entries before it are swept and the
entries behind it are left unchanged; when it returns none, every entry is
swept and only the slot the new entry is registered in differs from the swept
table. One of the two cases always applies. -/
theorem aging_sweep (deviceNo addr : Nat) (hw : Option Mem) (now : Int)
    (tab : Ip2MacTable) (req : SendReqQueue) :
    (∀ x : IP2MAC, sweep now x =
      if (x.flag = FLAG_OK ∧ now - x.lastTime > 60) ∨ (x.flag = FLAG_NG ∧ now - x.lastTime > 1)
      then ⟨FLAG_FREE, x.deviceNo, x.addr, x.hwaddr, x.lastTime, ⟨[]⟩⟩ else x) ∧
    (∀ x : IP2MAC, (x.flag = FLAG_OK ∧ now - x.lastTime = 60) ∨
      (x.flag = FLAG_NG ∧ now - x.lastTime = 1) → sweep now x = x) ∧
    (∀ (mid tl : List IP2MAC) (e : IP2MAC), tab.data = mid ++ e :: tl →
      (∀ x ∈ mid, goesPast addr hw now x) → ¬ goesPast addr hw now e →
      (Ip2MacSearch deviceNo addr hw now tab req).index = mid.length ∧
      (Ip2MacSearch deviceNo addr hw now tab req).table.data
        = mid.map (sweep now) ++ touched hw now e :: tl) ∧
    ((∀ x ∈ tab.data, goesPast addr hw now x) →
      ∀ j, j ≠ (Ip2MacSearch deviceNo addr hw now tab req).index →
        (Ip2MacSearch deviceNo addr hw now tab req).table.data[j]?
          = (tab.data.map (sweep now))[j]?) ∧
    ((∀ x ∈ tab.data, goesPast addr hw now x) ∨
      ∃ mid e tl, tab.data = mid ++ e :: tl ∧ (∀ x ∈ mid, goesPast addr hw now x) ∧
        ¬ goesPast addr hw now e) := by
  refine ⟨sweep_eq now, ?_, ?_, ?_, goesPast_split addr hw now tab.data⟩
  · intro x hx
    rw [sweep_eq, if_neg]
    rcases hx with ⟨h1, h2⟩ | ⟨h1, h2⟩
    · intro h
      rcases h with ⟨_, h3⟩ | ⟨h4, _⟩
      · omega
      · rw [h1] at h4; exact absurd h4 (by decide)
    · intro h
      rcases h with ⟨h4, _⟩ | ⟨_, h3⟩
      · rw [h1] at h4; exact absurd h4 (by decide)
      · omega
  · intro mid tl e hdata hmid he
    rw [Ip2MacSearch_hit deviceNo addr hw now tab req mid tl e hdata hmid he]
    exact ⟨rfl, rfl⟩
  · intro hall j hj
    rw [Ip2MacSearch_miss deviceNo addr hw now tab req hall] at hj ⊢
    cases hff : firstFree (tab.data.map (sweep now)) with
    | none =>
      rw [hff] at hj
      simp only at hj ⊢
      by_cases hlt : j < tab.data.length
      · rw [List.getElem?_append_left (by simpa using hlt)]
      · rw [List.getElem?_eq_none (by simp; omega), List.getElem?_eq_none (by simp; omega)]
    | some k =>
      rw [hff] at hj
      simp only at hj ⊢
      rw [List.getElem?_set_ne (Ne.symm hj)]

/-! ## Theorems: the retry of a Negative entry -/

theorem firstFree_le : ∀ (a b : List IP2MAC) (x : IP2MAC), x.flag = FLAG_FREE →
    ∃ j, firstFree (a ++ x :: b) = some j ∧ j ≤ a.length := by
  intro a
  induction a with
  | nil => intro b x hx; exact ⟨0, by simp [firstFree, hx], Nat.le_refl _⟩
  | cons y a ih =>
    intro b x hx
    by_cases hy : y.flag = FLAG_FREE
    · exact ⟨0, by simp [firstFree, hy], Nat.zero_le _⟩
    · obtain ⟨j, hj, hle⟩ := ih b x hx
      exact ⟨j + 1, by simp [firstFree, hy, hj], by simp; omega⟩

/-- The function `Ip2Mac` on a query that finds no entry in use for `addr`
that it can return: a Negative entry is registered in slot `j`, the first
Free slot of the swept table, and an ARP request is written. -/
theorem Ip2Mac_query_miss (cfg : Config) (deviceNo : Fin 2) (addr : Nat) (now : Int)
    (s : State) (j : Nat)
    (hall : ∀ x ∈ (s.Ip2Macs deviceNo).data, goesPast addr none now x)
    (hj : firstFree ((s.Ip2Macs deviceNo).data.map (sweep now)) = some j) :
    Ip2Mac cfg deviceNo addr none now s =
      (j, { Ip2Macs := Function.update s.Ip2Macs deviceNo
              ⟨((s.Ip2Macs deviceNo).data.map (sweep now)).set j
                (newEntry deviceNo.val addr none now), (s.Ip2Macs deviceNo).size⟩
            SendReq := s.SendReq
            out := s.out ++ [((cfg.Device deviceNo).soc, arpRequestFrame addr (memOf bcast)
              (cfg.Device deviceNo).addr (memOf (cfg.Device deviceNo).hwaddr))] }) := by
  have hm := Ip2MacSearch_miss deviceNo.val addr none now (s.Ip2Macs deviceNo) s.SendReq hall
  rw [hj] at hm
  obtain ⟨a, x, b, hl, hja, _, _⟩ := firstFree_some _ j hj
  have hentry : (Ip2MacSearch deviceNo.val addr none now (s.Ip2Macs deviceNo) s.SendReq).entry
      = newEntry deviceNo.val addr none now := by
    rw [hm]
    simp only [SearchResult.entry, hl, hja, set_append_cons]
    exact getD_append_cons a b _ default a.length rfl
  have hflag : ¬ (Ip2MacSearch deviceNo.val addr none now (s.Ip2Macs deviceNo)
      s.SendReq).entry.flag = FLAG_OK := by
    rw [hentry]
    simp [newEntry, FLAG_NG, FLAG_OK]
  unfold Ip2Mac
  simp only [if_neg hflag, SendArpRequestB]
  rw [hm]

/-- The function `Ip2Mac` on a query that returns a Negative entry in use:
the entries before it are swept, and an ARP request is written. -/
theorem Ip2Mac_query_negative_hit (cfg : Config) (deviceNo : Fin 2) (addr : Nat) (now : Int)
    (s : State) (mid tl : List IP2MAC) (e : IP2MAC)
    (hdata : (s.Ip2Macs deviceNo).data = mid ++ e :: tl)
    (hmid : ∀ x ∈ mid, goesPast addr none now x)
    (hflag : e.flag = FLAG_NG) (haddr : e.addr = addr) (ht : now - e.lastTime ≤ 1) :
    Ip2Mac cfg deviceNo addr none now s =
      (mid.length,
        { Ip2Macs := Function.update s.Ip2Macs deviceNo
            ⟨mid.map (sweep now) ++ e :: tl, (s.Ip2Macs deviceNo).size⟩
          SendReq := s.SendReq
          out := s.out ++ [((cfg.Device deviceNo).soc, arpRequestFrame addr (memOf bcast)
            (cfg.Device deviceNo).addr (memOf (cfg.Device deviceNo).hwaddr))] }) := by
  have he : ¬ goesPast addr none now e := by
    intro h
    rcases h with h | h | ⟨_, _, h⟩
    · rw [hflag] at h; exact absurd h (by decide)
    · exact h haddr
    · simp only [IP2MAC_NG_TIMEOUT_SEC] at h; omega
  have hnok : ¬ e.flag = FLAG_OK := by rw [hflag]; decide
  have hh := Ip2MacSearch_hit deviceNo.val addr none now (s.Ip2Macs deviceNo) s.SendReq
    mid tl e hdata hmid he
  simp only [touched, if_neg hnok, Option.isSome_none, Bool.false_eq_true, false_and,
    if_false] at hh
  have hentry : (Ip2MacSearch deviceNo.val addr none now (s.Ip2Macs deviceNo) s.SendReq).entry
      = e := by
    rw [hh]
    simp only [SearchResult.entry]
    exact getD_append_cons _ tl e default _ (by simp)
  have hf : ¬ (Ip2MacSearch deviceNo.val addr none now (s.Ip2Macs deviceNo)
      s.SendReq).entry.flag = FLAG_OK := by
    rw [hentry]; exact hnok
  unfold Ip2Mac
  simp only [if_neg hf, SendArpRequestB]
  rw [hh]

/-- C26: a query `Ip2Mac(dev, addr, NULL)` at clock value `now` against a
table whose only entry in use for `addr` is the Negative entry `e` at index
`mid.length`. If `now - lastTime > 1`, the old entry is released with its
pending packets dropped (its queue is emptied, nothing but an ARP request is
written), a fresh Negative entry with `lastTime = now`, a zero hardware
address and an empty queue is registered at the returned index, which is the
released slot or a Free slot before it, and one ARP request is written. If
`now - lastTime ≤ 1`, the index of `e` is returned and `e` is left as it was,
time stamp and pending queue included; an ARP request is written here too. -/
theorem negative_entry_retry (cfg : Config) (deviceNo : Fin 2) (addr : Nat) (now : Int)
    (s : State) (mid tl : List IP2MAC) (e : IP2MAC)
    (hdata : (s.Ip2Macs deviceNo).data = mid ++ e :: tl)
    (hmid : ∀ x ∈ mid, passedOver addr x) (htl : ∀ x ∈ tl, passedOver addr x)
    (hflag : e.flag = FLAG_NG) (haddr : e.addr = addr) :
    (now - e.lastTime > 1 →
      (Ip2Mac cfg deviceNo addr none now s).1 ≤ mid.length ∧
      ((Ip2Mac cfg deviceNo addr none now s).2.Ip2Macs deviceNo).data
        = (mid.map (sweep now)
            ++ ⟨FLAG_FREE, e.deviceNo, e.addr, e.hwaddr, e.lastTime, ⟨[]⟩⟩ :: tl.map (sweep now)).set
            (Ip2Mac cfg deviceNo addr none now s).1
            ⟨FLAG_NG, deviceNo.val, addr, [0, 0, 0, 0, 0, 0], now, ⟨[]⟩⟩ ∧
      ((Ip2Mac cfg deviceNo addr none now s).2.Ip2Macs deviceNo).data.getD
          (Ip2Mac cfg deviceNo addr none now s).1 default
        = ⟨FLAG_NG, deviceNo.val, addr, [0, 0, 0, 0, 0, 0], now, ⟨[]⟩⟩ ∧
      (Ip2Mac cfg deviceNo addr none now s).2.out
        = s.out ++ [((cfg.Device deviceNo).soc, arpRequestFrame addr (memOf bcast)
            (cfg.Device deviceNo).addr (memOf (cfg.Device deviceNo).hwaddr))] ∧
      (Ip2Mac cfg deviceNo addr none now s).2.SendReq = s.SendReq) ∧
    (now - e.lastTime ≤ 1 →
      (Ip2Mac cfg deviceNo addr none now s).1 = mid.length ∧
      ((Ip2Mac cfg deviceNo addr none now s).2.Ip2Macs deviceNo).data
        = mid.map (sweep now) ++ e :: tl ∧
      (Ip2Mac cfg deviceNo addr none now s).2.out
        = s.out ++ [((cfg.Device deviceNo).soc, arpRequestFrame addr (memOf bcast)
            (cfg.Device deviceNo).addr (memOf (cfg.Device deviceNo).hwaddr))] ∧
      (Ip2Mac cfg deviceNo addr none now s).2.SendReq = s.SendReq) := by
  have hmid2 : ∀ x ∈ mid, goesPast addr none now x :=
    fun x hx => goesPast_of_passedOver addr none now x (hmid x hx)
  constructor
  · intro ht
    have hex : expired e now = true :=
      expired_of_negative now e hflag (by simpa [IP2MAC_NG_TIMEOUT_SEC] using ht)
    have hsw : sweep now e = ⟨FLAG_FREE, e.deviceNo, e.addr, e.hwaddr, e.lastTime, ⟨[]⟩⟩ := by
      simp [sweep, hex, released, FreeSendData]
    have hall : ∀ x ∈ (s.Ip2Macs deviceNo).data, goesPast addr none now x := by
      intro x hx
      rw [hdata] at hx
      rcases List.mem_append.1 hx with h | h
      · exact hmid2 x h
      · rcases List.mem_cons.1 h with h1 | h1
        · rw [h1]
          exact Or.inr (Or.inr ⟨rfl, hflag, by simpa [IP2MAC_NG_TIMEOUT_SEC] using ht⟩)
        · exact goesPast_of_passedOver addr none now x (htl x h1)
    have hmap : (s.Ip2Macs deviceNo).data.map (sweep now)
        = mid.map (sweep now)
          ++ ⟨FLAG_FREE, e.deviceNo, e.addr, e.hwaddr, e.lastTime, ⟨[]⟩⟩ :: tl.map (sweep now) := by
      rw [hdata, List.map_append, List.map_cons, hsw]
    obtain ⟨j, hj, hle⟩ := firstFree_le (mid.map (sweep now)) (tl.map (sweep now))
      ⟨FLAG_FREE, e.deviceNo, e.addr, e.hwaddr, e.lastTime, ⟨[]⟩⟩ rfl
    rw [← hmap] at hj
    rw [Ip2Mac_query_miss cfg deviceNo addr now s j hall hj]
    obtain ⟨a, x, b, hl, hja, _, _⟩ := firstFree_some _ j hj
    refine ⟨by simpa using hle, ?_, ?_, rfl, rfl⟩
    · simp only [Function.update_same, hmap]
      rfl
    · simp only [Function.update_same, hl, hja, set_append_cons]
      exact getD_append_cons a b _ default a.length rfl
  · intro ht
    rw [Ip2Mac_query_negative_hit cfg deviceNo addr now s mid tl e hdata hmid2 hflag haddr ht]
    simp only [Function.update_same, and_self]

/-- Witness for C26: the query for 10.0.1.7 at time 5 on `negativeState`,
whose Negative entry dates from time 0 and has one packet pending. -/
theorem negative_entry_retry_witness :
    ((Ip2Mac sampleConfig 1 0x0701000a none 5 negativeState).2.Ip2Macs 1).data.getD
        (Ip2Mac sampleConfig 1 0x0701000a none 5 negativeState).1 default
      = ⟨FLAG_NG, 1, 0x0701000a, [0, 0, 0, 0, 0, 0], 5, ⟨[]⟩⟩ :=
  ((negative_entry_retry sampleConfig 1 0x0701000a 5 negativeState [] [] negativeEntry rfl
    (by simp) (by simp) (by decide) (by decide)).1 (by decide)).2.2.1

/-! ## Theorems: what a query returns -/

/-- C24 (what the code does): a query `Ip2MacSearch(dev, addr, NULL)` at clock
value `now`. The scan returns the first entry in use for `addr` unless that
entry is Negative with `now - lastTime > 1`: a Negative entry not aged out is
returned as it is, and a Resolved entry is returned with `lastTime = now`
whatever its age, because the time stamp is refreshed before the aging test;
no entry is created. When the scan returns no entry, a Negative entry with
`addr`, a zero hardware address, `lastTime = now` and an empty queue is
registered in the first Free slot of the swept table, or behind the last
entry when no slot is Free, and returned. On the table of `resolvedState`,
whose Resolved entry for 10.0.1.7 dates from time 0, the query at time 100
returns that entry, still Resolved, and creates nothing. -/
theorem query_returns_aged_out_resolved_entry :
    (∀ (deviceNo addr : Nat) (now : Int) (tab : Ip2MacTable) (req : SendReqQueue)
        (mid tl : List IP2MAC) (e : IP2MAC),
      tab.data = mid ++ e :: tl → (∀ x ∈ mid, goesPast addr none now x) →
      e.flag ≠ FLAG_FREE → e.addr = addr → ¬ (e.flag = FLAG_NG ∧ now - e.lastTime > 1) →
      Ip2MacSearch deviceNo addr none now tab req
        = ⟨mid.length,
            ⟨mid.map (sweep now)
              ++ (if e.flag = FLAG_OK then { e with lastTime := now } else e) :: tl, tab.size⟩,
            req⟩) ∧
    (∀ (deviceNo addr : Nat) (now : Int) (tab : Ip2MacTable) (req : SendReqQueue),
      (∀ x ∈ tab.data, goesPast addr none now x) →
      (Ip2MacSearch deviceNo addr none now tab req).entry
        = ⟨FLAG_NG, deviceNo, addr, [0, 0, 0, 0, 0, 0], now, ⟨[]⟩⟩ ∧
      (Ip2MacSearch deviceNo addr none now tab req).SendReq = req ∧
      (∀ j, firstFree (tab.data.map (sweep now)) = some j →
        (Ip2MacSearch deviceNo addr none now tab req).index = j ∧
        (Ip2MacSearch deviceNo addr none now tab req).table.data
          = (tab.data.map (sweep now)).set j ⟨FLAG_NG, deviceNo, addr, [0, 0, 0, 0, 0, 0], now, ⟨[]⟩⟩) ∧
      (firstFree (tab.data.map (sweep now)) = none →
        (Ip2MacSearch deviceNo addr none now tab req).index = tab.data.length ∧
        (Ip2MacSearch deviceNo addr none now tab req).table.data
          = tab.data.map (sweep now) ++ [⟨FLAG_NG, deviceNo, addr, [0, 0, 0, 0, 0, 0], now, ⟨[]⟩⟩])) ∧
    ((100 : Int) - 0 > 60 ∧
      (resolvedState.Ip2Macs 1).data
        = [⟨FLAG_OK, 1, 0x0701000a, [0xaa, 0xbb, 0xcc, 0xdd, 0xee, 0xff], 0, ⟨[]⟩⟩] ∧
      (Ip2MacSearch 1 0x0701000a none 100 (resolvedState.Ip2Macs 1) []).index = 0 ∧
      (Ip2MacSearch 1 0x0701000a none 100 (resolvedState.Ip2Macs 1) []).table.data
        = [⟨FLAG_OK, 1, 0x0701000a, [0xaa, 0xbb, 0xcc, 0xdd, 0xee, 0xff], 100, ⟨[]⟩⟩]) := by
  refine ⟨?_, ?_, by decide⟩
  · intro deviceNo addr now tab req mid tl e hdata hmid hflag haddr hng
    have he : ¬ goesPast addr none now e := by
      intro h
      rcases h with h | h | ⟨_, h1, h2⟩
      · exact hflag h
      · exact h haddr
      · exact hng ⟨h1, by simpa [IP2MAC_NG_TIMEOUT_SEC] using h2⟩
    rw [Ip2MacSearch_hit deviceNo addr none now tab req mid tl e hdata hmid he]
    simp [touched]
  · intro deviceNo addr now tab req hall
    have hm := Ip2MacSearch_miss deviceNo addr none now tab req hall
    cases hff : firstFree (tab.data.map (sweep now)) with
    | none =>
      rw [hff] at hm
      rw [hm]
      refine ⟨?_, rfl, ?_, ?_⟩
      · simp [SearchResult.entry, newEntry]
      · intro j hj; exact absurd hj (by simp)
      · intro _; exact ⟨rfl, rfl⟩
    | some k =>
      rw [hff] at hm
      rw [hm]
      obtain ⟨a, x, b, hl, hk, _, _⟩ := firstFree_some _ k hff
      refine ⟨?_, rfl, ?_, ?_⟩
      · simp only [SearchResult.entry, hl, hk, set_append_cons]
        exact getD_append_cons a b _ default a.length rfl
      · intro j hj
        have : k = j := by simpa using hj
        subst this
        exact ⟨rfl, rfl⟩
      · intro h; exact absurd h (by simp)

/-! ## Theorems: the resolve step -/

/-- The resolve-and-send step when the entry found is not Negative and has
nothing pending: 0 is returned, the frame is rewritten and written on the
socket of `tno`, and the table is as the search left it. -/
theorem resolveAndSend_sends (cfg : Config) (tno : Fin 2) (target : Nat) (data : Mem)
    (size : Int) (option : Mem) (optionLen : Int) (now : Int) (s : State) (r : SearchResult)
    (hr : r = Ip2MacSearch tno.val target none now (s.Ip2Macs tno) s.SendReq)
    (hq : ¬ (r.entry.flag = FLAG_NG ∨ r.entry.sd.dno ≠ 0)) :
    (resolveAndSend cfg tno target data size option optionLen now s).1 = 0 ∧
    ((resolveAndSend cfg tno target data size option optionLen now s).2.Ip2Macs tno)
      = r.table ∧
    (resolveAndSend cfg tno target data size option optionLen now s).2.out
      = s.out ++ (if r.entry.flag = FLAG_OK then []
          else [((cfg.Device tno).soc, arpRequestFrame target (memOf bcast)
            (cfg.Device tno).addr (memOf (cfg.Device tno).hwaddr))])
        ++ [((cfg.Device tno).soc,
            readBytes (forwardFrame data option optionLen
              (readBytes (memOf r.entry.hwaddr) 0 6) (cfg.Device tno).hwaddr) 0 size.toNat)] := by
  have he : r.table.data.getD r.index default = r.entry := rfl
  unfold resolveAndSend Ip2Mac
  by_cases h1 : r.entry.flag = FLAG_OK
  · simp only [← hr, if_pos h1, entry_after_update, he, if_neg hq,
      Function.update_same, List.append_nil, and_self]
  · simp only [← hr, if_neg h1, SendArpRequestB, entry_after_update, he, if_neg hq,
      Function.update_same, and_self]

/-- C27: the resolve step of `AnalyzePacket` for a validated IPv4 frame with
TTL other than 1 that is not for local delivery, `r` being what the search for
the resolution target returns. If the entry is Negative or has packets
pending, -1 is returned, the frame is appended to the pending queue of that
entry as received (`size` bytes read from `data`, nothing rewritten) and no
copy of it is written: the only write is the ARP request made when the entry
is not Resolved. Otherwise the entry has nothing pending and is not Negative:
0 is returned, nothing is queued and the rewritten frame is written on the
socket of the outgoing interface. -/
theorem resolve_step_queues_or_sends (cfg : Config) (deviceNo tno : Fin 2) (data : Mem)
    (size now : Int) (junk : Mem) (s : State) (target : Nat) (r : SearchResult)
    (hsize : 34 ≤ size)
    (hdst : readBytes data 0 6 = readBytes (memOf (cfg.Device deviceNo).hwaddr) 0 6)
    (htype : ntohs (load16 data 12) = ETHERTYPE_IP)
    (hck : checkIPchecksum (offsetMem data 14)
      (optionBuf junk (offsetMem data 34) ((ihl (offsetMem data 14) : Int) * 4 - 20))
      ((ihl (offsetMem data 14) : Int) * 4 - 20) = 1)
    (httl : byteAt data 22 ≠ 1)
    (htno : tno = if deviceNo = 0 then 1 else 0)
    (hlocal : ¬ (load32 data 30 &&& (cfg.Device tno).netmask = (cfg.Device tno).subnet ∧
      load32 data 30 = (cfg.Device tno).addr))
    (htarget : target = if load32 data 30 &&& (cfg.Device tno).netmask = (cfg.Device tno).subnet
      then load32 data 30 else cfg.NextRouter)
    (hr : r = Ip2MacSearch tno.val target none now (s.Ip2Macs tno) s.SendReq) :
    (r.entry.flag = FLAG_NG ∨ r.entry.sd.dno ≠ 0 →
      (AnalyzePacket cfg deviceNo data size now junk s).1 = -1 ∧
      ((AnalyzePacket cfg deviceNo data size now junk s).2.Ip2Macs tno).data
        = r.table.data.set r.index
            ⟨r.entry.flag, r.entry.deviceNo, r.entry.addr, r.entry.hwaddr, r.entry.lastTime,
              ⟨r.entry.sd.top ++ [⟨now, size.toNat, readBytes data 0 size.toNat⟩]⟩⟩ ∧
      (AnalyzePacket cfg deviceNo data size now junk s).2.out
        = s.out ++ (if r.entry.flag = FLAG_OK then []
            else [((cfg.Device tno).soc, arpRequestFrame target (memOf bcast)
              (cfg.Device tno).addr (memOf (cfg.Device tno).hwaddr))])) ∧
    (¬ (r.entry.flag = FLAG_NG ∨ r.entry.sd.dno ≠ 0) →
      (AnalyzePacket cfg deviceNo data size now junk s).1 = 0 ∧
      (AnalyzePacket cfg deviceNo data size now junk s).2.Ip2Macs tno = r.table ∧
      (AnalyzePacket cfg deviceNo data size now junk s).2.out
        = s.out ++ (if r.entry.flag = FLAG_OK then []
            else [((cfg.Device tno).soc, arpRequestFrame target (memOf bcast)
              (cfg.Device tno).addr (memOf (cfg.Device tno).hwaddr))])
          ++ [((cfg.Device tno).soc,
              readBytes (forwardFrame data
                (optionBuf junk (offsetMem data 34) ((ihl (offsetMem data 14) : Int) * 4 - 20))
                ((ihl (offsetMem data 14) : Int) * 4 - 20)
                (readBytes (memOf r.entry.hwaddr) 0 6) (cfg.Device tno).hwaddr) 0 size.toNat)]) := by
  have hA : AnalyzePacket cfg deviceNo data size now junk s
      = resolveAndSend cfg tno target data size
          (optionBuf junk (offsetMem data 34) ((ihl (offsetMem data 14) : Int) * 4 - 20))
          ((ihl (offsetMem data 14) : Int) * 4 - 20) now s := by
    rw [AnalyzePacket_validated cfg deviceNo tno data size now junk s hsize hdst htype hck htno,
      if_neg httl, htarget]
    by_cases hseg : load32 data 30 &&& (cfg.Device tno).netmask = (cfg.Device tno).subnet
    · have hne : ¬ load32 data 30 = (cfg.Device tno).addr := fun h => hlocal ⟨hseg, h⟩
      rw [if_pos hseg, if_neg hne, if_pos hseg]
    · rw [if_neg hseg, if_neg hseg]
  rw [hA]
  constructor
  · intro hq
    exact resolveAndSend_queued cfg tno target data size _ _ now s r hr hq
  · intro hq
    exact resolveAndSend_sends cfg tno target data size _ _ now s r hr hq

/-- Witness for C27: `frameTtl64` read on interface 0 at time 1 while the
entry for 10.0.1.7 of interface 1 is Negative since time 0. -/
theorem resolve_step_queues_or_sends_witness :
    (AnalyzePacket sampleConfig 0 frameTtl64 34 1 zeroMem negativeState).1 = -1 :=
  ((resolve_step_queues_or_sends sampleConfig 0 1 frameTtl64 34 1 zeroMem negativeState
    0x0701000a (Ip2MacSearch 1 0x0701000a none 1 (negativeState.Ip2Macs 1) negativeState.SendReq)
    (by decide) (by decide) (by decide) (by decide) (by decide) (by decide) (by decide)
    (by decide) rfl).1 (by decide)).1

/-! ## Theorems: the flush rewrite and the immediate-send rewrite -/

theorem byteAt_stored (F : Mem) (n i : Nat) (hi : i < n) :
    byteAt (memOf (readBytes F 0 n)) i = byteAt F i := by
  rw [byteAt_memOf_readBytes F 0 n i hi, Nat.zero_add]

theorem updatedHeader_stored (F : Mem) (n : Nat) (hn : 34 ≤ n) :
    updatedHeader (memOf (readBytes F 0 n)) = updatedHeader F := by
  unfold updatedHeader
  rw [readBytes_congr (memOf (readBytes F 0 n)) F 14 8
      (fun i _ h2 => byteAt_stored F n i (by omega)),
    readBytes_congr (memOf (readBytes F 0 n)) F 26 8
      (fun i _ h2 => byteAt_stored F n i (by omega)),
    byteAt_stored F n 22 (by omega), byteAt_stored F n 23 (by omega)]

/-- The frame the flush writes for a stored copy of `F` is the frame the
immediate-send step writes for `F`, when the header and its options lie
within the `n` bytes stored. -/
theorem flushFrame_eq_forwardFrame (dev : DEVICE) (M : List Nat) (F junk1 junk2 : Mem) (n : Nat)
    (hn : 34 ≤ n) (hopt : 34 + ((ihl (offsetMem F 14) : Int) * 4 - 20) ≤ n) :
    flushFrame dev M junk1 n (readBytes F 0 n)
      = readBytes (forwardFrame F
          (optionBuf junk2 (offsetMem F 34) ((ihl (offsetMem F 14) : Int) * 4 - 20))
          ((ihl (offsetMem F 14) : Int) * 4 - 20)
          (readBytes (memOf M) 0 6) dev.hwaddr) 0 n := by
  have hihl : ihl (offsetMem (memOf (readBytes F 0 n)) 14) = ihl (offsetMem F 14) := by
    have := byteAt_stored F n 14 (by omega)
    simp only [ihl, byteAt, offsetMem, Nat.add_zero] at this ⊢
    rw [this]
  rw [flushFrame_layout dev M junk1 n _ hn, forwardFrame_layout _ _ _ _ _ n hn,
    byteAt_memOf_readBytes_self, updatedHeader_stored F n hn, hihl,
    readBytes_congr (memOf (readBytes F 0 n)) F 12 10
      (fun i _ h2 => byteAt_stored F n i (by omega)),
    readBytes_congr (memOf (readBytes F 0 n)) F 26 (n - 26)
      (fun i _ h2 => byteAt_stored F n i (by omega)),
    byteAt_stored F n 22 (by omega), byteAt_stored F n 23 (by omega)]
  congr 3
  apply checksum2_20_congr
  · intro _ _; rfl
  · intro i hi
    have hpos : 0 < (ihl (offsetMem F 14) : Int) * 4 - 20 := by omega
    rw [byteAt_optionBuf _ _ _ hpos i hi, byteAt_optionBuf _ _ _ hpos i hi]
    have := byteAt_stored F n (34 + i) (by omega)
    simp only [byteAt, offsetMem] at this ⊢
    exact this

/-- C28 (as the code has it): the flush rewrite is the immediate-send rewrite
for a frame whose header and options were received in full. Let `F` be a frame
of `size` bytes whose IPv4 header and options lie within those bytes, stored
as a pending packet of entry `i` of interface `tno`, whose hardware address is
`M`. `BufferSendOne` writes, for every pending packet of the entry in queue
order, the frame `flushFrame` makes of it with `M`; and the immediate-send
step of `AnalyzePacket`, run on `F` when the entry found for the target is
Resolved with hardware address `M` and nothing pending, writes exactly the
frame `flushFrame` makes of the stored copy of `F`: same Ethernet destination
and source, same TTL, same recomputed IPv4 checksum, same `size` bytes. -/
theorem flush_rewrite_is_immediate_rewrite (cfg : Config) (tno : Fin 2) (F : Mem) (size : Int)
    (junk1 junk2 : Mem) (now t : Int) (s1 s2 : State) (i : Nat) (e : IP2MAC) (target : Nat)
    (r : SearchResult)
    (hsize : 34 ≤ size)
    (hopt : 34 + ((ihl (offsetMem F 14) : Int) * 4 - 20) ≤ size)
    (hget : (s1.Ip2Macs tno).data[i]? = some e)
    (hpending : (⟨t, size.toNat, readBytes F 0 size.toNat⟩ : DATA_BUF) ∈ e.sd.top)
    (hr : r = Ip2MacSearch tno.val target none now (s2.Ip2Macs tno) s2.SendReq)
    (hres : r.entry.flag = FLAG_OK) (hempty : r.entry.sd.top = [])
    (hM : r.entry.hwaddr = e.hwaddr) :
    (BufferSendOne cfg tno i junk1 s1).2.out
      = s1.out ++ e.sd.top.map (fun d => ((cfg.Device tno).soc,
          flushFrame (cfg.Device tno) e.hwaddr zeroMem d.size d.data)) ∧
    ((cfg.Device tno).soc,
        flushFrame (cfg.Device tno) e.hwaddr zeroMem size.toNat (readBytes F 0 size.toNat))
      ∈ e.sd.top.map (fun d => ((cfg.Device tno).soc,
          flushFrame (cfg.Device tno) e.hwaddr zeroMem d.size d.data)) ∧
    (resolveAndSend cfg tno target F size
        (optionBuf junk2 (offsetMem F 34) ((ihl (offsetMem F 14) : Int) * 4 - 20))
        ((ihl (offsetMem F 14) : Int) * 4 - 20) now s2).2.out
      = s2.out ++ [((cfg.Device tno).soc,
          flushFrame (cfg.Device tno) e.hwaddr zeroMem size.toNat (readBytes F 0 size.toNat))] ∧
    (flushFrame (cfg.Device tno) e.hwaddr zeroMem size.toNat (readBytes F 0 size.toNat)).length
      = size.toNat := by
  have hn : 34 ≤ size.toNat := by omega
  have hopt2 : 34 + ((ihl (offsetMem F 14) : Int) * 4 - 20) ≤ (size.toNat : Int) := by omega
  have hq : ¬ (r.entry.flag = FLAG_NG ∨ r.entry.sd.dno ≠ 0) := by
    intro h
    rcases h with h | h
    · rw [hres] at h; exact absurd h (by decide)
    · exact h (by simp [SEND_DATA.dno, hempty])
  have hcore := flushFrame_eq_forwardFrame (cfg.Device tno) e.hwaddr F zeroMem junk2 size.toNat
    hn hopt2
  refine ⟨(BufferSendOne_at cfg tno i junk1 s1 e hget).2.1, ?_, ?_, ?_⟩
  · exact List.mem_map.2 ⟨_, hpending, rfl⟩
  · rw [(resolveAndSend_sends cfg tno target F size _ _ now s2 r hr hq).2.2, if_pos hres,
      List.append_nil, hM, ← hcore]
  · rw [hcore]
    exact length_readBytes _ _ _
/-- Witness for C28 (as the code has it): `frameTtl64`, pending first in
`pendingState` and sent at once in `resolvedState`; the hardware address is
aa:bb:cc:dd:ee:ff in both. -/
theorem flush_rewrite_is_immediate_rewrite_witness :
    (resolveAndSend sampleConfig 1 0x0701000a frameTtl64 34
        (optionBuf zeroMem (offsetMem frameTtl64 34)
          ((ihl (offsetMem frameTtl64 14) : Int) * 4 - 20))
        ((ihl (offsetMem frameTtl64 14) : Int) * 4 - 20) 5 resolvedState).2.out
      = resolvedState.out ++ [((sampleConfig.Device 1).soc,
          flushFrame (sampleConfig.Device 1) pendingEntry.hwaddr zeroMem (34 : Int).toNat
            (readBytes frameTtl64 0 (34 : Int).toNat))] :=
  (flush_rewrite_is_immediate_rewrite sampleConfig 1 frameTtl64 34 zeroMem zeroMem 5 1
    pendingState resolvedState 0 pendingEntry 0x0701000a
    (Ip2MacSearch 1 0x0701000a none 5 (resolvedState.Ip2Macs 1) resolvedState.SendReq)
    (by decide) (by decide) rfl (by decide) rfl (by decide) (by decide) (by decide)).2.2.1

/-! ## Theorems: `checksum2` over an even-length first buffer -/

/-- The words of two buffers laid out one after the other, the first of even
length, are the words of the first followed by the words of the second. -/
theorem words_sum_concatMem (A B : Mem) (lenB : Nat) (k : Nat) :
    (words (concatMem A (2 * k) B) (2 * k + lenB) 0).sum
      = (words A (2 * k) 0).sum + (words B lenB 0).sum := by
  rw [words_sum_split (concatMem A (2 * k) B) lenB k 0, Nat.zero_add]
  have h1 : words (concatMem A (2 * k) B) (2 * k) 0 = words A (2 * k) 0 := by
    apply words_congr
    intro i _ hi
    simp only [byteAt, concatMem]
    rw [if_pos (by omega)]
  have h2 : words (concatMem A (2 * k) B) lenB (2 * k) = words B lenB 0 := by
    have := words_offsetMem (concatMem A (2 * k) B) (2 * k) lenB 0
    rw [Nat.add_zero] at this
    rw [← this]
    apply words_congr
    intro i _ _
    simp only [byteAt, concatMem, offsetMem]
    rw [if_neg (by omega), Nat.add_sub_cancel_left]
  rw [h1, h2]

/-- C37: for every even-length `A` and every `B` of any length,
`checksum2(A, len A, B, len B)` equals `checksum` over `A` followed by `B`
with length `len A + len B`; in particular `checksum2(A, len A, B, 0)` equals
`checksum(A, len A)`, so the verdict `checkIPchecksum` reaches through its
first branch (`optionLen == 0`, `checksum`) is the verdict its second branch
(`checksum2`) would reach for the same arguments. -/
theorem checksum2_of_even_first_buffer (A B : Mem) (lenA lenB : Nat) (heven : lenA % 2 = 0) :
    checksum2 A (lenA : Int) B (lenB : Int)
      = checksum (concatMem A lenA B) ((lenA : Int) + (lenB : Int)) ∧
    checksum2 A (lenA : Int) B 0 = checksum A (lenA : Int) ∧
    (∀ iphdr option : Mem, checkIPchecksum iphdr option 0 =
      if checksum2 (memOf (readBytes iphdr 0 20)) 20 option 0 = 0 ∨
          checksum2 (memOf (readBytes iphdr 0 20)) 20 option 0 = 0xFFFF then 1 else 0) := by
  have hz : ∀ (X Y : Mem) (n : Nat), n % 2 = 0 →
      checksum2 X (n : Int) Y 0 = checksum X (n : Int) := by
    intro X Y n hn
    have := checksum2_even X Y n 0 hn
    rw [show ((0 : Nat) : Int) = 0 from rfl] at this
    rw [this, checksum_eq_red]
    simp [words]
  refine ⟨?_, hz A B lenA heven, ?_⟩
  · obtain ⟨k, hk⟩ : ∃ k, lenA = 2 * k := ⟨lenA / 2, by omega⟩
    subst hk
    rw [checksum2_even A B (2 * k) lenB heven,
      show ((2 * k : Nat) : Int) + (lenB : Int) = ((2 * k + lenB : Nat) : Int) by push_cast; rfl,
      checksum_eq_red, words_sum_concatMem]
  · intro iphdr option
    have := hz (memOf (readBytes iphdr 0 20)) option 20 (by decide)
    rw [show ((20 : Nat) : Int) = 20 from rfl] at this
    simp only [checkIPchecksum, if_true, this]

/-- Witness for C37: `A = [1, 2]`, `B = [3]`. -/
theorem checksum2_of_even_first_buffer_witness :
    checksum2 (memOf [1, 2]) ((2 : Nat) : Int) (memOf [3]) ((1 : Nat) : Int)
      = checksum (concatMem (memOf [1, 2]) 2 (memOf [3])) (((2 : Nat) : Int) + ((1 : Nat) : Int)) :=
  (checksum2_of_even_first_buffer (memOf [1, 2]) (memOf [3]) 2 1 (by decide)).1

/-! ## Theorems: byte-order independence of the checksum -/

theorem wordsBE_lt (m : Mem) : ∀ (len off : Nat), ∀ w ∈ wordsBE m len off, w < 65536 := by
  intro len
  induction len using Nat.strong_induction_on with
  | _ len ih =>
    intro off w hw
    match len with
    | 0 => simp [wordsBE] at hw
    | 1 =>
      simp only [wordsBE, List.mem_singleton] at hw
      have := byteAt_lt m off
      omega
    | len + 2 =>
      simp only [wordsBE, List.mem_cons] at hw
      rcases hw with h | h
      · have := byteAt_lt m off
        have := byteAt_lt m (off + 1)
        omega
      · exact ih len (by omega) (off + 2) w h

/-- The big-endian word sum is, in ones-complement arithmetic, 256 times the
host-order word sum. -/
theorem red_wordsBE (m : Mem) : ∀ (len off : Nat),
    red (wordsBE m len off).sum = red (256 * (words m len off).sum) := by
  intro len
  induction len using Nat.strong_induction_on with
  | _ len ih =>
    intro off
    match len with
    | 0 => simp [wordsBE, words]
    | 1 =>
      simp only [wordsBE, words, List.sum_cons, List.sum_nil]
      have := byteAt_lt m off
      unfold red
      split_ifs <;> omega
    | len + 2 =>
      have h := ih len (by omega) (off + 2)
      simp only [wordsBE, words, load16, List.sum_cons]
      have := byteAt_lt m off
      have := byteAt_lt m (off + 1)
      generalize (wordsBE m len (off + 2)).sum = sb at h ⊢
      generalize (words m len (off + 2)).sum = sl at h ⊢
      unfold red at h ⊢
      split_ifs at h ⊢ <;> omega

theorem red_unique (x q r : Nat) (h : x = 65535 * q + r) (h1 : 1 ≤ r) (h2 : r ≤ 65535) :
    red x = r := by
  unfold red
  rw [if_neg (by omega)]
  omega

theorem htons_split (h l : Nat) (hh : h ≤ 255) (hl : l ≤ 255) :
    htons (256 * h + l) = 256 * l + h := by
  have e1 : (256 * h + l) % 256 = l := by omega
  have e2 : (256 * h + l) / 256 = h := by omega
  have e3 : h % 256 = h := by omega
  simp only [htons, e1, e2, e3]
  omega

theorem htons_complement (s : Nat) :
    65535 - red s = htons (65535 - red (256 * s)) := by
  by_cases hs : s = 0
  · subst hs
    decide
  · have hr1 : 1 ≤ red s := by
      have := (red_eq_zero_iff s).not.2 hs
      omega
    have hr2 := red_le s
    have hq : s = 65535 * ((s - 1) / 65535) + red s := by
      unfold red
      rw [if_neg hs]
      omega
    obtain ⟨h, l, hr, hh, hl⟩ : ∃ h l, red s = 256 * h + l ∧ h ≤ 255 ∧ l ≤ 255 :=
      ⟨red s / 256, red s % 256, by omega, by omega, by omega⟩
    have ht : red (256 * s) = 256 * l + h :=
      red_unique (256 * s) (256 * ((s - 1) / 65535) + h) (256 * l + h) (by omega) (by omega)
        (by omega)
    rw [ht, hr]
    have : 65535 - (256 * l + h) = 256 * (255 - l) + (255 - h) := by omega
    rw [this, htons_split (255 - l) (255 - h) (by omega) (by omega)]
    omega

theorem rfc1071_eq_red (buf : Mem) (len : Nat) :
    rfc1071 buf len = 65535 - red (256 * (words buf len 0).sum) := by
  unfold rfc1071
  rw [onesSum_eq_red _ (wordsBE_lt buf len 0), red_wordsBE]
  have := red_le (256 * (words buf len 0).sum)
  unfold not16
  omega

/-- The value `checksum` returns is the byte-swap of the reference checksum. -/
theorem checksum_eq_htons_rfc1071 (buf : Mem) (len : Nat) :
    checksum buf (len : Int) = htons (rfc1071 buf len) := by
  rw [checksum_eq_red, rfc1071_eq_red, htons_complement]

/-- C38: byte-order independence. For every buffer and length, the value
`checksum` returns is the byte-swap of the RFC 1071 checksum computed over
big-endian words, so its two bytes as the little-endian host stores them are
the reference checksum in network order, high byte first: storing the result
into a header field without `htons` gives the correct wire value. -/
theorem checksum_is_byte_swapped_rfc1071 (buf : Mem) (len : Nat) :
    checksum buf (len : Int) = htons (rfc1071 buf len) ∧
    bytes16 (checksum buf (len : Int)) = [rfc1071 buf len / 256, rfc1071 buf len % 256] := by
  refine ⟨checksum_eq_htons_rfc1071 buf len, ?_⟩
  have h5 : rfc1071 buf len ≤ 65535 := by rw [rfc1071_eq_red]; omega
  rw [checksum_eq_htons_rfc1071]
  obtain ⟨h, l, hr, hh, hl⟩ : ∃ h l, rfc1071 buf len = 256 * h + l ∧ h ≤ 255 ∧ l ≤ 255 :=
    ⟨rfc1071 buf len / 256, rfc1071 buf len % 256, by omega, by omega, by omega⟩
  rw [hr, htons_split h l hh hl]
  have e1 : (256 * l + h) % 256 = h := by omega
  have e2 : (256 * l + h) / 256 % 256 = l := by omega
  have e3 : (256 * h + l) / 256 = h := by omega
  have e4 : (256 * h + l) % 256 = l := by omega
  simp only [bytes16, e1, e2, e3, e4]

/-! ## Theorems: the pseudo-header checksum -/

theorem htons_eq_zero_iff (x : Nat) (hx : x ≤ 65535) : htons x = 0 ↔ x = 0 := by
  unfold htons
  omega

theorem htons_eq_ffff_iff (x : Nat) (hx : x ≤ 65535) : htons x = 65535 ↔ x = 65535 := by
  unfold htons
  omega

/-- The sum `checkIPDATAchecksum` tests, in terms of the reference checksum
over the pseudo-header followed by the data. -/
theorem pseudo_sum_eq (iphdr data : Mem) (len : Nat) :
    checksum2 (memOf (Ch3.pseudo_ip iphdr (len : Int))) 12 data (len : Int)
      = htons (rfc1071 (concatMem (memOf (Ch3.pseudo_ip iphdr (len : Int))) 12 data)
          (12 + len)) := by
  have h := checksum2_even (memOf (Ch3.pseudo_ip iphdr (len : Int))) data 12 len (by decide)
  rw [show ((12 : Nat) : Int) = 12 from rfl] at h
  have hw := words_sum_concatMem (memOf (Ch3.pseudo_ip iphdr (len : Int))) data len 6
  rw [show 2 * 6 = 12 from rfl] at hw
  rw [h, ← checksum_eq_htons_rfc1071, checksum_eq_red, hw]

/-- C31: for every IPv4 header, payload `data` and length `len` in 0..65535,
`checkIPDATAchecksum(iphdr, data, len)` returns 1 if and only if the RFC 1071
checksum over the 12-byte pseudo-header (source address, destination address,
one zero byte, protocol, `len` as a 16-bit big-endian value) followed by the
`len` bytes of `data` is 0x0000 or 0xFFFF, and returns 0 otherwise. -/
theorem checkIPDATAchecksum_accepts_iff (iphdr data : Mem) (len : Nat) (hlen : len ≤ 65535) :
    Ch3.pseudo_ip iphdr (len : Int)
      = readBytes iphdr 12 4 ++ readBytes iphdr 16 4
        ++ [0, byteAt iphdr 9, len / 256, len % 256] ∧
    (Ch3.checkIPDATAchecksum iphdr data (len : Int) = 1 ↔
      (rfc1071 (concatMem (memOf (Ch3.pseudo_ip iphdr (len : Int))) 12 data) (12 + len) = 0 ∨
       rfc1071 (concatMem (memOf (Ch3.pseudo_ip iphdr (len : Int))) 12 data) (12 + len)
        = 0xFFFF)) ∧
    (Ch3.checkIPDATAchecksum iphdr data (len : Int) = 0 ↔
      ¬ (rfc1071 (concatMem (memOf (Ch3.pseudo_ip iphdr (len : Int))) 12 data) (12 + len) = 0 ∨
         rfc1071 (concatMem (memOf (Ch3.pseudo_ip iphdr (len : Int))) 12 data) (12 + len)
          = 0xFFFF)) := by
  have hle : rfc1071 (concatMem (memOf (Ch3.pseudo_ip iphdr (len : Int))) 12 data) (12 + len)
      ≤ 65535 := by rw [rfc1071_eq_red]; omega
  have h0 := htons_eq_zero_iff _ hle
  have h1 := htons_eq_ffff_iff _ hle
  refine ⟨?_, ?_, ?_⟩
  · have e0 : ((len : Int) % 65536).toNat = len := by omega
    obtain ⟨h, l, hr, hh, hl⟩ : ∃ h l, len = 256 * h + l ∧ h ≤ 255 ∧ l ≤ 255 :=
      ⟨len / 256, len % 256, by omega, by omega, by omega⟩
    have e1 : (256 * l + h) % 256 = h := by omega
    have e2 : (256 * l + h) / 256 % 256 = l := by omega
    have e3 : (256 * h + l) / 256 = h := by omega
    have e4 : (256 * h + l) % 256 = l := by omega
    simp only [Ch3.pseudo_ip, e0]
    rw [hr, htons_split h l hh hl]
    simp only [bytes16, e1, e2, e3, e4, List.append_assoc, List.cons_append, List.nil_append]
  · unfold Ch3.checkIPDATAchecksum
    simp only [pseudo_sum_eq]
    split_ifs with hc
    · simp only [true_iff]
      rcases hc with hc | hc
      · exact Or.inl (h0.1 hc)
      · exact Or.inr (h1.1 hc)
    · simp only [show ((0 : Int) = 1) = False by simp, false_iff]
      intro hc2
      apply hc
      rcases hc2 with hc2 | hc2
      · exact Or.inl (h0.2 hc2)
      · exact Or.inr (h1.2 hc2)
  · unfold Ch3.checkIPDATAchecksum
    simp only [pseudo_sum_eq]
    split_ifs with hc
    · simp only [show ((1 : Int) = 0) = False by simp, false_iff, not_not]
      rcases hc with hc | hc
      · exact Or.inl (h0.1 hc)
      · exact Or.inr (h1.1 hc)
    · simp only [true_iff]
      intro hc2
      apply hc
      rcases hc2 with hc2 | hc2
      · exact Or.inl (h0.2 hc2)
      · exact Or.inr (h1.2 hc2)

/-- Witness for C31: the header `packetDeclares8` (10.0.0.9 to 10.0.1.7) and
eight zero data bytes. -/
theorem checkIPDATAchecksum_accepts_iff_witness :
    Ch3.pseudo_ip packetDeclares8 ((8 : Nat) : Int)
      = readBytes packetDeclares8 12 4 ++ readBytes packetDeclares8 16 4
        ++ [0, byteAt packetDeclares8 9, 8 / 256, 8 % 256] :=
  (checkIPDATAchecksum_accepts_iff packetDeclares8 zeroMem 8 (by decide)).1

/-! ## Theorems: the ARP request -/

/-- C32: for all inputs `SendArpRequestB` makes exactly one `write`, of a
42-byte frame: Ethernet destination `target_mac`, source `my_mac`, ethertype
0x0806, then the ARP body with hrd = 1, pro = 0x0800, hln = 6, pln = 4,
op = 1, sha = `my_mac`, spa = the four bytes of `my_ip`, tha = six zero bytes,
tpa = the four bytes of `target_ip`, every 16-bit field high byte first. The
four bytes of an `in_addr_t` are its bytes as stored, which for the address
a.b.c.d are `a, b, c, d`: network order. -/
theorem arp_request_frame_layout (soc : Int) (target_ip : Nat) (target_mac : Mem) (my_ip : Nat)
    (my_mac : Mem) (s : State) :
    (SendArpRequestB soc target_ip target_mac my_ip my_mac s).out
      = s.out ++ [(soc, arpRequestFrame target_ip target_mac my_ip my_mac)] ∧
    (arpRequestFrame target_ip target_mac my_ip my_mac).length = 42 ∧
    arpRequestFrame target_ip target_mac my_ip my_mac
      = readBytes target_mac 0 6 ++ readBytes my_mac 0 6 ++ [0x08, 0x06]
        ++ [0x00, 0x01, 0x08, 0x00, 6, 4, 0x00, 0x01]
        ++ readBytes my_mac 0 6 ++ bytes32 my_ip ++ [0, 0, 0, 0, 0, 0] ++ bytes32 target_ip ∧
    (∀ a b c d : Nat, a < 256 → b < 256 → c < 256 → d < 256 →
      bytes32 (a + 256 * b + 65536 * c + 16777216 * d) = [a, b, c, d]) := by
  refine ⟨rfl, ?_, ?_, ?_⟩
  · simp [arpRequestFrame, readBytes, bytes16, bytes32]
  · simp [arpRequestFrame, bytes16, htons, ETHERTYPE_ARP, ETHERTYPE_IP, ARPHRD_ETHER,
      ARPOP_REQUEST]
  · intro a b c d ha hb hc hd
    simp only [bytes32]
    congr 1
    · omega
    congr 1
    · omega
    congr 1
    · omega
    congr 1
    omega

/-- The entry a search that returns no existing entry registers and returns. -/
theorem Ip2MacSearch_miss_entry (deviceNo addr : Nat) (hw : Option Mem) (now : Int)
    (tab : Ip2MacTable) (req : SendReqQueue)
    (hall : ∀ x ∈ tab.data, goesPast addr hw now x) :
    (Ip2MacSearch deviceNo addr hw now tab req).entry = newEntry deviceNo addr hw now := by
  rw [Ip2MacSearch_miss deviceNo addr hw now tab req hall]
  cases hff : firstFree (tab.data.map (sweep now)) with
  | none => simp [SearchResult.entry]
  | some j =>
    obtain ⟨a, x, b, hl, hj, _, _⟩ := firstFree_some _ j hff
    simp only [SearchResult.entry, hl, hj, set_append_cons]
    exact getD_append_cons a b _ default a.length rfl

/-- What `Ip2Mac` writes: nothing when the entry found is Resolved, one ARP
request otherwise. -/
theorem Ip2Mac_out (cfg : Config) (deviceNo : Fin 2) (addr : Nat) (hw : Option Mem) (now : Int)
    (s : State) :
    (Ip2Mac cfg deviceNo addr hw now s).2.out
      = s.out ++ (if (Ip2MacSearch deviceNo.val addr hw now (s.Ip2Macs deviceNo)
            s.SendReq).entry.flag = FLAG_OK then []
          else [((cfg.Device deviceNo).soc, arpRequestFrame addr (memOf bcast)
            (cfg.Device deviceNo).addr (memOf (cfg.Device deviceNo).hwaddr))]) := by
  unfold Ip2Mac
  by_cases h : (Ip2MacSearch deviceNo.val addr hw now (s.Ip2Macs deviceNo)
      s.SendReq).entry.flag = FLAG_OK
  · simp only [if_pos h, List.append_nil]
  · simp only [if_neg h, SendArpRequestB]

/-- C33: `Ip2Mac(dev, addr, hw)` writes exactly one ARP request for `addr`
on the socket of `dev`, with destination ff:ff:ff:ff:ff:ff, sender hardware
address and sender protocol address those of `dev` and target protocol
address `addr`, when the entry `Ip2MacSearch` returns is not Resolved, and
writes nothing when it is Resolved. In particular a request is written when a
query registers a new Negative entry, and again on a later query that returns
a Negative entry not yet aged out. -/
theorem Ip2Mac_requests_iff_not_resolved (cfg : Config) (deviceNo : Fin 2) (addr : Nat)
    (hw : Option Mem) (now : Int) (s : State) :
    ((Ip2MacSearch deviceNo.val addr hw now (s.Ip2Macs deviceNo) s.SendReq).entry.flag
        = FLAG_OK →
      (Ip2Mac cfg deviceNo addr hw now s).2.out = s.out) ∧
    ((Ip2MacSearch deviceNo.val addr hw now (s.Ip2Macs deviceNo) s.SendReq).entry.flag
        ≠ FLAG_OK →
      (Ip2Mac cfg deviceNo addr hw now s).2.out
        = s.out ++ [((cfg.Device deviceNo).soc, arpRequestFrame addr (memOf bcast)
            (cfg.Device deviceNo).addr (memOf (cfg.Device deviceNo).hwaddr))]) ∧
    arpRequestFrame addr (memOf bcast) (cfg.Device deviceNo).addr
        (memOf (cfg.Device deviceNo).hwaddr)
      = [0xFF, 0xFF, 0xFF, 0xFF, 0xFF, 0xFF] ++ readBytes (memOf (cfg.Device deviceNo).hwaddr) 0 6
        ++ [0x08, 0x06] ++ [0x00, 0x01, 0x08, 0x00, 6, 4, 0x00, 0x01]
        ++ readBytes (memOf (cfg.Device deviceNo).hwaddr) 0 6
        ++ bytes32 (cfg.Device deviceNo).addr ++ [0, 0, 0, 0, 0, 0] ++ bytes32 addr ∧
    ((∀ x ∈ (s.Ip2Macs deviceNo).data, goesPast addr none now x) →
      (Ip2MacSearch deviceNo.val addr none now (s.Ip2Macs deviceNo) s.SendReq).entry
        = ⟨FLAG_NG, deviceNo.val, addr, [0, 0, 0, 0, 0, 0], now, ⟨[]⟩⟩ ∧
      (Ip2Mac cfg deviceNo addr none now s).2.out
        = s.out ++ [((cfg.Device deviceNo).soc, arpRequestFrame addr (memOf bcast)
            (cfg.Device deviceNo).addr (memOf (cfg.Device deviceNo).hwaddr))]) ∧
    (∀ (mid tl : List IP2MAC) (e : IP2MAC), (s.Ip2Macs deviceNo).data = mid ++ e :: tl →
      (∀ x ∈ mid, goesPast addr none now x) → e.flag = FLAG_NG → e.addr = addr →
      now - e.lastTime ≤ 1 →
      (Ip2Mac cfg deviceNo addr none now s).1 = mid.length ∧
      (Ip2Mac cfg deviceNo addr none now s).2.out
        = s.out ++ [((cfg.Device deviceNo).soc, arpRequestFrame addr (memOf bcast)
            (cfg.Device deviceNo).addr (memOf (cfg.Device deviceNo).hwaddr))]) := by
  refine ⟨?_, ?_, ?_, ?_, ?_⟩
  · intro h
    rw [Ip2Mac_out, if_pos h, List.append_nil]
  · intro h
    rw [Ip2Mac_out, if_neg h]
  · simp [arpRequestFrame, bytes16, htons, ETHERTYPE_ARP, ETHERTYPE_IP, ARPHRD_ETHER,
      ARPOP_REQUEST, bcast, readBytes, memOf, byteAt, List.range, List.range.loop]
  · intro hall
    have he := Ip2MacSearch_miss_entry deviceNo.val addr none now (s.Ip2Macs deviceNo)
      s.SendReq hall
    refine ⟨he, ?_⟩
    rw [Ip2Mac_out, he, if_neg (by simp [newEntry, FLAG_NG, FLAG_OK])]
  · intro mid tl e hdata hmid hflag haddr ht
    rw [Ip2Mac_query_negative_hit cfg deviceNo addr now s mid tl e hdata hmid hflag haddr ht]
    exact ⟨rfl, rfl⟩

/-! ## Theorems: the range of the option length -/

/-- C40: for every IPv4 header the option length `ihl * 4 - 20` lies between
-20 and 40, `ihl` being a 4-bit field. So the test `1500 <= optionLen` under
`0 < optionLen` is false for every header, in the router (`AnalyzePacket`,
and the same computation in `BufferSendOne`) and in the analyzer
(`AnalyzeIp`), and the copy into the 1500-byte array `option` writes at most
its first 40 bytes. -/
theorem option_length_is_at_most_40 (iphdr junk ptr : Mem) :
    (-20 ≤ (ihl iphdr : Int) * 4 - 20 ∧ (ihl iphdr : Int) * 4 - 20 ≤ 40) ∧
    Ch3.ipOptionLen iphdr = (ihl iphdr : Int) * 4 - 20 ∧
    ¬ (0 < (ihl iphdr : Int) * 4 - 20 ∧ 1500 ≤ (ihl iphdr : Int) * 4 - 20) ∧
    ¬ (0 < Ch3.ipOptionLen iphdr ∧ 1500 ≤ Ch3.ipOptionLen iphdr) ∧
    (readBytes ptr 0 ((ihl iphdr : Int) * 4 - 20).toNat).length ≤ 40 ∧
    (∀ i, 40 ≤ i → optionBuf junk ptr ((ihl iphdr : Int) * 4 - 20) i = junk i) := by
  have h := ihl_lt iphdr
  refine ⟨⟨by omega, by omega⟩, rfl, by omega, by unfold Ch3.ipOptionLen; omega, ?_, ?_⟩
  · rw [length_readBytes]
    omega
  · intro i hi
    unfold optionBuf
    split
    · simp only [storeBytes, length_readBytes]
      rw [if_neg (by omega)]
    · rfl

/-! ## Theorems: the frame effect of forwarding -/

theorem getD_readBytes (m : Mem) (off n j : Nat) (h : j < n) :
    (readBytes m off n).getD j 0 = byteAt m (off + j) := by
  simp [readBytes, List.getD, List.getElem?_map, List.getElem?_range, h]

/-- The bytes of a frame laid out as the forwarding step and the flush leave
it: apart from the two addresses, the TTL and the check field every byte is
the byte of the frame at `m`. -/
theorem rewritten_layout (A B ck : List Nat) (m : Mem) (t n : Nat) (hA : A.length = 6)
    (hB : B.length = 6) (hck : ck.length = 2) (hn : 34 ≤ n) :
    (A ++ B ++ readBytes m 12 10 ++ [t, byteAt m 23] ++ ck ++ readBytes m 26 (n - 26)).length
      = n ∧
    (A ++ B ++ readBytes m 12 10 ++ [t, byteAt m 23] ++ ck ++ readBytes m 26 (n - 26)).getD 22 0
      = t ∧
    ∀ i, i < n → 12 ≤ i → i ≠ 22 → i ≠ 24 → i ≠ 25 →
      (A ++ B ++ readBytes m 12 10 ++ [t, byteAt m 23] ++ ck
        ++ readBytes m 26 (n - 26)).getD i 0 = byteAt m i := by
  have hAB : (A ++ B).length = 12 := by rw [List.length_append, hA, hB]
  have h3 : (A ++ B ++ readBytes m 12 10).length = 22 := by
    rw [List.length_append, hAB, length_readBytes]
  have h4 : (A ++ B ++ readBytes m 12 10 ++ [t, byteAt m 23]).length = 24 := by
    rw [List.length_append, h3]; rfl
  have h5 : (A ++ B ++ readBytes m 12 10 ++ [t, byteAt m 23] ++ ck).length = 26 := by
    rw [List.length_append, h4, hck]
  refine ⟨?_, ?_, ?_⟩
  · rw [List.length_append, h5, length_readBytes]
    omega
  · rw [List.getD_append _ _ _ _ (by rw [h5]; omega), List.getD_append _ _ _ _ (by rw [h4]; omega),
      List.getD_append_right _ _ _ _ (by rw [h3]), h3]
    rfl
  · intro i hi h12 h22 h24 h25
    by_cases hlt : i < 22
    · rw [List.getD_append _ _ _ _ (by rw [h5]; omega),
        List.getD_append _ _ _ _ (by rw [h4]; omega),
        List.getD_append _ _ _ _ (by rw [h3]; omega),
        List.getD_append_right _ _ _ _ (by rw [hAB]; omega), hAB,
        getD_readBytes m 12 10 (i - 12) (by omega)]
      congr 1
      omega
    · by_cases h23 : i = 23
      · subst h23
        rw [List.getD_append _ _ _ _ (by rw [h5]; omega),
          List.getD_append _ _ _ _ (by rw [h4]; omega),
          List.getD_append_right _ _ _ _ (by rw [h3]; omega), h3]
        rfl
      · rw [List.getD_append_right _ _ _ _ (by rw [h5]; omega), h5,
          getD_readBytes m 26 (n - 26) (i - 26) (by omega)]
        congr 1
        omega

/-- A validated IPv4 frame with TTL other than 1 that is not for local
delivery goes to the resolve-and-send step with the target route selection
picks. -/
theorem AnalyzePacket_routes (cfg : Config) (deviceNo tno : Fin 2) (data : Mem)
    (size now : Int) (junk : Mem) (s : State) (target : Nat)
    (hsize : 34 ≤ size)
    (hdst : readBytes data 0 6 = readBytes (memOf (cfg.Device deviceNo).hwaddr) 0 6)
    (htype : ntohs (load16 data 12) = ETHERTYPE_IP)
    (hck : checkIPchecksum (offsetMem data 14)
      (optionBuf junk (offsetMem data 34) ((ihl (offsetMem data 14) : Int) * 4 - 20))
      ((ihl (offsetMem data 14) : Int) * 4 - 20) = 1)
    (httl : byteAt data 22 ≠ 1)
    (htno : tno = if deviceNo = 0 then 1 else 0)
    (hlocal : ¬ (load32 data 30 &&& (cfg.Device tno).netmask = (cfg.Device tno).subnet ∧
      load32 data 30 = (cfg.Device tno).addr))
    (htarget : target = if load32 data 30 &&& (cfg.Device tno).netmask = (cfg.Device tno).subnet
      then load32 data 30 else cfg.NextRouter) :
    AnalyzePacket cfg deviceNo data size now junk s
      = resolveAndSend cfg tno target data size
          (optionBuf junk (offsetMem data 34) ((ihl (offsetMem data 14) : Int) * 4 - 20))
          ((ihl (offsetMem data 14) : Int) * 4 - 20) now s := by
  rw [AnalyzePacket_validated cfg deviceNo tno data size now junk s hsize hdst htype hck htno,
    if_neg httl, htarget]
  by_cases hseg : load32 data 30 &&& (cfg.Device tno).netmask = (cfg.Device tno).subnet
  · have hne : ¬ load32 data 30 = (cfg.Device tno).addr := fun h => hlocal ⟨hseg, h⟩
    rw [if_pos hseg, if_neg hne, if_pos hseg]
  · rw [if_neg hseg, if_neg hseg]

/-- C39: the frame effect of forwarding. The frame the resolve-and-send step
of `AnalyzePacket` writes when it forwards at once, and every frame
`BufferSendOne` writes for a pending packet, has the length of the frame
received and the bytes of that frame everywhere except in the Ethernet
destination and source (bytes 0 to 11), the TTL (byte 22) and the IPv4 header
checksum (bytes 24 and 25): ethertype, the other header fields, options and
payload are unchanged. -/
theorem forwarding_frame_effect (cfg : Config) (tno : Fin 2) (i : Nat) (junk : Mem)
    (s1 s2 : State) (e : IP2MAC) (target : Nat) (data : Mem) (size : Int) (option : Mem)
    (optionLen now : Int) (r : SearchResult)
    (hsize : 34 ≤ size)
    (hget : (s1.Ip2Macs tno).data[i]? = some e)
    (hsz : ∀ p ∈ e.sd.top, 34 ≤ p.size)
    (hr : r = Ip2MacSearch tno.val target none now (s2.Ip2Macs tno) s2.SendReq)
    (hq : ¬ (r.entry.flag = FLAG_NG ∨ r.entry.sd.dno ≠ 0)) :
    ((resolveAndSend cfg tno target data size option optionLen now s2).2.out
        = s2.out ++ (if r.entry.flag = FLAG_OK then []
            else [((cfg.Device tno).soc, arpRequestFrame target (memOf bcast)
              (cfg.Device tno).addr (memOf (cfg.Device tno).hwaddr))])
          ++ [((cfg.Device tno).soc,
              readBytes (forwardFrame data option optionLen
                (readBytes (memOf r.entry.hwaddr) 0 6) (cfg.Device tno).hwaddr) 0 size.toNat)] ∧
      (readBytes (forwardFrame data option optionLen
          (readBytes (memOf r.entry.hwaddr) 0 6) (cfg.Device tno).hwaddr) 0 size.toNat).length
        = size.toNat ∧
      ∀ j, j < size.toNat → 12 ≤ j → j ≠ 22 → j ≠ 24 → j ≠ 25 →
        (readBytes (forwardFrame data option optionLen
          (readBytes (memOf r.entry.hwaddr) 0 6) (cfg.Device tno).hwaddr) 0 size.toNat).getD j 0
          = byteAt data j) ∧
    ((BufferSendOne cfg tno i junk s1).2.out
        = s1.out ++ e.sd.top.map (fun p => ((cfg.Device tno).soc,
            flushFrame (cfg.Device tno) e.hwaddr zeroMem p.size p.data)) ∧
      ∀ p ∈ e.sd.top,
        (flushFrame (cfg.Device tno) e.hwaddr zeroMem p.size p.data).length = p.size ∧
        ∀ j, j < p.size → 12 ≤ j → j ≠ 22 → j ≠ 24 → j ≠ 25 →
          (flushFrame (cfg.Device tno) e.hwaddr zeroMem p.size p.data).getD j 0
            = byteAt (memOf p.data) j) := by
  have hn : 34 ≤ size.toNat := by omega
  constructor
  · refine ⟨(resolveAndSend_sends cfg tno target data size option optionLen now s2 r hr hq).2.2,
      length_readBytes _ _ _, ?_⟩
    intro j hj h12 h22 h24 h25
    rw [forwardFrame_layout data option optionLen _ _ size.toNat hn]
    exact (rewritten_layout (readBytes (memOf (readBytes (memOf r.entry.hwaddr) 0 6)) 0 6)
      (readBytes (memOf (cfg.Device tno).hwaddr) 0 6)
      (bytes16 (checksum2 (memOf (updatedHeader data)) 20 option optionLen)) data
      ((byteAt data 22 + 255) % 256) size.toNat (length_readBytes _ _ _)
      (length_readBytes _ _ _) rfl hn).2.2 j hj h12 h22 h24 h25
  · refine ⟨(BufferSendOne_at cfg tno i junk s1 e hget).2.1, ?_⟩
    intro p hp
    have hp34 := hsz p hp
    rw [flushFrame_layout (cfg.Device tno) e.hwaddr zeroMem p.size p.data hp34]
    have h := rewritten_layout (readBytes (memOf e.hwaddr) 0 6)
      (readBytes (memOf (cfg.Device tno).hwaddr) 0 6)
      (bytes16 (checksum2 (memOf (updatedHeader (memOf p.data))) 20
          (optionBuf zeroMem (offsetMem (memOf p.data) 34)
            ((ihl (offsetMem (memOf p.data) 14) : Int) * 4 - 20))
          ((ihl (offsetMem (memOf p.data) 14) : Int) * 4 - 20)))
      (memOf p.data) ((byteAt (memOf p.data) 22 + 255) % 256) p.size (length_readBytes _ _ _)
      (length_readBytes _ _ _) rfl hp34
    exact ⟨h.1, h.2.2⟩

/-- Witness for C39: `frameTtl64` sent at once in `resolvedState`; the flush
side is that of `pendingState`. -/
theorem forwarding_frame_effect_witness :
    (readBytes (forwardFrame frameTtl64 zeroMem 0
        (readBytes (memOf (Ip2MacSearch 1 0x0701000a none 5 (resolvedState.Ip2Macs 1)
          resolvedState.SendReq).entry.hwaddr) 0 6) (sampleConfig.Device 1).hwaddr) 0
        (34 : Int).toNat).getD 30 0 = byteAt frameTtl64 30 :=
  (forwarding_frame_effect sampleConfig 1 0 zeroMem pendingState resolvedState pendingEntry
    0x0701000a frameTtl64 34 zeroMem 0 5
    (Ip2MacSearch 1 0x0701000a none 5 (resolvedState.Ip2Macs 1) resolvedState.SendReq)
    (by decide) rfl (by decide) rfl (by decide)).1.2.2 30 (by decide) (by decide) (by decide)
    (by decide) (by decide)

/-! ## Theorems: a frame that arrives with TTL 0 -/

/-- C34: a frame that arrives with `ttl = 0` is not caught by the TTL check,
which tests `ttl - 1 == 0`. For every otherwise valid IPv4 frame with
`ttl = 0`, not for local delivery, whose target is Resolved with nothing
pending, `AnalyzePacket` returns 0 and its only write is the forwarded frame
on the socket of the other interface, of the size received, with the TTL byte
wrapped to 255: no ICMP Time-Exceeded message is written. -/
theorem ttl_zero_is_forwarded_with_ttl_255 (cfg : Config) (deviceNo tno : Fin 2) (data : Mem)
    (size now : Int) (junk : Mem) (s : State) (target : Nat) (r : SearchResult)
    (hsize : 34 ≤ size)
    (hdst : readBytes data 0 6 = readBytes (memOf (cfg.Device deviceNo).hwaddr) 0 6)
    (htype : ntohs (load16 data 12) = ETHERTYPE_IP)
    (hck : checkIPchecksum (offsetMem data 14)
      (optionBuf junk (offsetMem data 34) ((ihl (offsetMem data 14) : Int) * 4 - 20))
      ((ihl (offsetMem data 14) : Int) * 4 - 20) = 1)
    (httl : byteAt data 22 = 0)
    (htno : tno = if deviceNo = 0 then 1 else 0)
    (hlocal : ¬ (load32 data 30 &&& (cfg.Device tno).netmask = (cfg.Device tno).subnet ∧
      load32 data 30 = (cfg.Device tno).addr))
    (htarget : target = if load32 data 30 &&& (cfg.Device tno).netmask = (cfg.Device tno).subnet
      then load32 data 30 else cfg.NextRouter)
    (hr : r = Ip2MacSearch tno.val target none now (s.Ip2Macs tno) s.SendReq)
    (hres : r.entry.flag = FLAG_OK) (hempty : r.entry.sd.top = []) :
    (AnalyzePacket cfg deviceNo data size now junk s).1 = 0 ∧
    (AnalyzePacket cfg deviceNo data size now junk s).2.out
      = s.out ++ [((cfg.Device tno).soc,
          readBytes (memOf r.entry.hwaddr) 0 6 ++ readBytes (memOf (cfg.Device tno).hwaddr) 0 6
          ++ readBytes data 12 10 ++ [255, byteAt data 23]
          ++ bytes16 (checksum2 (memOf (updatedHeader data)) 20
              (optionBuf junk (offsetMem data 34) ((ihl (offsetMem data 14) : Int) * 4 - 20))
              ((ihl (offsetMem data 14) : Int) * 4 - 20))
          ++ readBytes data 26 (size.toNat - 26))] ∧
    (readBytes (memOf r.entry.hwaddr) 0 6 ++ readBytes (memOf (cfg.Device tno).hwaddr) 0 6
      ++ readBytes data 12 10 ++ [255, byteAt data 23]
      ++ bytes16 (checksum2 (memOf (updatedHeader data)) 20
          (optionBuf junk (offsetMem data 34) ((ihl (offsetMem data 14) : Int) * 4 - 20))
          ((ihl (offsetMem data 14) : Int) * 4 - 20))
      ++ readBytes data 26 (size.toNat - 26)).length = size.toNat ∧
    (readBytes (memOf r.entry.hwaddr) 0 6 ++ readBytes (memOf (cfg.Device tno).hwaddr) 0 6
      ++ readBytes data 12 10 ++ [255, byteAt data 23]
      ++ bytes16 (checksum2 (memOf (updatedHeader data)) 20
          (optionBuf junk (offsetMem data 34) ((ihl (offsetMem data 14) : Int) * 4 - 20))
          ((ihl (offsetMem data 14) : Int) * 4 - 20))
      ++ readBytes data 26 (size.toNat - 26)).getD 22 0 = 255 := by
  have hn : 34 ≤ size.toNat := by omega
  have hq : ¬ (r.entry.flag = FLAG_NG ∨ r.entry.sd.dno ≠ 0) := by
    intro h
    rcases h with h | h
    · rw [hres] at h; exact absurd h (by decide)
    · exact h (by simp [SEND_DATA.dno, hempty])
  have hA := AnalyzePacket_routes cfg deviceNo tno data size now junk s target hsize hdst htype
    hck (by rw [httl]; decide) htno hlocal htarget
  have hS := resolveAndSend_sends cfg tno target data size
    (optionBuf junk (offsetMem data 34) ((ihl (offsetMem data 14) : Int) * 4 - 20))
    ((ihl (offsetMem data 14) : Int) * 4 - 20) now s r hr hq
  have hL := rewritten_layout (readBytes (memOf r.entry.hwaddr) 0 6)
    (readBytes (memOf (cfg.Device tno).hwaddr) 0 6)
    (bytes16 (checksum2 (memOf (updatedHeader data)) 20
      (optionBuf junk (offsetMem data 34) ((ihl (offsetMem data 14) : Int) * 4 - 20))
      ((ihl (offsetMem data 14) : Int) * 4 - 20))) data 255 size.toNat
    (length_readBytes _ _ _) (length_readBytes _ _ _) rfl hn
  refine ⟨by rw [hA]; exact hS.1, ?_, hL.1, hL.2.1⟩
  rw [hA, hS.2.2, if_pos hres, List.append_nil,
    forwardFrame_layout data _ _ _ _ size.toNat hn, byteAt_memOf_readBytes_self, httl]

/-- Witness for C34: `frameTtl0` read on interface 0 of `sampleConfig` while
10.0.1.7 is Resolved with nothing pending. -/
theorem ttl_zero_is_forwarded_with_ttl_255_witness :
    (AnalyzePacket sampleConfig 0 frameTtl0 34 5 zeroMem resolvedState).1 = 0 :=
  (ttl_zero_is_forwarded_with_ttl_255 sampleConfig 0 1 frameTtl0 34 5 zeroMem resolvedState
    0x0701000a (Ip2MacSearch 1 0x0701000a none 5 (resolvedState.Ip2Macs 1) resolvedState.SendReq)
    (by decide) (by decide) (by decide) (by decide) (by decide) (by decide) (by decide)
    (by decide) rfl (by decide) (by decide)).1

/-! ## Theorems: a header length below five words -/

/-- With a second length that is zero or negative, `checksum2` over a 20-byte
first buffer reads nothing of the second buffer and is `checksum` over the
first. -/
theorem checksum2_20_nonpos (d o : Mem) (len : Int) (h : len ≤ 0) :
    checksum2 d 20 o len = checksum d 20 := by
  have h0 : len.toNat = 0 := by omega
  rw [checksum2_20_int, h0, checksum_20]
  simp [words]

theorem forwardFrame_nonpos (data option : Mem) (optionLen : Int) (hwaddr shost : List Nat)
    (h : optionLen ≤ 0) :
    forwardFrame data option optionLen hwaddr shost = forwardFrame data option 0 hwaddr shost := by
  unfold forwardFrame
  simp only [checksum2_20_nonpos _ option optionLen h,
    checksum2_20_nonpos _ option 0 (Int.le_refl 0)]

theorem resolveAndSend_nonpos (cfg : Config) (tno : Fin 2) (target : Nat) (data : Mem)
    (size : Int) (option : Mem) (optionLen : Int) (now : Int) (s : State) (h : optionLen ≤ 0) :
    resolveAndSend cfg tno target data size option optionLen now s
      = resolveAndSend cfg tno target data size option 0 now s := by
  unfold resolveAndSend
  simp only [forwardFrame_nonpos data option optionLen _ _ h]

/-- The header validation when the header declares no options or less than a
header: the checksum is taken over the 20 fixed header bytes. -/
theorem checkIPchecksum_nonpos (iphdr option : Mem) (optionLen : Int) (h : optionLen ≤ 0) :
    checkIPchecksum iphdr option optionLen
      = if checksum (memOf (readBytes iphdr 0 20)) 20 = 0 ∨
          checksum (memOf (readBytes iphdr 0 20)) 20 = 0xFFFF then 1 else 0 := by
  unfold checkIPchecksum
  by_cases h0 : optionLen = 0
  · simp only [if_pos h0]
  · simp only [if_neg h0, checksum2_20_nonpos _ option optionLen h]

/-- C35: an IPv4 header whose length nibble is below 5 is not rejected as
malformed. For every frame with `ihl ≤ 5` (so for `ihl` in 0..4 and for the
option-less `ihl = 5` alike) the router validates the header checksum over
exactly the 20 fixed header bytes; when it fails the frame is dropped, and
when it validates the frame goes through the TTL check, route selection and
the resolve-and-send step with no option bytes, `optionLen` counting as 0, so
that a forwarded frame carries `checksum` over the 20 updated header bytes. A
frame with `ihl < 5` is therefore processed by the same formula as one with
`ihl = 5`. -/
theorem short_header_length_is_processed_as_no_options (cfg : Config) (deviceNo tno : Fin 2)
    (data : Mem) (size now : Int) (junk : Mem) (s : State)
    (hsize : 34 ≤ size)
    (hdst : readBytes data 0 6 = readBytes (memOf (cfg.Device deviceNo).hwaddr) 0 6)
    (htype : ntohs (load16 data 12) = ETHERTYPE_IP)
    (hihl : ihl (offsetMem data 14) ≤ 5)
    (htno : tno = if deviceNo = 0 then 1 else 0) :
    (checkIPchecksum (offsetMem data 14)
        (optionBuf junk (offsetMem data 34) ((ihl (offsetMem data 14) : Int) * 4 - 20))
        ((ihl (offsetMem data 14) : Int) * 4 - 20)
      = if checksum (memOf (readBytes data 14 20)) 20 = 0 ∨
          checksum (memOf (readBytes data 14 20)) 20 = 0xFFFF then 1 else 0) ∧
    (AnalyzePacket cfg deviceNo data size now junk s =
      if checksum (memOf (readBytes data 14 20)) 20 = 0 ∨
          checksum (memOf (readBytes data 14 20)) 20 = 0xFFFF then
        if byteAt data 22 = 1 then (-1, SendIcmpTimeExceeded cfg deviceNo data size s)
        else if load32 data 30 &&& (cfg.Device tno).netmask = (cfg.Device tno).subnet then
          if load32 data 30 = (cfg.Device tno).addr then (1, s)
          else resolveAndSend cfg tno (load32 data 30) data size junk 0 now s
        else resolveAndSend cfg tno cfg.NextRouter data size junk 0 now s
      else (-1, s)) ∧
    (∀ (hwaddr shost : List Nat) (n : Nat), 34 ≤ n →
      readBytes (forwardFrame data junk 0 hwaddr shost) 0 n =
        readBytes (memOf hwaddr) 0 6 ++ readBytes (memOf shost) 0 6 ++ readBytes data 12 10
        ++ [(byteAt data 22 + 255) % 256, byteAt data 23]
        ++ bytes16 (checksum (memOf (updatedHeader data)) 20)
        ++ readBytes data 26 (n - 26)) := by
  have hle : (ihl (offsetMem data 14) : Int) * 4 - 20 ≤ 0 := by omega
  have hbuf : optionBuf junk (offsetMem data 34) ((ihl (offsetMem data 14) : Int) * 4 - 20)
      = junk := by
    unfold optionBuf
    rw [if_neg (by omega)]
  have hck := checkIPchecksum_nonpos (offsetMem data 14) junk
    ((ihl (offsetMem data 14) : Int) * 4 - 20) hle
  rw [readBytes_offsetMem, Nat.add_zero] at hck
  rw [hbuf]
  refine ⟨hck, ?_, ?_⟩
  · by_cases hv : checksum (memOf (readBytes data 14 20)) 20 = 0 ∨
        checksum (memOf (readBytes data 14 20)) 20 = 0xFFFF
    · rw [if_pos hv] at hck ⊢
      rw [AnalyzePacket_validated cfg deviceNo tno data size now junk s hsize hdst htype
        (by rw [hbuf]; exact hck) htno, hbuf]
      simp only [resolveAndSend_nonpos cfg tno _ data size junk _ now s hle]
    · rw [if_neg hv] at hck ⊢
      exact AnalyzePacket_bad_header_checksum cfg deviceNo data size now junk s hsize hdst htype
        (by rw [hbuf]; exact hck)
  · intro hwaddr shost n hn
    rw [forwardFrame_layout data junk 0 hwaddr shost n hn,
      checksum2_20_nonpos _ junk 0 (Int.le_refl 0)]

/-- Witness for C35: `frameIhl4`, whose header length nibble is 4, read on
interface 0 of `sampleConfig` while 10.0.1.7 is Resolved: the header checksum
over its 20 fixed bytes validates and the frame is handed to the
resolve-and-send step. -/
theorem short_header_length_is_processed_as_no_options_witness :
    ihl (offsetMem frameIhl4 14) = 4 ∧
    AnalyzePacket sampleConfig 0 frameIhl4 34 5 zeroMem resolvedState =
      if checksum (memOf (readBytes frameIhl4 14 20)) 20 = 0 ∨
          checksum (memOf (readBytes frameIhl4 14 20)) 20 = 0xFFFF then
        if byteAt frameIhl4 22 = 1 then
          (-1, SendIcmpTimeExceeded sampleConfig 0 frameIhl4 34 resolvedState)
        else if load32 frameIhl4 30 &&& (sampleConfig.Device 1).netmask
            = (sampleConfig.Device 1).subnet then
          if load32 frameIhl4 30 = (sampleConfig.Device 1).addr then (1, resolvedState)
          else resolveAndSend sampleConfig 1 (load32 frameIhl4 30) frameIhl4 34 zeroMem 0 5
            resolvedState
        else resolveAndSend sampleConfig 1 sampleConfig.NextRouter frameIhl4 34 zeroMem 0 5
          resolvedState
      else (-1, resolvedState) :=
  ⟨by decide,
    (short_header_length_is_processed_as_no_options sampleConfig 0 1 frameIhl4 34 5 zeroMem
      resolvedState (by decide) (by decide) (by decide) (by decide) (by decide)).2.1⟩

/-! ## Theorems: one entry in use per address -/

theorem sweep_addr (now : Int) (x : IP2MAC) : (sweep now x).addr = x.addr := by
  unfold sweep
  split <;> rfl

theorem sweep_flag (now : Int) (x : IP2MAC) :
    (sweep now x).flag = FLAG_FREE ∨ sweep now x = x := by
  unfold sweep
  split
  · exact Or.inl rfl
  · exact Or.inr rfl

theorem touched_addr (hw : Option Mem) (now : Int) (e : IP2MAC) :
    (touched hw now e).addr = e.addr := by
  unfold touched
  cases hw with
  | none => simp only; split <;> rfl
  | some h => simp only [observed]; split <;> rfl

theorem sweep_rel_left (now : Int) (x y : IP2MAC)
    (h : x.flag = FLAG_FREE ∨ y.flag = FLAG_FREE ∨ x.addr ≠ y.addr) :
    (sweep now x).flag = FLAG_FREE ∨ y.flag = FLAG_FREE ∨ (sweep now x).addr ≠ y.addr := by
  rcases sweep_flag now x with hf | hf
  · exact Or.inl hf
  · rw [hf]; exact h

theorem uniqueKeys_map_sweep (now : Int) (l : List IP2MAC) (h : uniqueKeys l) :
    uniqueKeys (l.map (sweep now)) := by
  unfold uniqueKeys at h ⊢
  refine List.Pairwise.map (sweep now) ?_ h
  intro a b hab
  rcases sweep_flag now a with hf | hf
  · exact Or.inl hf
  · rcases sweep_flag now b with hg | hg
    · exact Or.inr (Or.inl hg)
    · rw [hf, hg]; exact hab

/-- After the sweep, an entry the scan went past is Free or is for another
address. -/
theorem swept_passedOver (addr : Nat) (hw : Option Mem) (now : Int) (x : IP2MAC)
    (h : goesPast addr hw now x) :
    (sweep now x).flag = FLAG_FREE ∨ (sweep now x).addr ≠ addr := by
  rcases h with h | h | ⟨_, h1, h2⟩
  · left; rw [sweep_of_free now x h]; exact h
  · right; rw [sweep_addr]; exact h
  · left
    simp [sweep, expired_of_negative now x h1 h2, released]

theorem uniqueKeys_hit (hw : Option Mem) (now : Int) (mid tl : List IP2MAC)
    (e : IP2MAC) (he : e.flag ≠ FLAG_FREE) (h : uniqueKeys (mid ++ e :: tl)) :
    uniqueKeys (mid.map (sweep now) ++ touched hw now e :: tl) := by
  unfold uniqueKeys at h ⊢
  rw [List.pairwise_append, List.pairwise_cons] at h ⊢
  obtain ⟨hmid, ⟨hetl, htl⟩, hcross⟩ := h
  refine ⟨uniqueKeys_map_sweep now mid hmid, ⟨?_, htl⟩, ?_⟩
  · intro b hb
    rcases hetl b hb with h1 | h1 | h1
    · exact absurd h1 he
    · exact Or.inr (Or.inl h1)
    · exact Or.inr (Or.inr (by rw [touched_addr]; exact h1))
  · intro a ha b hb
    obtain ⟨x, hx, rfl⟩ := List.mem_map.1 ha
    rcases List.mem_cons.1 hb with h1 | h1
    · subst h1
      rcases sweep_rel_left now x e (hcross x hx e (List.mem_cons_self _ _)) with h2 | h2 | h2
      · exact Or.inl h2
      · exact absurd h2 he
      · exact Or.inr (Or.inr (by rw [touched_addr]; exact h2))
    · exact sweep_rel_left now x b (hcross x hx b (List.mem_cons_of_mem _ h1))

theorem uniqueKeys_insert (a b : List IP2MAC) (x new : IP2MAC)
    (hall : ∀ z ∈ a ++ x :: b, z.flag = FLAG_FREE ∨ z.addr ≠ new.addr)
    (h : uniqueKeys (a ++ x :: b)) : uniqueKeys (a ++ new :: b) := by
  unfold uniqueKeys at h ⊢
  rw [List.pairwise_append, List.pairwise_cons] at h ⊢
  obtain ⟨ha, ⟨_, hb⟩, hcross⟩ := h
  refine ⟨ha, ⟨?_, hb⟩, ?_⟩
  · intro z hz
    rcases hall z (List.mem_append_right _ (List.mem_cons_of_mem _ hz)) with h1 | h1
    · exact Or.inr (Or.inl h1)
    · exact Or.inr (Or.inr (Ne.symm h1))
  · intro z hz w hw
    rcases List.mem_cons.1 hw with h1 | h1
    · subst h1
      rcases hall z (List.mem_append_left _ hz) with h2 | h2
      · exact Or.inl h2
      · exact Or.inr (Or.inr h2)
    · exact hcross z hz w (List.mem_cons_of_mem _ h1)

theorem uniqueKeys_append_new (l : List IP2MAC) (new : IP2MAC)
    (hall : ∀ z ∈ l, z.flag = FLAG_FREE ∨ z.addr ≠ new.addr)
    (h : uniqueKeys l) : uniqueKeys (l ++ [new]) := by
  unfold uniqueKeys at h ⊢
  rw [List.pairwise_append]
  refine ⟨h, List.pairwise_singleton _ _, ?_⟩
  intro z hz w hw
  rw [List.mem_singleton] at hw
  subst hw
  rcases hall z hz with h2 | h2
  · exact Or.inl h2
  · exact Or.inr (Or.inr h2)

/-- One call of `Ip2MacSearch` keeps both properties of a table: at most one
entry in use per address, and no more entries than the allocated capacity. -/
theorem Ip2MacSearch_keeps_invariant (deviceNo addr : Nat) (hw : Option Mem) (now : Int)
    (tab : Ip2MacTable) (req : SendReqQueue)
    (hu : uniqueKeys tab.data) (hs : tab.data.length ≤ tab.size) :
    uniqueKeys (Ip2MacSearch deviceNo addr hw now tab req).table.data ∧
    (Ip2MacSearch deviceNo addr hw now tab req).table.data.length
      ≤ (Ip2MacSearch deviceNo addr hw now tab req).table.size := by
  rcases goesPast_split addr hw now tab.data with hall | ⟨mid, e, tl, hdata, hmid, he⟩
  · have hsw : ∀ z ∈ tab.data.map (sweep now),
        z.flag = FLAG_FREE ∨ z.addr ≠ (newEntry deviceNo addr hw now).addr := by
      intro z hz
      obtain ⟨x, hx, rfl⟩ := List.mem_map.1 hz
      exact swept_passedOver addr hw now x (hall x hx)
    have hum := uniqueKeys_map_sweep now tab.data hu
    rw [Ip2MacSearch_miss deviceNo addr hw now tab req hall]
    cases hff : firstFree (tab.data.map (sweep now)) with
    | none =>
      refine ⟨uniqueKeys_append_new _ _ hsw hum, ?_⟩
      simp only [List.length_append, List.length_map, List.length_singleton]
      split_ifs <;> omega
    | some j =>
      obtain ⟨a, x, b, hl, hj, _, _⟩ := firstFree_some _ j hff
      simp only
      rw [hl, hj, set_append_cons]
      rw [hl] at hsw hum
      refine ⟨uniqueKeys_insert a b x _ hsw hum, ?_⟩
      have hlen := congrArg List.length hl
      simp only [List.length_map, List.length_append, List.length_cons] at hlen ⊢
      omega
  · have hfree : e.flag ≠ FLAG_FREE := fun h => he (Or.inl h)
    rw [Ip2MacSearch_hit deviceNo addr hw now tab req mid tl e hdata hmid he]
    rw [hdata] at hu hs
    refine ⟨uniqueKeys_hit hw now mid tl e hfree hu, ?_⟩
    simp only [List.length_append, List.length_map, List.length_cons] at hs ⊢
    exact hs

/-- C36: in every state reached from the empty tables by any sequence of
`Ip2MacSearch` calls (queries and observations, on either interface, at any
clock values), each table holds at most one entry in use per IPv4 address,
and its entry count `no` does not exceed its allocated capacity `size`. -/
theorem reachable_tables_have_unique_keys (calls : List SearchCall) (d : Fin 2) :
    uniqueKeys ((runSearches calls (fun _ => emptyTable, [])).1 d).data ∧
    (∀ (a b : List IP2MAC) (x y : IP2MAC) (c : List IP2MAC),
      ((runSearches calls (fun _ => emptyTable, [])).1 d).data = a ++ x :: b ++ y :: c →
      x.flag ≠ FLAG_FREE → y.flag ≠ FLAG_FREE → x.addr ≠ y.addr) ∧
    ((runSearches calls (fun _ => emptyTable, [])).1 d).data.length
      ≤ ((runSearches calls (fun _ => emptyTable, [])).1 d).size := by
  have key : ∀ (calls : List SearchCall) (g : (Fin 2 → Ip2MacTable) × SendReqQueue),
      (∀ d, uniqueKeys (g.1 d).data ∧ (g.1 d).data.length ≤ (g.1 d).size) →
      ∀ d, uniqueKeys ((runSearches calls g).1 d).data ∧
        ((runSearches calls g).1 d).data.length ≤ ((runSearches calls g).1 d).size := by
    intro calls
    induction calls with
    | nil => intro g hg d; exact hg d
    | cons c calls ih =>
      intro g hg d
      simp only [runSearches, List.foldl_cons]
      apply ih
      intro d2
      simp only [SearchCall.run]
      by_cases hd : d2 = c.deviceNo
      · rw [hd, Function.update_same]
        exact Ip2MacSearch_keeps_invariant _ _ _ _ _ _ (hg c.deviceNo).1 (hg c.deviceNo).2
      · rw [Function.update_noteq hd]
        exact hg d2
  have h := key calls (fun _ => emptyTable, [])
    (fun _ => ⟨List.Pairwise.nil, Nat.le_refl _⟩) d
  refine ⟨h.1, ?_, h.2⟩
  intro a b x y c hdata hx hy
  have hu := h.1
  unfold uniqueKeys at hu
  rw [hdata, List.append_assoc, List.pairwise_append] at hu
  have h2 := hu.2.1
  rw [List.cons_append, List.pairwise_cons] at h2
  rcases h2.1 y (List.mem_append_right _ (List.mem_cons_self _ _)) with h3 | h3 | h3
  · exact absurd h3 hx
  · exact absurd h3 hy
  · exact h3

/-! ## Theorems: the flush of a frame whose options were not received -/

/-- C28 (counterexample): `frameShortOptions`, 34 bytes received with four
option bytes declared, passes the header validation of `AnalyzePacket` (the
copy of the options takes the bytes 1, 2, 3, 4 that lie behind the received
data). Sent at once in `resolvedState` it goes out with the check bytes 97,
208; its stored copy of 34 bytes, flushed by `BufferSendOne` from
`shortOptionsState` with the same hardware address aa:bb:cc:dd:ee:ff, goes out
with the check bytes 101, 214, the options being read from behind the stored
bytes. -/
theorem flush_of_short_options_frame_differs :
    checkIPchecksum (offsetMem frameShortOptions 14)
      (optionBuf zeroMem (offsetMem frameShortOptions 34)
        ((ihl (offsetMem frameShortOptions 14) : Int) * 4 - 20))
      ((ihl (offsetMem frameShortOptions 14) : Int) * 4 - 20) = 1 ∧
    (34 : Int) < 34 + ((ihl (offsetMem frameShortOptions 14) : Int) * 4 - 20) ∧
    shortOptionsEntry.sd.top = [⟨1, 34, readBytes frameShortOptions 0 34⟩] ∧
    shortOptionsEntry.hwaddr
      = ((resolvedState.Ip2Macs 1).data.getD 0 default).hwaddr ∧
    (AnalyzePacket sampleConfig 0 frameShortOptions 34 5 zeroMem resolvedState).2.out
      = [(4, [0xaa, 0xbb, 0xcc, 0xdd, 0xee, 0xff, 2, 0, 0, 0, 0, 2, 8, 0,
           0x46, 0, 0, 24, 0, 0, 0, 0, 63, 1, 97, 208, 10, 0, 0, 9, 10, 0, 1, 7])] ∧
    (BufferSendOne sampleConfig 1 0 zeroMem shortOptionsState).2.out
      = [(4, [0xaa, 0xbb, 0xcc, 0xdd, 0xee, 0xff, 2, 0, 0, 0, 0, 2, 8, 0,
           0x46, 0, 0, 24, 0, 0, 0, 0, 63, 1, 101, 214, 10, 0, 0, 9, 10, 0, 1, 7])] ∧
    (AnalyzePacket sampleConfig 0 frameShortOptions 34 5 zeroMem resolvedState).2.out
      ≠ (BufferSendOne sampleConfig 1 0 zeroMem shortOptionsState).2.out := by
  decide

end Router
